import Mathlib

/-!
# IP470 digital I/O driver (`src/ip470/drvAvme470.c`)

A shallow embedding of the Acromag IP470 driver: the card registry (a singly
linked list of `struct config470`), the byte-wide register access layer with
its bank-select protocol, and the logical read/write entry points.

Conventions of the embedding
* The register block is a byte store `Hw.mem` (address ↦ byte) that reads back
  what was written; every `in_8` / `out_8` is also recorded, in time order, in
  `Hw.log`.
* `unsigned char` values are naturals reduced `% 256`; `long` / `unsigned long`
  are 32 bits wide (the PowerPC vxWorks/RTEMS targets of the driver).
* `printf` output is not modelled.
* The interrupt service routines run on the same store, so a sense register
  reads back the clear mask last written to it; calls to the carrier, to
  `scanIoRequest` and to the user function are recorded in call order.
-/

namespace Avme470

/-! ## Constants of `drvAvme470.h` and `drvAvme470.c` -/

def OK : Nat := 0

def M_avme470 : Nat := 600 <<< 16

def S_avme470_duplicateDevice : Nat := M_avme470 ||| 1
def S_avme470_modeError : Nat := M_avme470 ||| 2
def S_avme470_intHandlerError : Nat := M_avme470 ||| 3
def S_avme470_intConnectError : Nat := M_avme470 ||| 4
def S_avme470_validateFailed : Nat := M_avme470 ||| 5
def S_avme470_mallocFailed : Nat := M_avme470 ||| 6
def S_avme470_portError : Nat := M_avme470 ||| 7
def S_avme470_bitError : Nat := M_avme470 ||| 8
def S_avme470_readError : Nat := M_avme470 ||| 9
def S_avme470_dataFlagError : Nat := M_avme470 ||| 10
def S_avme470_cardNotFound : Nat := M_avme470 ||| 11
def S_avme470_vectorInvalid : Nat := M_avme470 ||| 14
def S_avme470_eventRegInvalid : Nat := M_avme470 ||| 15
def S_avme470_debounceRegInvalid : Nat := M_avme470 ||| 16
def S_avme470_writeError : Nat := M_avme470 ||| 17

def BANK0 : Nat := 0
def BANK1 : Nat := 1
def BANK2 : Nat := 2

def MAXPORTS : Nat := 6
def MAXBITS : Nat := 8

def BIT : Int := 0
def NIBBLE : Int := 1
def PORT : Int := 2
def WORD : Int := 3

def RESET : Nat := 2
def INTEN : Nat := 1

def STANDARD : Nat := 0
def ENHANCED : Nat := 1

def NOTUSED : Nat := 0
def COS : Nat := 1
def LEVEL : Nat := 2

def MASK : Nat := 2
def EVCONTROL : Nat := 4
def DEBCLOCK : Nat := 8
def DEBCONTROL : Nat := 0x10
def DEBDURATION : Nat := 0x20
def RESET_INTEN : Nat := 0x40
def VECT : Nat := 0x80

def IP_MANUFACTURER_ACROMAG : Nat := 0xa3
def IP_MODEL_ACROMAG_IP470 : Nat := 0x08
def PARAM_MASK_STANDARD : Nat := 0x43
def PARAM_MASK_ENHANCED : Nat := 0xFF
def OUTPUT_MASK : Nat := 0x3F

/-- Width in bits of `long` and `unsigned long` on the driver's targets. -/
def longBits : Nat := 32

/-- The C operator `~` on an `unsigned long` (and, on the low 32 bits, on a
promoted `int`): every one of the `longBits` bits is flipped. -/
def ulongNot (x : Nat) : Nat := 2 ^ longBits - (x % 2 ^ longBits + 1)

/-! ## Register store -/

/-- One register access: a byte read (`in_8`) or a byte write (`out_8`). -/
inductive Access where
  | rd (addr val : Nat)
  | wr (addr val : Nat)
deriving DecidableEq, Repr

/-- The simulated register backing store together with the trace of accesses. -/
structure Hw where
  mem : Nat → Nat
  log : List Access

/-- Offsets of `struct map470`: `port[i].b_select` is the odd byte of pair `i`. -/
def b_select (brd_ptr i : Nat) : Nat := brd_ptr + (2 * i + 1)

/-- Offset of `ier` in `struct map470`: 16 + 1 + 14. -/
def ier (brd_ptr : Nat) : Nat := brd_ptr + 31

/-- Offset of `ivr` in `struct map470`: 31 + 1 + 15. -/
def ivr (brd_ptr : Nat) : Nat := brd_ptr + 47

/-- `avme470Input`: an `in_8` from `addr`, returned as `unsigned char`. -/
def avme470Input (hw : Hw) (addr : Nat) : Nat × Hw :=
  (hw.mem addr % 256,
   { mem := hw.mem, log := hw.log ++ [Access.rd addr (hw.mem addr % 256)] })

/-- `avme470Output`: an `out_8` of `(unsigned char)b` to `addr`. -/
def avme470Output (hw : Hw) (addr : Nat) (b : Nat) : Hw :=
  { mem := fun a => if a = addr then b % 256 else hw.mem a,
    log := hw.log ++ [Access.wr addr (b % 256)] }

/-- The writes of a trace, in time order. -/
def writesOf : List Access → List (Nat × Nat)
  | [] => []
  | Access.rd _ _ :: l => writesOf l
  | Access.wr a v :: l => (a, v) :: writesOf l

/-! ## Card configuration and registry -/

/-- The interrupt service routine a card is connected to (`isr`). -/
inductive Isr where
  | null
  | avme470COS
  | avme470LEVEL
deriving DecidableEq, Repr

/-- The fields of `struct config470` the driver logic uses; `pnext` is the list
structure of the registry. The three `IOSCANPVT` arrays (`MAXPORTS*MAXBITS`
entries each) hold handles, 0 standing for `NULL`. -/
structure config470 where
  pName : String
  card : Nat
  slot : Nat
  brd_ptr : Nat
  param : Nat
  e_mode : Nat
  mask_reg : Nat
  ev_control0 : Nat
  ev_control1 : Nat
  deb_control : Nat
  deb_duration : Nat
  deb_clock : Nat
  enable : Nat
  vector : Nat
  last_chan : Nat
  last_state : Nat
  intHandler : Nat
  isr : Isr
  usrFunc : Option String
  biScan : List Nat := List.replicate 48 0
  mbbiScan : List Nat := List.replicate 48 0
  mbbiDirectScan : List Nat := List.replicate 48 0
deriving DecidableEq, Repr

/-- The process state: the list anchored at `ptrAvme470First` and the hardware. -/
structure World where
  registry : List config470
  hw : Hw

/-- `avme470FindCard`: the first card of the list whose name compares equal. -/
def avme470FindCard : List config470 → String → Option config470
  | [], _ => none
  | plist :: pnext, name =>
    if plist.pName = name then some plist else avme470FindCard pnext name

/-- `avme470SelectBank`: returns the old bank and the store after the call. -/
def avme470SelectBank (newBank : Nat) (pconfig : config470) (hw : Hw) : Nat × Hw :=
  let r := avme470Input hw (b_select pconfig.brd_ptr 7)
  let bankBits := r.1
  let oldBank := (bankBits &&& 0xC0) >>> 6
  if oldBank = newBank then (oldBank, r.2)
  else
    let bankBits := if oldBank = BANK1 then pconfig.ev_control1 % 256 else bankBits
    let bankBits := bankBits &&& 0x3F
    let bankBits := (bankBits ||| (newBank <<< 6)) % 256
    (oldBank, avme470Output r.2 (b_select pconfig.brd_ptr 7) bankBits)

/-! ## Logical read and write -/

/-- The port loop of `avme470Read` for NIBBLE / WORD:
`for (n = 0; n < 3 && port < MAXPORTS; n++, port++) ports[n] = in(port)`.
The first argument bounds the number of iterations (at most 3 are possible). -/
def avme470ReadPorts (brd_ptr : Nat) : Nat → Nat → Nat → List Nat → Hw → List Nat × Hw
  | 0, _, _, ports, hw => (ports, hw)
  | fuel + 1, n, port, ports, hw =>
    if n < 3 ∧ port < MAXPORTS then
      let r := avme470Input hw (b_select brd_ptr port)
      avme470ReadPorts brd_ptr fuel (n + 1) (port + 1) (ports.set n r.1) r.2
    else (ports, hw)

/-- `avme470Read`: status, the value stored through `pval` (`none` when `*pval`
is not written) and the state after the call. -/
def avme470Read (w : World) (name : String) (port bit : Int) (readFlag : Int)
    (_debug : Int) : Nat × Option Nat × World :=
  if port < 0 ∨ port ≥ MAXPORTS then (S_avme470_portError, none, w)
  else if bit < 0 ∨ bit ≥ MAXBITS then (S_avme470_bitError, none, w)
  else
    match avme470FindCard w.registry name with
    | some plist =>
      let hw0 := (avme470SelectBank BANK0 plist w.hw).2
      let map_ptr := plist.brd_ptr
      if readFlag = BIT ∨ readFlag = PORT then
        let r := avme470Input hw0 (b_select map_ptr port.toNat)
        let pval :=
          if readFlag = BIT then
            (if r.1 &&& (1 <<< bit.toNat) ≠ 0 then 1 else 0)
          else r.1
        (OK, some pval, { registry := w.registry, hw := r.2 })
      else if readFlag = NIBBLE ∨ readFlag = WORD then
        let rp := avme470ReadPorts map_ptr 3 0 port.toNat [0, 0, 0] hw0
        let ports := rp.1
        let res := (ports.getD 2 0 <<< 16) + (ports.getD 1 0 <<< 8) + ports.getD 0 0
        let shift := bit.toNat
        let pval :=
          if readFlag = NIBBLE then (res >>> shift) &&& 0xF
          else (res >>> shift) &&& 0xFFFF
        (OK, some pval, { registry := w.registry, hw := rp.2 })
      else (S_avme470_dataFlagError, none, { registry := w.registry, hw := hw0 })
    | none => (S_avme470_cardNotFound, none, w)

/-- The port loop of `avme470Write` for NIBBLE / WORD:
`for ( ; nBits > 0 && port < MAXPORTS; ) { ... port++; }`.
The first argument bounds the number of iterations (`port` grows by one in
each, so `MAXPORTS` of them are never exceeded). -/
def avme470WritePorts (brd_ptr : Nat) : Nat → Nat → Nat → Int → Nat → Nat → Hw → Hw
  | 0, _, _, _, _, _, hw => hw
  | fuel + 1, port, bit, nBits, uvalue, zeroMask, hw =>
    if nBits > 0 ∧ port < MAXPORTS then
      let zeroOut := ulongNot zeroMask
      let r := avme470Input hw (b_select brd_ptr port)
      let oldport := r.1
      let newport := ((oldport &&& zeroOut) ||| uvalue) &&& 0xFF
      let hw1 :=
        if newport ≠ oldport then avme470Output r.2 (b_select brd_ptr port) newport
        else r.2
      avme470WritePorts brd_ptr fuel (port + 1) 0 (nBits - (8 - (bit : Int)))
        (uvalue >>> (8 - bit)) (zeroMask >>> (8 - bit)) hw1
    else hw

/-- `avme470Write`: status and the state after the call. `value` is a `long`,
`uvalue` its conversion to `unsigned long`. For `nBits <= 0` the mask
`(1 << nBits) - 1` is never used (the port loop does not run); it is taken
as 0 there. -/
def avme470Write (w : World) (name : String) (port bit : Int) (writeFlag : Int)
    (value : Int) (nobt : Int) (_debug : Int) : Nat × World :=
  let uvalue := (value % 2 ^ longBits).toNat
  if port < 0 ∨ port ≥ MAXPORTS then (S_avme470_portError, w)
  else if bit < 0 ∨ bit ≥ MAXBITS then (S_avme470_bitError, w)
  else
    match avme470FindCard w.registry name with
    | some plist =>
      let map_ptr := plist.brd_ptr
      if writeFlag = BIT then
        if value < 0 ∨ value > 1 then (S_avme470_writeError, w)
        else
          let bpos := (1 <<< bit.toNat) % 256
          let value := value.toNat <<< bit.toNat
          let r := avme470Input w.hw (b_select map_ptr port.toNat)
          (OK, { registry := w.registry,
                 hw := avme470Output r.2 (b_select map_ptr port.toNat)
                         ((r.1 &&& ulongNot bpos) ||| value) })
      else if writeFlag = PORT then
        if value < 0 ∨ value > 0xFF then (S_avme470_writeError, w)
        else
          (OK, { registry := w.registry,
                 hw := avme470Output w.hw (b_select map_ptr port.toNat) value.toNat })
      else if writeFlag = NIBBLE ∨ writeFlag = WORD then
        if writeFlag = NIBBLE ∧ uvalue > 0xF then (S_avme470_writeError, w)
        else if writeFlag = WORD ∧ uvalue > 0xFFFF then (S_avme470_writeError, w)
        else
          let nBits : Int := if nobt > 16 then 16 else nobt
          let nBits : Int := if writeFlag = NIBBLE ∧ nBits > 4 then 4 else nBits
          let zeroMask := (1 <<< nBits.toNat) - 1
          let zeroMask := (zeroMask <<< bit.toNat) % 2 ^ longBits
          let uvalue := (uvalue <<< bit.toNat) % 2 ^ longBits
          (OK, { registry := w.registry,
                 hw := avme470WritePorts map_ptr MAXPORTS port.toNat bit.toNat nBits
                         uvalue zeroMask w.hw })
      else (S_avme470_dataFlagError, w)
    | none => (S_avme470_cardNotFound, w)

/-! ## Card creation -/

/-- The carrier (drvIpac) calls the driver makes: board validation and the base
address of a slot's I/O space. -/
structure Ipac where
  ipmValidate : Nat → Nat → Nat → Nat → Int
  ipmBaseAddr : Nat → Nat → Nat

/-- `avme470SetConfig`: fills the block `pconfig`; fields it does not assign
keep what the block held. `mask_reg` is assigned `OUTPUT_MASK` and then 0; the
second assignment is the one that stays. -/
def avme470SetConfig (ipac : Ipac) (pName : String) (card slot : Nat) (mode intHandler : Nat)
    (usrFunc : Option String) (vector event debounce : Nat) (pconfig : config470) :
    config470 :=
  let c : config470 :=
    { pconfig with
      pName := pName, card := card, slot := slot,
      brd_ptr := ipac.ipmBaseAddr card slot,
      mask_reg := 0,
      e_mode := mode, intHandler := intHandler }
  if c.e_mode = STANDARD then
    { c with
      param := PARAM_MASK_STANDARD, ev_control0 := 0, ev_control1 := 0,
      deb_clock := 0, deb_control := 0, deb_duration := 0, enable := 0,
      vector := 0, isr := Isr.null, usrFunc := none }
  else if c.e_mode = ENHANCED then
    let c : config470 := { c with param := PARAM_MASK_ENHANCED }
    let c : config470 :=
      if c.intHandler = COS then
        { c with ev_control0 := 0xAA, ev_control1 := 0xA, isr := Isr.avme470COS }
      else if c.intHandler = LEVEL then
        { c with ev_control0 := event &&& 0xFF, ev_control1 := (event >>> 8) &&& 0xFF,
                 isr := Isr.avme470LEVEL }
      else c
    { c with
      usrFunc := usrFunc, deb_clock := 1, deb_control := 0x3F,
      deb_duration := debounce % 65536, enable := INTEN, vector := vector % 256 }
  else c

/-- The loop `for (i = 0; i < 6; i++) { out(port[i], 0); out(port[i], 0xFF); }`
of `avme470Config`. -/
def avme470ConfigPorts (brd_ptr : Nat) (hw : Hw) : Hw :=
  (List.range 6).foldl
    (fun h i => avme470Output (avme470Output h (b_select brd_ptr i) 0) (b_select brd_ptr i) 0xFF)
    hw

/-- `avme470Config`: programs the board from the configuration block. -/
def avme470Config (pconfig : config470) (hw : Hw) : Hw :=
  let bp := pconfig.brd_ptr
  let hw :=
    if pconfig.param &&& RESET_INTEN ≠ 0 ∧ pconfig.enable &&& RESET ≠ 0 then
      avme470Output hw (ier bp) RESET
    else hw
  let hw :=
    if pconfig.param &&& ENHANCED ≠ 0 ∧ pconfig.e_mode ≠ 0 then
      avme470Output (avme470Output (avme470Output (avme470Output hw
        (b_select bp 7) 0x07) (b_select bp 7) 0x0D) (b_select bp 7) 0x06) (b_select bp 7) 0x12
    else hw
  let hw :=
    if pconfig.param &&& VECT ≠ 0 then avme470Output hw (ivr bp) pconfig.vector else hw
  let hw :=
    if pconfig.e_mode = 0 ∧ pconfig.param &&& MASK ≠ 0 then
      avme470Output (avme470SelectBank BANK0 pconfig hw).2 (b_select bp 7)
        (pconfig.mask_reg &&& 0x3F)
    else hw
  if pconfig.param &&& ENHANCED ≠ 0 ∧ pconfig.e_mode ≠ 0 then
    let hw :=
      if pconfig.param &&& MASK ≠ 0 then
        avme470Output (avme470SelectBank BANK0 pconfig hw).2 (b_select bp 7)
          (pconfig.mask_reg &&& 0x3F)
      else hw
    let hw :=
      if pconfig.param &&& EVCONTROL ≠ 0 then
        avme470Output
          (avme470Output (avme470SelectBank BANK1 pconfig hw).2 (b_select bp 6)
            pconfig.ev_control0)
          (b_select bp 7) pconfig.ev_control1
      else hw
    let hw :=
      if pconfig.param &&& DEBCONTROL ≠ 0 then
        avme470Output (avme470SelectBank BANK2 pconfig hw).2 (b_select bp 0)
          pconfig.deb_control
      else hw
    let hw :=
      if pconfig.param &&& DEBDURATION ≠ 0 then
        avme470Output
          (avme470Output (avme470SelectBank BANK2 pconfig hw).2 (b_select bp 1)
            (pconfig.deb_duration &&& 0xFF))
          (b_select bp 2) ((pconfig.deb_duration >>> 8) &&& 0xF)
      else hw
    let hw :=
      if pconfig.param &&& DEBCLOCK ≠ 0 then
        avme470Output (avme470SelectBank BANK2 pconfig hw).2 (b_select bp 3)
          pconfig.deb_clock
      else hw
    if pconfig.param &&& RESET_INTEN ≠ 0 ∧ pconfig.enable &&& INTEN ≠ 0 then
      avme470Output (avme470ConfigPorts bp (avme470SelectBank BANK1 pconfig hw).2)
        (ier bp) INTEN
    else hw
  else hw

/-- The uniqueness walk of `avme470Create` over a non-empty list: `true` when
some card has the name or the (card, slot) pair. -/
def avme470Duplicate (pName : String) (card slot : Nat) : List config470 → Bool
  | [] => false
  | plist :: pnext =>
    if plist.pName = pName ∨ (plist.card = card ∧ plist.slot = slot) then true
    else avme470Duplicate pName card slot pnext

/-- The mode and handler selection at the head of `avme470Create`: the status
of an early return, or the pair (`mode`, `intHandler`). -/
def avme470CreateMode (modeName intHandlerName : String) (vector event debounce : Int) :
    Except Nat (Nat × Nat) :=
  if modeName = "STANDARD" then Except.ok (STANDARD, NOTUSED)
  else if modeName = "ENHANCED" then
    let mode := ENHANCED
    if intHandlerName ≠ "COS" ∧ intHandlerName ≠ "LEVEL" then
      Except.error S_avme470_intHandlerError
    else
      let intHandler := if intHandlerName = "COS" then COS else LEVEL
      if vector < 0x0 ∨ vector > 0xFF then Except.error S_avme470_vectorInvalid
      else if event < 0x0 ∨ event > 0xFFF then Except.error S_avme470_eventRegInvalid
      else if debounce < 0x0 ∨ debounce > 0xFF then Except.error S_avme470_debounceRegInvalid
      else Except.ok (mode, intHandler)
  else Except.error S_avme470_modeError

/-- `avme470Create`. `card` and `slot` are `unsigned short`, `vector`, `event`
and `debounce` are `short` (converted to `unsigned short` for
`avme470SetConfig`); `malloc` is the block the allocator returns (`none` for
`NULL`). -/
def avme470Create (ipac : Ipac) (malloc : Option config470) (w : World)
    (pName : String) (card slot : Nat) (modeName intHandlerName : String)
    (usrFunc : Option String) (vector event debounce : Int) : Nat × World :=
  match avme470CreateMode modeName intHandlerName vector event debounce with
  | Except.error status => (status, w)
  | Except.ok (mode, intHandler) =>
    if ipac.ipmValidate card slot IP_MANUFACTURER_ACROMAG IP_MODEL_ACROMAG_IP470 ≠ 0 then
      (S_avme470_validateFailed, w)
    else if w.registry = [] then
      match malloc with
      | none => (S_avme470_mallocFailed, w)
      | some blk =>
        let first := avme470SetConfig ipac pName card slot mode intHandler usrFunc
          (vector % 65536).toNat (event % 65536).toNat (debounce % 65536).toNat blk
        (OK, { registry := [first], hw := avme470Config first w.hw })
    else if avme470Duplicate pName card slot w.registry then
      (S_avme470_duplicateDevice, w)
    else
      match malloc with
      | none => (S_avme470_mallocFailed, w)
      | some blk =>
        let pconfig := avme470SetConfig ipac pName card slot mode intHandler usrFunc
          (vector % 65536).toNat (event % 65536).toNat (debounce % 65536).toNat blk
        (OK, { registry := w.registry ++ [pconfig], hw := avme470Config pconfig w.hw })

/-! ## A concrete card and store used to instantiate the theorems -/

/-- A store whose registers all read 0, with an empty trace. -/
def zeroHw : Hw := { mem := fun _ => 0, log := [] }

/-- The card "DIO1" as `avme470SetConfig` leaves it for ENHANCED / COS, vector
0x60, with its register block at address 0. -/
def dio1 : config470 :=
  { pName := "DIO1", card := 0, slot := 0, brd_ptr := 0, param := PARAM_MASK_ENHANCED,
    e_mode := ENHANCED, mask_reg := 0, ev_control0 := 0xAA, ev_control1 := 0xA,
    deb_control := 0x3F, deb_duration := 0, deb_clock := 1, enable := INTEN, vector := 0x60,
    last_chan := 0, last_state := 0, intHandler := COS, isr := Isr.avme470COS,
    usrFunc := none }

/-- The registry holding only "DIO1", over the all-zero store. -/
def dio1World : World := { registry := [dio1], hw := zeroHw }

/-- A store on which the bank-select register of "DIO1" holds 0x40 (BANK1
selected) and every other register reads 0. -/
def bank1Hw : Hw := { mem := fun a => if a = 15 then 0x40 else 0, log := [] }

/-! ## Sequences of create calls -/

/-- The arguments of one `avme470Create` call, together with what the carrier
and the allocator answer during that call. -/
structure CreateCall where
  ipac : Ipac
  malloc : Option config470
  pName : String
  card : Nat
  slot : Nat
  modeName : String
  intHandlerName : String
  usrFunc : Option String
  vector : Int
  event : Int
  debounce : Int

/-- The state after one `avme470Create` call (its status is dropped). -/
def runCreate (w : World) (k : CreateCall) : World :=
  (avme470Create k.ipac k.malloc w k.pName k.card k.slot k.modeName k.intHandlerName
    k.usrFunc k.vector k.event k.debounce).2

/-- The state after a sequence of `avme470Create` calls, made in list order. -/
def runCreates (w : World) (ks : List CreateCall) : World := ks.foldl runCreate w

/-- Registry invariant: names are pairwise distinct and so are the
(card, slot) pairs. -/
def RegistryUnique (reg : List config470) : Prop :=
  (reg.map (fun c => c.pName)).Nodup ∧ (reg.map (fun c => (c.card, c.slot))).Nodup

/-- A carrier that validates every board and maps slot (card, slot) to the
address `256 * (4 * card + slot)`. -/
def okIpac : Ipac :=
  { ipmValidate := fun _ _ _ _ => 0, ipmBaseAddr := fun card slot => 256 * (4 * card + slot) }

/-- The registry holding only "DIO1", over the store with BANK1 selected. -/
def bank1World : World := { registry := [dio1], hw := bank1Hw }

/-! ## Interrupt handling -/

def BI : Int := 0
def MBBI : Int := 1
def MBBI_DIRECT : Int := 2

/-- The two commands of the carrier's `ipmIrqCmd` the driver issues. -/
inductive ipac_irqCmd_t where
  | ipac_irqEnable
  | ipac_irqDisable
deriving DecidableEq, Repr

/-- A call into the carrier (drvIpac): `ipmIntConnect` with the status it
returned (the handler argument is the card, named by `parm`), or `ipmIrqCmd`. -/
inductive CarrierCall where
  | ipmIntConnect (card slot vector : Nat) (isr : Isr) (parm : String) (status : Int)
  | ipmIrqCmd (card slot irq : Nat) (cmd : ipac_irqCmd_t)
deriving DecidableEq, Repr

/-- A call `scanIoRequest(plist->xScan[idx])`: the array (by record type), the
index and the handle passed. -/
structure ScanReq where
  recType : Int
  idx : Nat
  pvt : Nat
deriving DecidableEq, Repr

/-- A call `(plist->usrFunc)(plist->pName, i, j)` of the user function. -/
structure UsrCall where
  usrFunc : String
  pName : String
  port : Nat
  bit : Nat
deriving DecidableEq, Repr

/-- What an interrupt service routine works on: the card's block, the register
store, and the calls it has made so far to `scanIoRequest`, to the user
function and to the carrier, each in call order. The user function is recorded,
not run. -/
structure IsrState where
  plist : config470
  hw : Hw
  scans : List ScanReq
  usrCalls : List UsrCall
  carrier : List CarrierCall

/-- The `scanIoRequest` block shared by `avme470COS` and `avme470LEVEL` for the
bit number `bit` (`cos_bit`, `lev_bit`): the bi entry, then the mbbi entries at
`bit - k` for `k < 4`, then the mbbiDirect entries at `bit - k` for `k < 16`,
each only when the index is not negative and the handle is not `NULL`. -/
def avme470ScanRequests (plist : config470) (bit : Int) : List ScanReq :=
  let bi :=
    if plist.biScan.getD bit.toNat 0 ≠ 0 then
      [{ recType := BI, idx := bit.toNat, pvt := plist.biScan.getD bit.toNat 0 : ScanReq }]
    else []
  let mbbi := (List.range 4).foldl
    (fun (l : List ScanReq) (k : Nat) =>
      if bit - (k : Int) ≥ 0 ∧ plist.mbbiScan.getD (bit - (k : Int)).toNat 0 ≠ 0 then
        l ++ [{ recType := MBBI, idx := (bit - (k : Int)).toNat,
                pvt := plist.mbbiScan.getD (bit - (k : Int)).toNat 0 : ScanReq }]
      else l) []
  let mbbiDirect := (List.range 16).foldl
    (fun (l : List ScanReq) (k : Nat) =>
      if bit - (k : Int) ≥ 0 ∧ plist.mbbiDirectScan.getD (bit - (k : Int)).toNat 0 ≠ 0 then
        l ++ [{ recType := MBBI_DIRECT, idx := (bit - (k : Int)).toNat,
                pvt := plist.mbbiDirectScan.getD (bit - (k : Int)).toNat 0 : ScanReq }]
      else l) []
  bi ++ mbbi ++ mbbiDirect

/-- The call of the user function, made when `plist->usrFunc` is not `NULL`. -/
def avme470UsrCall (plist : config470) (i j : Nat) : List UsrCall :=
  match plist.usrFunc with
  | some f => [{ usrFunc := f, pName := plist.pName, port := i, bit := j }]
  | none => []

/-- The event control mask bit `mbit` (an `unsigned char`) both handlers form
for port `i` and bit `j`. -/
def avme470Mbit (i j : Nat) : Nat :=
  let mbit := (1 <<< (i <<< 1)) % 256
  if j > 3 then (mbit <<< 1) % 256 else mbit

/-- The COS bit number `cos_bit` (an `int`) of port `i` and bit `j`. -/
def avme470CosBit (i j : Nat) : Int :=
  let cos_bit : Int := ((i <<< 2 : Nat) : Int) + (j : Int)
  if j > 3 then cos_bit - 4 else cos_bit

/-- What `avme470COS` does for an interrupting bit `j` of port `i` once it has
written the bit's clear mask: bit number and state are computed and saved in
`last_chan` and `last_state` (both `unsigned char`), the scans are requested
and the user function is called. -/
def avme470COSBit (st : IsrState) (i j : Nat) : IsrState :=
  let cos_bit := avme470CosBit i j
  let mbit := avme470Mbit i j
  let state := if st.plist.ev_control0 &&& mbit ≠ 0 then 1 else 0
  let plist := { st.plist with last_chan := (cos_bit % 256).toNat, last_state := state }
  { plist := plist, hw := st.hw,
    scans := st.scans ++ avme470ScanRequests plist cos_bit,
    usrCalls := st.usrCalls ++ avme470UsrCall plist i j,
    carrier := st.carrier }

/-- One pass of the loop over `j` in `avme470COS`: the sense register of port
`i` is read, and when bit `j` of it is set the bit is cleared by writing
`~b_mask` and then handled. -/
def avme470COSBitStep (i : Nat) (st : IsrState) (j : Nat) : IsrState :=
  let r := avme470Input st.hw (b_select st.plist.brd_ptr i)
  let i_pend := r.1
  let b_mask := (1 <<< j) % 256
  if b_mask &&& i_pend ≠ 0 then
    avme470COSBit
      { st with hw := avme470Output r.2 (b_select st.plist.brd_ptr i) (ulongNot b_mask) } i j
  else { st with hw := r.2 }

/-- One pass of the loop over `i` in `avme470COS`: the interrupt status is
read, and a port whose bit is set in it has its eight bits examined and its
sense inputs re-enabled by writing 0xFF. -/
def avme470COSPortStep (st : IsrState) (i : Nat) : IsrState :=
  let r := avme470Input st.hw (b_select st.plist.brd_ptr 6)
  let i_stat := r.1
  let p_mask := (1 <<< i) % 256
  if p_mask &&& i_stat ≠ 0 then
    let st1 := (List.range MAXBITS).foldl (avme470COSBitStep i) { st with hw := r.2 }
    { st1 with hw := avme470Output st1.hw (b_select st1.plist.brd_ptr i) 0xFF }
  else { st with hw := r.2 }

/-- `avme470COS`: the change-of-state interrupt service routine. -/
def avme470COS (st : IsrState) : IsrState :=
  let st : IsrState :=
    { st with carrier := st.carrier ++
        [CarrierCall.ipmIrqCmd st.plist.card st.plist.slot 0 ipac_irqCmd_t.ipac_irqDisable] }
  let sb := avme470SelectBank BANK1 st.plist st.hw
  let saved_bank := sb.1
  let st := (List.range MAXPORTS).foldl avme470COSPortStep { st with hw := sb.2 }
  let st : IsrState := { st with hw := (avme470SelectBank saved_bank st.plist st.hw).2 }
  { st with carrier := st.carrier ++
      [CarrierCall.ipmIrqCmd st.plist.card st.plist.slot 0 ipac_irqCmd_t.ipac_irqEnable] }
/-- What `avme470LEVEL` does for an interrupting bit `j` of port `i` once it
has written the bit's clear mask; the bit number is `i*MAXBITS + j`. -/
def avme470LEVELBit (st : IsrState) (i j : Nat) : IsrState :=
  let lev_bit : Int := ((i * MAXBITS + j : Nat) : Int)
  let mbit := avme470Mbit i j
  let state := if st.plist.ev_control0 &&& mbit ≠ 0 then 1 else 0
  let plist := { st.plist with last_chan := (lev_bit % 256).toNat, last_state := state }
  { plist := plist, hw := st.hw,
    scans := st.scans ++ avme470ScanRequests plist lev_bit,
    usrCalls := st.usrCalls ++ avme470UsrCall plist i j,
    carrier := st.carrier }

/-- One pass of the loop over `j` in `avme470LEVEL`; `i_pend` was read once,
before the loop. -/
def avme470LEVELBitStep (i i_pend : Nat) (st : IsrState) (j : Nat) : IsrState :=
  let b_mask := (1 <<< j) % 256
  if b_mask &&& i_pend ≠ 0 then
    avme470LEVELBit
      { st with hw := avme470Output st.hw (b_select st.plist.brd_ptr i) (ulongNot b_mask) } i j
  else st

/-- One pass of the loop over `i` in `avme470LEVEL`; `i_stat` was read once,
before the loop. -/
def avme470LEVELPortStep (i_stat : Nat) (st : IsrState) (i : Nat) : IsrState :=
  let p_mask := (1 <<< i) % 256
  if p_mask &&& i_stat ≠ 0 then
    let r := avme470Input st.hw (b_select st.plist.brd_ptr i)
    let st1 := (List.range MAXBITS).foldl (avme470LEVELBitStep i r.1) { st with hw := r.2 }
    { st1 with hw := avme470Output st1.hw (b_select st1.plist.brd_ptr i) 0xFF }
  else st

/-- `avme470LEVEL`: the level interrupt service routine. -/
def avme470LEVEL (st : IsrState) : IsrState :=
  let st : IsrState :=
    { st with carrier := st.carrier ++
        [CarrierCall.ipmIrqCmd st.plist.card st.plist.slot 0 ipac_irqCmd_t.ipac_irqDisable] }
  let st : IsrState := { st with hw := avme470Output st.hw (ier st.plist.brd_ptr) 0 }
  let sb := avme470SelectBank BANK1 st.plist st.hw
  let saved_bank := sb.1
  let r := avme470Input sb.2 (b_select st.plist.brd_ptr 6)
  let st := (List.range MAXPORTS).foldl (avme470LEVELPortStep r.1) { st with hw := r.2 }
  let st : IsrState := { st with hw := (avme470SelectBank saved_bank st.plist st.hw).2 }
  let st : IsrState :=
    { st with carrier := st.carrier ++
        [CarrierCall.ipmIrqCmd st.plist.card st.plist.slot 0 ipac_irqCmd_t.ipac_irqEnable] }
  { st with hw := avme470Output st.hw (ier st.plist.brd_ptr) INTEN }

/-! ## Scan subscriptions -/

/-- What `avme470Initialise` obtains from outside the driver: the status
`ipmIntConnect` returns for a (card, slot, vector), and the handle the n-th
call of `scanIoInit` produces. -/
structure InitEnv where
  ipmIntConnect : Nat → Nat → Nat → Int
  scanIoInit : Nat → Nat

/-- The loop `for (i = 0; i < MAXPORTS*MAXBITS; i++)` of `avme470Initialise`:
three `scanIoInit` calls per index, `n` calls having been made before. -/
def avme470InitScan (scanIoInit : Nat → Nat) (n : Nat) (plist : config470) : config470 :=
  { plist with
    biScan := (List.range (MAXPORTS * MAXBITS)).map (fun i => scanIoInit (n + 3 * i)),
    mbbiScan := (List.range (MAXPORTS * MAXBITS)).map (fun i => scanIoInit (n + 3 * i + 1)),
    mbbiDirectScan :=
      (List.range (MAXPORTS * MAXBITS)).map (fun i => scanIoInit (n + 3 * i + 2)) }

/-- The loop `while (plist)` of `avme470Initialise` from the card at the head
of the list on: status, the cards after the loop, and the carrier calls made. -/
def avme470InitialiseLoop (env : InitEnv) :
    Nat → List config470 → List CarrierCall → Nat × List config470 × List CarrierCall
  | _, [], calls => (OK, [], calls)
  | n, plist :: pnext, calls =>
    let plist := avme470InitScan env.scanIoInit n plist
    if plist.e_mode = ENHANCED then
      let status := env.ipmIntConnect plist.card plist.slot plist.vector
      let calls := calls ++
        [CarrierCall.ipmIntConnect plist.card plist.slot plist.vector plist.isr plist.pName status]
      if status ≠ 0 then (S_avme470_intConnectError, plist :: pnext, calls)
      else
        let calls := calls ++
          [CarrierCall.ipmIrqCmd plist.card plist.slot 0 ipac_irqCmd_t.ipac_irqEnable]
        let r := avme470InitialiseLoop env (n + 3 * (MAXPORTS * MAXBITS)) pnext calls
        (r.1, plist :: r.2.1, r.2.2)
    else
      let r := avme470InitialiseLoop env (n + 3 * (MAXPORTS * MAXBITS)) pnext calls
      (r.1, plist :: r.2.1, r.2.2)

/-- `avme470Initialise`: status, the registry after the call and the carrier
calls it made, in call order. -/
def avme470Initialise (env : InitEnv) (registry : List config470) :
    Nat × List config470 × List CarrierCall :=
  avme470InitialiseLoop env 0 registry []
/-- The carrier calls `avme470Initialise` makes for a card whose interrupt
attach succeeds: none for a card that is not in ENHANCED mode. -/
def avme470AttachCalls (d : config470) : List CarrierCall :=
  if d.e_mode = ENHANCED then
    [CarrierCall.ipmIntConnect d.card d.slot d.vector d.isr d.pName 0,
     CarrierCall.ipmIrqCmd d.card d.slot 0 ipac_irqCmd_t.ipac_irqEnable]
  else []

/-- The card's ISR was attached to its vector: an `ipmIntConnect` call for the
card returned 0. -/
def IsrAttached (calls : List CarrierCall) (d : config470) : Prop :=
  CarrierCall.ipmIntConnect d.card d.slot d.vector d.isr d.pName 0 ∈ calls

/-- The carrier interrupt of the card's slot was enabled. -/
def IrqEnabled (calls : List CarrierCall) (d : config470) : Prop :=
  CarrierCall.ipmIrqCmd d.card d.slot 0 ipac_irqCmd_t.ipac_irqEnable ∈ calls

instance (calls : List CarrierCall) (d : config470) : Decidable (IsrAttached calls d) := by
  unfold IsrAttached; infer_instance

instance (calls : List CarrierCall) (d : config470) : Decidable (IrqEnabled calls d) := by
  unfold IrqEnabled; infer_instance

/-- The card "DIO2": as "DIO1", in slot 1 of the same carrier, vector 0x61,
with its register block at address 256. -/
def dio2 : config470 :=
  { dio1 with pName := "DIO2", slot := 1, brd_ptr := 256, vector := 0x61 }

/-- A carrier on which the interrupt attach fails in slot 0 and succeeds in
every other slot; the n-th scan handle is n + 1. -/
def slot0FailsEnv : InitEnv :=
  { ipmIntConnect := fun _ slot _ => if slot = 0 then -1 else 0,
    scanIoInit := fun n => n + 1 }

/-- The register address of an access. -/
def accessAddr : Access → Nat
  | Access.rd a _ => a
  | Access.wr a _ => a

/-- The accesses made between two states of the store: the part of the later
trace that follows the earlier one. -/
def newAccesses (before after : Hw) : List Access := after.log.drop before.log.length

/-- The bank selected on a card: the top two bits of its bank-select register
(`port[7].b_select`). -/
def selectedBank (hw : Hw) (brd_ptr : Nat) : Nat :=
  (hw.mem (b_select brd_ptr 7) % 256 &&& 0xC0) >>> 6

/-- Bit `j` of the register of port `i` reads as set. -/
def portBit (hw : Hw) (brd_ptr i j : Nat) : Bool :=
  (hw.mem (b_select brd_ptr i) % 256).testBit j

/-- A handler is entered on the card `plist` over the store `hw`, no call
having been made yet. -/
def isrEntry (plist : config470) (hw : Hw) : IsrState :=
  { plist := plist, hw := hw, scans := [], usrCalls := [], carrier := [] }
/-- A store for "DIO1" as an interrupt finds it: BANK1 is selected, the status
register (port 6) reports port 2, and the sense register of port 2 reports
bit 5; every other register reads 0. -/
def pendingHw : Hw :=
  { mem := fun a => if a = 15 then 0x40 else if a = 13 then 0x04 else if a = 5 then 0x20 else 0,
    log := [] }

/-- A point in a run of `avme470Config` that started on the store `hw`: the
store `h` holds `v` in the register at address `p7`, and the register writes
made since the start are `W`, in order. -/
def ConfigTrace (hw h : Hw) (p7 v : Nat) (W : List (Nat × Nat)) : Prop :=
  h.mem p7 = v ∧ ∃ L, h.log = hw.log ++ L ∧ writesOf L = W

end Avme470

/-!
# IP-5320 analog input driver (`src/ip320/drvXy5320.c`)

The card registry (the list anchored at `ptrXy5320First`), the parser of the
channel/gain file, the channel sweep and the correction transform.

Conventions of the embedding
* C strings are lists of characters without the terminating NUL; a read at the
  index of the terminator yields the NUL character.
* `float` and `double` arithmetic is taken exactly, over the rationals.
* Register reads of the board are answered by the device: the k-th read of an
  address returns a value the `Bus` supplies; writes are recorded in order.
* Semaphores are not modelled: every call runs to completion on its own.
-/

namespace Xy5320

/-! ## Constants of `drvXy5320.h` and `drvXy5320.c` -/

def OK : Nat := 0

def M_xy5320 : Nat := 602 <<< 16

def S_xy5320_duplicateDevice : Nat := M_xy5320 ||| 1
def S_xy5320_tooManyChannels : Nat := M_xy5320 ||| 2
def S_xy5320_fileOpenFailed : Nat := M_xy5320 ||| 3
def S_xy5320_fileFormatError : Nat := M_xy5320 ||| 4
def S_xy5320_semFailed : Nat := M_xy5320 ||| 5
def S_xy5320_voltRangeError : Nat := M_xy5320 ||| 6
def S_xy5320_modeError : Nat := M_xy5320 ||| 7
def S_xy5320_notValidated : Nat := M_xy5320 ||| 8
def S_xy5320_mallocFailed : Nat := M_xy5320 ||| 9
def S_xy5320_cardNotFound : Nat := M_xy5320 ||| 10
def S_xy5320_invalidChannel : Nat := M_xy5320 ||| 11
def S_xy5320_invalidGain : Nat := M_xy5320 ||| 12
def S_xy5320_invalidFieldType : Nat := M_xy5320 ||| 13
def S_xy5320_noChannels : Nat := M_xy5320 ||| 14
def S_xy5320_taskCreate : Nat := M_xy5320 ||| 15
def S_xy5320_invalidChannelIndex : Nat := M_xy5320 ||| 16
def S_xy5320_noSpace : Nat := M_xy5320 ||| 17
def S_xy5320_readError : Nat := M_xy5320 ||| 18

def MAX_SE_CHANNELS : Nat := 40
def MAX_DIF_CHANNELS : Nat := 20
def MAX_LINE_LENGTH : Nat := 16
def CHARS_PER_NUMBER : Nat := 4
def MAX_SAMPLES : Nat := 256

def TYPE_LONG : Nat := 0
def TYPE_DOUBLE : Nat := 1

def DIF : Nat := 1
def SE : Nat := 2
def AZV : Nat := 3
def CAL : Nat := 4

def GAIN_X1 : Nat := 1
def GAIN_X2 : Nat := 2
def GAIN_X4 : Nat := 4
def GAIN_X8 : Nat := 8

def RANGE_5TO5 : Nat := 1
def RANGE_10TO10 : Nat := 2
def RANGE_0TO10 : Nat := 3

def BIT12 : Nat := 0xFFF0
def CON12 : Int := 4096

def STRIG : Nat := 0
def ETRIG : Nat := 1

def SEL_SELECT : Nat := 0x0100
def SEH_SELECT : Nat := 0x0200
def AZ_SELECT : Nat := 0x0300
def CTRIG : Nat := 0x8000

def CAL0 : Nat := 20
def CAL1 : Nat := 21
def CAL2 : Nat := 22
def CAL3 : Nat := 23

def READ_TRIGGER : Nat := 0xFFFF

def IP_MANUFACTURER_XYCOM : Nat := 0xa3
def IP_MODEL_XYCOM_5320 : Nat := 0x32

/-! ## C library functions on strings -/

/-- `isspace` in the C locale: space, `\t`, `\n`, `\v`, `\f`, `\r`. -/
def isspace (c : Char) : Bool := c.toNat = 32 || (9 ≤ c.toNat && c.toNat ≤ 13)

/-- `isdigit`: the characters 0 to 9. -/
def isdigit (c : Char) : Bool := 48 ≤ c.toNat && c.toNat ≤ 57

/-- The character `buf[i]` of a C string: index `strlen` holds the NUL; the
byte at index -1 is not part of the string, it is whatever precedes the buffer
in memory (`pre`). -/
def charAt (pre : Char) (buf : List Char) (i : Int) : Char :=
  if i < 0 then pre else buf.getD i.toNat (Char.ofNat 0)

/-- The value of the leading decimal digits of a string, from accumulator `acc`. -/
def digitsVal : Int → List Char → Int
  | acc, [] => acc
  | acc, c :: cs => if isdigit c then digitsVal (acc * 10 + (c.toNat - 48 : Nat)) cs else acc

/-- `atoi`: leading white space, an optional sign, then decimal digits. -/
def atoi (s : List Char) : Int :=
  match s.dropWhile isspace with
  | [] => 0
  | c :: cs =>
    if c.toNat = 45 then - digitsVal 0 cs
    else if c.toNat = 43 then digitsVal 0 cs
    else digitsVal 0 (c :: cs)

/-- Conversion of an `int` to `short`. -/
def toShort (x : Int) : Int := (x + 32768) % 65536 - 32768

/-- One `fgets(buffer, k + 1, fd)` on the unread part of a file: the characters
stored in `buffer` (at most `k`, ending after the first newline) and the part
left unread. -/
def fgets : Nat → List Char → List Char × List Char
  | 0, s => ([], s)
  | _ + 1, [] => ([], [])
  | k + 1, c :: cs =>
    if c.toNat = 10 then ([c], cs) else ((fgets k cs).1.cons c, (fgets k cs).2)

/-- The buffers the successive `fgets(buffer, MAX_LINE_LENGTH, fd)` calls of
`xy5320SetConfig` return until end of file; the first argument bounds the
number of calls (each consumes at least one character). -/
def fgetsAll : Nat → List Char → List (List Char)
  | 0, _ => []
  | _ + 1, [] => []
  | f + 1, c :: cs =>
    (fgets (MAX_LINE_LENGTH - 1) (c :: cs)).1 ::
      fgetsAll f (fgets (MAX_LINE_LENGTH - 1) (c :: cs)).2

/-! ## The configuration-line parser -/

/-- The loop of `xy5320GetNonSpace`: from index `i`, the first index below
`strlen(buf)` whose character is not white space, or `strlen(buf)`. The first
argument bounds the number of iterations. -/
def nonSpaceLoop (pre : Char) (buf : List Char) : Nat → Nat → Nat
  | 0, i => i
  | fuel + 1, i =>
    if i < buf.length then
      if !isspace (charAt pre buf i) then i else nonSpaceLoop pre buf fuel (i + 1)
    else i

/-- `xy5320GetNonSpace`: the index found, or -1. -/
def xy5320GetNonSpace (pre : Char) (buf : List Char) (start : Nat) : Int :=
  let i := nonSpaceLoop pre buf (buf.length - start) start
  if isdigit (charAt pre buf i) then i
  else if (charAt pre buf i).toNat = 45 && isdigit (charAt pre buf (i + 1)) then i
  else if (charAt pre buf i).toNat = 43 && isdigit (charAt pre buf (i + 1)) then i
  else -1

/-- The loop of `xy5320GetNonDigit`: it stops at the first index whose
character is neither a digit nor `-` (first test) or neither a digit nor `+`
(second test) while the character before it is a digit. -/
def nonDigitLoop (pre : Char) (buf : List Char) : Nat → Nat → Nat
  | 0, i => i
  | fuel + 1, i =>
    if i < buf.length then
      if !isdigit (charAt pre buf i) && (charAt pre buf i).toNat ≠ 45
          && isdigit (charAt pre buf ((i : Int) - 1)) then i
      else if !isdigit (charAt pre buf i) && (charAt pre buf i).toNat ≠ 43
          && isdigit (charAt pre buf ((i : Int) - 1)) then i
      else nonDigitLoop pre buf fuel (i + 1)
    else i

/-- `xy5320GetNonDigit`: the index found if its character is white space, or -1. -/
def xy5320GetNonDigit (pre : Char) (buf : List Char) (start : Nat) : Int :=
  let i := nonDigitLoop pre buf (buf.length - start) start
  if isspace (charAt pre buf i) then i else -1

/-- Whether the two `strncpy` calls of the loop body of `xy5320SetConfig` stay
inside `num1` and `num2` for a buffer: the counts `p2 - p1 + 1` and
`p4 - p3 + 1` are at most `CHARS_PER_NUMBER`, that is, neither number has more
than three characters. A buffer that gives a format error does not reach the
calls. For a buffer that does not fit, the C code writes past the arrays and
its behaviour is not defined by the source. -/
def numbersFit (pre : Char) (buffer : List Char) : Bool :=
  let p1 := xy5320GetNonSpace pre buffer 0
  if p1 = -1 then true
  else
    let p2 := xy5320GetNonDigit pre buffer p1.toNat
    if p2 = -1 then true
    else
      let p3 := xy5320GetNonSpace pre buffer p2.toNat
      if p3 = -1 then true
      else
        let p4 := xy5320GetNonDigit pre buffer p3.toNat
        if p4 = -1 then true
        else decide (p2 - p1 + 1 ≤ CHARS_PER_NUMBER ∧ p4 - p3 + 1 ≤ CHARS_PER_NUMBER)

/-- The parsing part of the loop body of `xy5320SetConfig` for one buffer:
`none` for a format error, otherwise the pair (`cc`, `gg`). `strncpy` copies
`buffer[p1..p2]` into `num1` and `buffer[p3..p4]` into `num2`; `atoi` reads the
digits and stops at the white space copied last. The arrays hold
`CHARS_PER_NUMBER` characters, so the pair is that of the C code for the
buffers with `numbersFit`; for the others the C code overruns the arrays, and
the statements about files are made for buffers with `numbersFit` only. -/
def xy5320ParseLine (pre : Char) (buffer : List Char) : Option (Int × Int) :=
  let p1 := xy5320GetNonSpace pre buffer 0
  if p1 = -1 then none
  else
    let p2 := xy5320GetNonDigit pre buffer p1.toNat
    if p2 = -1 then none
    else
      let p3 := xy5320GetNonSpace pre buffer p2.toNat
      if p3 = -1 then none
      else
        let p4 := xy5320GetNonDigit pre buffer p3.toNat
        if p4 = -1 then none
        else
          let num1 := (buffer.drop p1.toNat).take (p2 - p1 + 1).toNat
          let num2 := (buffer.drop p3.toNat).take (p4 - p3 + 1).toNat
          some (toShort (atoi num1), toShort (atoi num2))

/-! ## Card configuration and registry -/

/-- An element of the scan array: `struct scan_array`. -/
structure scan_array where
  chan : Nat
  gain : Nat
deriving DecidableEq, Repr

/-- The fields of `struct config5320`; `pnext` is the list structure of the
registry. Arrays are functions of the index. -/
structure config5320 where
  pName : String
  card : Nat
  slot : Nat
  brd_ptr : Nat
  range : Nat
  trigger : Nat
  mode : Nat
  average : Nat
  data_mask : Nat
  bit_constant : Int
  raw_data : Nat → Nat
  az_data : Nat → Nat
  cal_data : Nat → Nat
  cor_data : Nat → Int
  analogData : Nat → ℚ
  s_array : Nat → scan_array
  numChannels : Int
  semId : Nat
  cal : Int
  startTasks : Int

/-- What `xy5320Create` and `xy5320SetConfig` obtain from outside the driver:
the carrier calls, the content of a file (`none` when `fopen` fails), the
semaphore `semMCreate` returns (0 for `NULL`), and the byte that precedes the
line buffer in memory. -/
structure Env where
  ipac : Avme470.Ipac
  fopen : String → Option (List Char)
  semMCreate : Nat
  pre : Char

/-- The `while (fgets(...))` loop of `xy5320SetConfig` over the buffers still to
be read: the status at loop exit, `numRead` and the scan array. -/
def xy5320SetConfigLoop (pre : Char) (maxChannels : Int) :
    List (List Char) → Nat → (Nat → scan_array) → Nat × Nat × (Nat → scan_array)
  | [], numRead, s_array => (0, numRead, s_array)
  | buffer :: rest, numRead, s_array =>
    match xy5320ParseLine pre buffer with
    | none => (S_xy5320_fileFormatError, numRead, s_array)
    | some (cc, gg) =>
      if (numRead : Int) > maxChannels - 1 then (S_xy5320_tooManyChannels, numRead, s_array)
      else if cc < 0 ∨ cc > maxChannels - 1 then (S_xy5320_invalidChannel, numRead, s_array)
      else if gg ≠ GAIN_X1 ∧ gg ≠ GAIN_X2 ∧ gg ≠ GAIN_X4 ∧ gg ≠ GAIN_X8 then
        (S_xy5320_invalidGain, numRead, s_array)
      else
        xy5320SetConfigLoop pre maxChannels rest (numRead + 1)
          (fun k => if k = numRead then { chan := cc.toNat, gain := gg.toNat } else s_array k)

/-- `xy5320SetConfig`: the status and the block `pconfig` after the call. -/
def xy5320SetConfig (env : Env) (pName : String) (card slot : Nat) (pconfig : config5320)
    (voltRange mode numSamples : Int) (filename : String) : Nat × config5320 :=
  let maxChannels : Int := if mode = DIF then MAX_DIF_CHANNELS else MAX_SE_CHANNELS
  let r : Nat × config5320 :=
    match env.fopen filename with
    | some content =>
      let l := xy5320SetConfigLoop env.pre maxChannels (fgetsAll content.length content) 0
        pconfig.s_array
      let status := l.1
      let numRead := l.2.1
      let pconfig : config5320 := { pconfig with s_array := l.2.2 }
      if status = 0 then
        let pconfig : config5320 :=
          { pconfig with
            pName := pName, card := card, slot := slot,
            brd_ptr := env.ipac.ipmBaseAddr card slot,
            range := (voltRange % 256).toNat, trigger := STRIG,
            mode := (mode % 256).toNat, average := (numSamples % 65536).toNat,
            data_mask := BIT12, bit_constant := CON12, numChannels := numRead, cal := 0 }
        if numRead = 0 then (S_xy5320_noChannels, pconfig)
        else
          let pconfig : config5320 :=
            { pconfig with
              raw_data := fun i => if (i : Int) < pconfig.numChannels then 0
                                   else pconfig.raw_data i,
              az_data := fun i => if (i : Int) < pconfig.numChannels then 0
                                  else pconfig.az_data i,
              cal_data := fun i => if (i : Int) < pconfig.numChannels then 0
                                   else pconfig.cal_data i,
              cor_data := fun i => if (i : Int) < pconfig.numChannels then 0
                                   else pconfig.cor_data i,
              semId := env.semMCreate }
          if pconfig.semId = 0 then (S_xy5320_semFailed, pconfig) else (0, pconfig)
      else (status, pconfig)
    | none => (S_xy5320_fileOpenFailed, pconfig)
  if r.1 ≠ 0 then (r.1, { r.2 with startTasks := 0 })
  else (r.1, { r.2 with startTasks := 1 })

/-- The uniqueness walk of `xy5320Create` over a non-empty list. -/
def xy5320Duplicate (pName : String) (card slot : Nat) : List config5320 → Bool
  | [] => false
  | plist :: pnext =>
    if plist.pName = pName ∨ (plist.card = card ∧ plist.slot = slot) then true
    else xy5320Duplicate pName card slot pnext

/-- `xy5320Create`: the status and the list anchored at `ptrXy5320First` after
the call. `malloc` is the block the allocator returns (`none` for `NULL`). On
the empty list the new block is stored in `ptrXy5320First` before
`xy5320SetConfig` runs. -/
def xy5320Create (env : Env) (malloc : Option config5320) (registry : List config5320)
    (pName : String) (card slot : Nat) (voltRangeName modeName : String)
    (numSamples : Int) (filename : String) : Nat × List config5320 :=
  if voltRangeName ≠ "-5TO5" ∧ voltRangeName ≠ "-10TO10" ∧ voltRangeName ≠ "0TO10" then
    (S_xy5320_voltRangeError, registry)
  else
    let voltRange : Int :=
      if voltRangeName = "-5TO5" then 1 else if voltRangeName = "-10TO10" then 2 else 3
    if modeName ≠ "DIF" ∧ modeName ≠ "SE" then (S_xy5320_modeError, registry)
    else
      let mode : Int := if modeName = "DIF" then DIF else SE
      let numSamples : Int :=
        if numSamples < 1 then 1
        else if numSamples > MAX_SAMPLES then MAX_SAMPLES else numSamples
      if env.ipac.ipmValidate card slot IP_MANUFACTURER_XYCOM IP_MODEL_XYCOM_5320 ≠ 0 then
        (S_xy5320_notValidated, registry)
      else
        match registry with
        | [] =>
          match malloc with
          | none => (S_xy5320_mallocFailed, [])
          | some blk =>
            let r := xy5320SetConfig env pName card slot blk voltRange mode numSamples
              filename
            if r.1 ≠ 0 then (r.1, [r.2]) else (OK, [r.2])
        | first :: pnext =>
          if xy5320Duplicate pName card slot (first :: pnext) then
            (S_xy5320_duplicateDevice, first :: pnext)
          else
            match malloc with
            | none => (S_xy5320_mallocFailed, first :: pnext)
            | some blk =>
              let r := xy5320SetConfig env pName card slot blk voltRange mode numSamples
                filename
              if r.1 ≠ 0 then (r.1, first :: pnext) else (OK, (first :: pnext) ++ [r.2])

/-- `xy5320FindCard`: the first card of the list whose name compares equal. -/
def xy5320FindCard : List config5320 → String → Option config5320
  | [], _ => none
  | plist :: pnext, name =>
    if plist.pName = name then some plist else xy5320FindCard pnext name

/-- The loop of `xy5320FindChannel` from index `i`: the first index below
`numChannels` whose channel equals `channel`. The first argument bounds the
number of iterations (`numChannels - i` are enough). -/
def findChannelLoop (plist : config5320) (channel : Int) : Nat → Nat → Option Nat
  | 0, _ => none
  | fuel + 1, i =>
    if (i : Int) < plist.numChannels then
      if ((plist.s_array i).chan : Int) = channel then some i
      else findChannelLoop plist channel fuel (i + 1)
    else none

/-- `xy5320FindChannel`: the status and the index stored through `chanIndex`. -/
def xy5320FindChannel (plist : config5320) (channel : Int) : Nat × Option Nat :=
  match findChannelLoop plist channel plist.numChannels.toNat 0 with
  | some i => (OK, some i)
  | none => (S_xy5320_invalidChannel, none)

/-- What `xy5320ReadChannel` stores through `prval`. -/
inductive Value where
  | long (v : Int)
  | double (v : ℚ)
deriving DecidableEq

/-- `xy5320ReadChannel`: the status, the value stored through `prval` (`none`
when nothing is stored) and the registry after the call. -/
def xy5320ReadChannel (registry : List config5320) (name : String) (channel : Int)
    (ftvl : Nat) : Nat × Option Value × List config5320 :=
  match xy5320FindCard registry name with
  | some plist =>
    let r := xy5320FindChannel plist channel
    if r.1 ≠ 0 then (S_xy5320_invalidChannel, none, registry)
    else
      let chanIndex := r.2.getD 0
      if ftvl = TYPE_LONG then (OK, some (Value.long (plist.cor_data chanIndex)), registry)
      else if ftvl = TYPE_DOUBLE then
        (OK, some (Value.double (plist.analogData chanIndex)), registry)
      else (S_xy5320_invalidFieldType, none, registry)
  | none => (S_xy5320_cardNotFound, none, registry)

/-! ## Board registers -/

/-- The board as seen from the driver. `rd addr k` is the 16-bit value the
device returns for the `k`-th read of address `addr` that is carried out on it,
`cnt addr` counts the reads carried out so far, `wr` records the stores of the
source in program order. The registers are reached through a plain
`struct map5320 *`, not a `volatile` one, so a read in the source need not be
carried out on the device once the program holds a value for the register:
`held addr` is the value last read from or stored to `addr`, `seen addr` counts
the reads of `addr` in the source, and `reload addr k` tells whether read
number `k` of `addr` in the source is carried out on the device (a read with no
value held always is). `reload` is the choice of the build: `true` throughout
stands for a build that carries out every access. -/
structure Bus where
  rd : Nat → Nat → Nat
  cnt : Nat → Nat
  wr : List (Nat × Nat)
  held : Nat → Option Nat := fun _ => none
  seen : Nat → Nat := fun _ => 0
  reload : Nat → Nat → Bool := fun _ _ => true

/-- A read of an `unsigned short` register in the source: carried out on the
device, or answered with the value held. -/
def busRead (b : Bus) (addr : Nat) : Nat × Bus :=
  if b.reload addr (b.seen addr) || (b.held addr).isNone then
    (b.rd addr (b.cnt addr) % 65536,
     { rd := b.rd, cnt := fun a => if a = addr then b.cnt a + 1 else b.cnt a, wr := b.wr,
       held := fun a => if a = addr then some (b.rd addr (b.cnt addr) % 65536) else b.held a,
       seen := fun a => if a = addr then b.seen a + 1 else b.seen a, reload := b.reload })
  else
    ((b.held addr).getD 0,
     { rd := b.rd, cnt := b.cnt, wr := b.wr, held := b.held,
       seen := fun a => if a = addr then b.seen a + 1 else b.seen a, reload := b.reload })

/-- A store to an `unsigned short` register in the source. -/
def busWrite (b : Bus) (addr v : Nat) : Bus :=
  { rd := b.rd, cnt := b.cnt, wr := b.wr ++ [(addr, v % 65536)],
    held := fun a => if a = addr then some (v % 65536) else b.held a,
    seen := b.seen, reload := b.reload }

/-- Offset of `cntl_reg` in `struct map5320`. -/
def cntl_reg (brd_ptr : Nat) : Nat := brd_ptr

/-- Offset of `strt_reg` in `struct map5320`: after 1 + 7 shorts. -/
def strt_reg (brd_ptr : Nat) : Nat := brd_ptr + 16

/-- Offset of `ai_reg` in `struct map5320`: after 1 + 7 + 1 + 7 shorts. -/
def ai_reg (brd_ptr : Nat) : Nat := brd_ptr + 32

/-- Values of the locals the C code reads before it has assigned them on some
paths: `cal_ch` of `xy5320BuildControl`, `control_reg` of `xy5320ReadInputs`,
and `calhi`, `i_zero`, `i_span` of `xy5320CorrectInputs`. -/
structure Uninit where
  cal_ch : Nat
  control_reg : Nat
  calhi : ℚ
  i_zero : ℚ
  i_span : ℚ

/-- Conversion of an exact real value to an integer type: truncation toward
zero. -/
def cTrunc (q : ℚ) : Int := if 0 ≤ q then ⌊q⌋ else ⌈q⌉

/-! ## Channel sweep -/

/-- The range and gain switch of `xy5320BuildControl`: (`cal_ch`, `control`). -/
def buildControlGain (cal_ch0 : Nat) (range gain : Nat) : Nat × Nat :=
  if range = RANGE_5TO5 then
    if gain = GAIN_X1 then (CAL0, 0)
    else if gain = GAIN_X2 then (CAL1, 0x0040)
    else if gain = GAIN_X4 then (CAL2, 0x0080)
    else if gain = GAIN_X8 then (CAL3, 0x00C0)
    else (cal_ch0, 0)
  else if range = RANGE_0TO10 ∨ range = RANGE_10TO10 then
    if gain = GAIN_X1 then (CAL0, 0)
    else if gain = GAIN_X2 then (CAL0, 0x0040)
    else if gain = GAIN_X4 then (CAL1, 0x0080)
    else if gain = GAIN_X8 then (CAL2, 0x00C0)
    else (cal_ch0, 0)
  else (cal_ch0, 0)

/-- `xy5320BuildControl`: the control word for entry `index` of the scan array. -/
def xy5320BuildControl (u : Uninit) (pconfig : config5320) (index : Nat) : Nat :=
  let g := buildControlGain (u.cal_ch % 256) pconfig.range (pconfig.s_array index).gain
  let cal_ch := g.1
  let control := g.2
  let chan := (pconfig.s_array index).chan
  let control :=
    if pconfig.mode = DIF then control ||| chan
    else if pconfig.mode = SE then
      if chan < CAL0 then (control ||| SEL_SELECT) ||| chan
      else (control ||| SEH_SELECT) ||| (chan - CAL0)
    else if pconfig.mode = AZV then
      if pconfig.range = RANGE_0TO10 then control ||| CAL3 else control ||| AZ_SELECT
    else if pconfig.mode = CAL then control ||| cal_ch
    else control
  control % 65536

/-- The buffer `buff_ptr` walks through. -/
inductive Buf where
  | raw_data
  | az_data
  | cal_data
deriving DecidableEq, Repr

/-- The mode switch of `xy5320ReadInputs`; in the default case `buff_ptr` is
not assigned (`none`). -/
def selectBuf (mode : Nat) : Option Buf :=
  if mode = DIF then some Buf.raw_data
  else if mode = SE then some Buf.raw_data
  else if mode = AZV then some Buf.az_data
  else if mode = CAL then some Buf.cal_data
  else none

/-- The store `*buff_ptr = v` with `buff_ptr` at entry `j` of the selected
buffer. A store through the unassigned pointer is not represented. -/
def storeBuf (sel : Option Buf) (c : config5320) (j v : Nat) : config5320 :=
  match sel with
  | some Buf.raw_data => { c with raw_data := fun k => if k = j then v else c.raw_data k }
  | some Buf.az_data => { c with az_data := fun k => if k = j then v else c.az_data k }
  | some Buf.cal_data => { c with cal_data := fun k => if k = j then v else c.cal_data k }
  | none => c

/-- The busy wait `while ((map_ptr->cntl_reg & CTRIG) == 0) ;` for at most
`fuel` reads: `none` when the flag has not been seen by then. -/
def waitTrigger (brd_ptr : Nat) : Nat → Bus → Option Bus
  | 0, _ => none
  | fuel + 1, bus =>
    if (busRead bus (cntl_reg brd_ptr)).1 &&& CTRIG = 0 then
      waitTrigger brd_ptr fuel (busRead bus (cntl_reg brd_ptr)).2
    else some (busRead bus (cntl_reg brd_ptr)).2

/-- The loop `for (i = 0; i < average; i++)` of `xy5320ReadInputs` with `n`
iterations to go: trigger a conversion, read it, add it to `sum_data`. The
read `map_ptr->ai_reg` is a plain read (`busRead`): whether it is carried out
on the device is up to the build. -/
def sampleLoop (pconfig : config5320) (fuel : Nat) : Nat → ℚ → Bus → Option (ℚ × Bus)
  | 0, sum_data, bus => some (sum_data, bus)
  | n + 1, sum_data, bus =>
    let triggered :=
      if pconfig.trigger = ETRIG then waitTrigger pconfig.brd_ptr fuel bus
      else some (busWrite bus (strt_reg pconfig.brd_ptr) READ_TRIGGER)
    match triggered with
    | none => none
    | some bus1 =>
      sampleLoop pconfig fuel n
        (sum_data + (((busRead bus1 (ai_reg pconfig.brd_ptr)).1 &&& pconfig.data_mask : Nat) : ℚ))
        (busRead bus1 (ai_reg pconfig.brd_ptr)).2

/-- The loop `while (j < pconfig->numChannels)` of `xy5320ReadInputs`, with at
most `k` iterations; `j` is an `unsigned short`. `none` when `k` iterations do
not end the loop or a busy wait does not end. -/
def channelLoop (u : Uninit) (fuel : Nat) (sel : Option Buf) :
    Nat → Nat → Nat → config5320 → Bus → Option (config5320 × Bus)
  | 0, j, _, c, bus => if (j : Int) < c.numChannels then none else some (c, bus)
  | k + 1, j, control_reg, c, bus =>
    if (j : Int) < c.numChannels then
      let control_reg :=
        if ((j + 1 : Nat) : Int) < c.numChannels then xy5320BuildControl u c (j + 1)
        else control_reg
      let r := busRead bus (cntl_reg c.brd_ptr)
      let c1 :=
        if r.1 &&& CTRIG ≠ 0 then storeBuf sel c j (busRead r.2 (ai_reg c.brd_ptr)).1 else c
      let bus1 := if r.1 &&& CTRIG ≠ 0 then (busRead r.2 (ai_reg c.brd_ptr)).2 else r.2
      match sampleLoop c1 fuel c1.average 0 bus1 with
      | none => none
      | some (sum_data, bus2) =>
        channelLoop u fuel sel k ((j + 1) % 65536) control_reg
          (storeBuf sel c1 j ((cTrunc (sum_data / (c1.average : ℚ))).toNat % 65536))
          (busWrite bus2 (cntl_reg c.brd_ptr) control_reg)
    else some (c, bus)

/-- `xy5320ReadInputs`: the card and the bus after the sweep. `fuel` bounds the
iterations of the channel loop and of each busy wait. -/
def xy5320ReadInputs (u : Uninit) (fuel : Nat) (pconfig : config5320) (bus : Bus) :
    Option (config5320 × Bus) :=
  channelLoop u fuel (selectBuf pconfig.mode) fuel 0 (u.control_reg % 65536) pconfig
    (busWrite bus (cntl_reg pconfig.brd_ptr) (xy5320BuildControl u pconfig 0))

/-! ## Correction transform -/

/-- The range and gain switch of `xy5320CorrectInputs`, entered with
`callo = 0.0`: (`calhi`, `callo`, `i_zero`, `i_span`). -/
def correctSelect (range gain : Nat) (calhi i_zero i_span : ℚ) : ℚ × ℚ × ℚ × ℚ :=
  if range = RANGE_5TO5 then
    ((if gain = GAIN_X1 then 4.9 else if gain = GAIN_X2 then 2.45
      else if gain = GAIN_X4 then 1.225 else if gain = GAIN_X8 then 0.6125 else calhi),
     0, -5, 10)
  else if range = RANGE_10TO10 then
    ((if gain = GAIN_X1 then 4.9 else if gain = GAIN_X2 then 4.9
      else if gain = GAIN_X4 then 2.45 else if gain = GAIN_X8 then 1.225 else calhi),
     0, -10, 20)
  else if range = RANGE_0TO10 then
    ((if gain = GAIN_X1 then 4.9 else if gain = GAIN_X2 then 4.9
      else if gain = GAIN_X4 then 2.45 else if gain = GAIN_X8 then 1.225 else calhi),
     0.6125, 0, 10)
  else (calhi, 0, i_zero, i_span)

/-- The value `slope` of `xy5320CorrectInputs` for channel index `i`. -/
def correctSlope (pconfig : config5320) (i : Nat) (calhi callo : ℚ) : ℚ :=
  ((pconfig.s_array i).gain : ℚ) * (calhi - callo) /
    (((pconfig.cal_data i : Int) - (pconfig.az_data i : Int) : Int) : ℚ)

/-- The value `temp` of `xy5320CorrectInputs` for channel index `i`. -/
def correctTemp (pconfig : config5320) (i : Nat) (calhi callo i_zero i_span : ℚ) : ℚ :=
  (((pconfig.bit_constant : ℚ) * correctSlope pconfig i calhi callo) / i_span) *
    ((pconfig.raw_data i : ℚ)
      + (((callo * ((pconfig.s_array i).gain : ℚ)) - i_zero) / correctSlope pconfig i calhi callo)
      - (pconfig.az_data i : ℚ))

/-- The loop `while (i < pconfig->numChannels)` of `xy5320CorrectInputs` with
`k` iterations to go; `calhi`, `i_zero` and `i_span` keep their values from one
iteration to the next. -/
def correctLoop : Nat → Nat → ℚ → ℚ → ℚ → config5320 → config5320
  | 0, _, _, _, _, c => c
  | k + 1, i, calhi, i_zero, i_span, c =>
    let s := correctSelect c.range (c.s_array i).gain calhi i_zero i_span
    let temp := correctTemp c i s.1 s.2.1 s.2.2.1 s.2.2.2
    correctLoop k (i + 1) s.1 s.2.2.1 s.2.2.2
      { c with
        cor_data := fun n => if n = i then cTrunc temp else c.cor_data n,
        analogData := fun n =>
          if n = i then (s.2.2.2 * (temp / (c.bit_constant : ℚ))) + s.2.2.1
          else c.analogData n }

/-- `xy5320CorrectInputs`. -/
def xy5320CorrectInputs (u : Uninit) (pconfig : config5320) : config5320 :=
  correctLoop pconfig.numChannels.toNat 0 u.calhi u.i_zero u.i_span pconfig

/-! ## Read task -/

/-- One pass of the `while (plist)` loop of `xy5320ReadTask` over the list:
every calibrated card is swept and corrected. `none` when a sweep does not end
within `fuel`. -/
def xy5320ReadTaskPass (u : Uninit) (fuel : Nat) :
    List config5320 → Bus → Option (List config5320 × Bus)
  | [], bus => some ([], bus)
  | plist :: pnext, bus =>
    if plist.cal ≠ 0 then
      match xy5320ReadInputs u fuel plist bus with
      | none => none
      | some (c, bus1) =>
        match xy5320ReadTaskPass u fuel pnext bus1 with
        | none => none
        | some (rest, bus2) => some (xy5320CorrectInputs u c :: rest, bus2)
    else
      match xy5320ReadTaskPass u fuel pnext bus with
      | none => none
      | some (rest, bus2) => some (plist :: rest, bus2)

/-- The list after `n` passes of the read task. -/
def xy5320ReadTaskPasses (u : Uninit) (fuel : Nat) :
    Nat → List config5320 → Bus → Option (List config5320 × Bus)
  | 0, registry, bus => some (registry, bus)
  | n + 1, registry, bus =>
    match xy5320ReadTaskPass u fuel registry bus with
    | none => none
    | some (registry1, bus1) => xy5320ReadTaskPasses u fuel n registry1 bus1

/-! ## Concrete cards, files and boards used to instantiate the theorems -/

/-- A block whose integer fields are 0, whose name is empty and whose
`analogData` entries all hold `a`. -/
def blockWith (a : ℚ) : config5320 :=
  { pName := "", card := 0, slot := 0, brd_ptr := 0, range := 0, trigger := 0, mode := 0,
    average := 0, data_mask := 0, bit_constant := 0, raw_data := fun _ => 0,
    az_data := fun _ => 0, cal_data := fun _ => 0, cor_data := fun _ => 0,
    analogData := fun _ => a, s_array := fun _ => { chan := 0, gain := 0 },
    numChannels := 0, semId := 0, cal := 0, startTasks := 0 }

/-- An environment in which every board validates, the file "chan.cfg" has the
given content and no other file can be opened. -/
def fileEnv (content : String) : Env :=
  { ipac := Avme470.okIpac,
    fopen := fun name => if name = "chan.cfg" then some content.toList else none,
    semMCreate := 1, pre := Char.ofNat 0 }

/-- The card "AI1" as `xy5320Create` configures it from the file with the lines
"0 1" and "1 1": two channels, gain 1, range -5..5, DIF, 16 samples. -/
def ai1 : config5320 :=
  (xy5320SetConfig (fileEnv "0 1\n1 1\n") "AI1" 0 0 (blockWith 0) 1 DIF 16 "chan.cfg").2

/-- A board that answers every register read with 0; every read is carried out
on it. -/
def zeroBus : Bus := { rd := fun _ _ => 0, cnt := fun _ => 0, wr := [] }

/-- A board whose data register (card "AI1") returns 0x0100 and 0x0300 in
turn, conversion after conversion, and whose other registers read 0; every read
is carried out on it. -/
def noisyBus : Bus :=
  { rd := fun a k =>
      if a = ai_reg ai1.brd_ptr then (if k % 2 = 0 then 0x0100 else 0x0300) else 0,
    cnt := fun _ => 0, wr := [] }

/-- The board `noisyBus` under a build that keeps a register value it holds
through the 16 reads of a channel: of the reads of a register in the source,
number 0, 16, 32, ... are carried out on the device. -/
def heldBus : Bus := { noisyBus with reload := fun _ k => decide (k % 16 = 0) }

/-- Locals that start out as 0. -/
def zeroUninit : Uninit := { cal_ch := 0, control_reg := 0, calhi := 0, i_zero := 0, i_span := 0 }

/-- The card "AI1" after a calibration that read 0 (auto-zero) and 1000
(calibration voltage) on both channels; the raw readings are still 0. -/
def ai1Cal : config5320 := { ai1 with cal_data := fun _ => 1000, cal := 1 }
/-- The table entry `xy5320CorrectInputs` selects for a range and a gain:
(`calhi`, `callo`, `i_zero`, `i_span`). -/
def idealValues (range gain : Nat) : ℚ × ℚ × ℚ × ℚ := correctSelect range gain 0 0 0

/-- The checks the loop body of `xy5320SetConfig` makes on a buffer once there
is room for one more entry: it parses, the channel is in [0, maxChannels) and
the gain is 1, 2, 4 or 8. -/
def lineAccepted (pre : Char) (maxChannels : Int) (buffer : List Char) : Bool :=
  match xy5320ParseLine pre buffer with
  | some (cc, gg) =>
    decide (0 ≤ cc ∧ cc ≤ maxChannels - 1 ∧
      (gg = GAIN_X1 ∨ gg = GAIN_X2 ∨ gg = GAIN_X4 ∨ gg = GAIN_X8))
  | none => false

/-- The value `xy5320SetConfig` gives `maxChannels` for a mode. -/
def maxChannelsFor (mode : Int) : Int :=
  if mode = DIF then MAX_DIF_CHANNELS else MAX_SE_CHANNELS

/-- The buffers `xy5320SetConfig` reads from a file with the given content. -/
def fileBuffers (content : List Char) : List (List Char) := fgetsAll content.length content

/-- The content of a text file with the given lines, each ended by a newline. -/
def fileOfLines : List (List Char) → List Char
  | [] => []
  | l :: ls => l ++ Char.ofNat 10 :: fileOfLines ls

/-- Twenty lines that name the channels 0 to 19 with gain 1: as many as a card
in DIF mode takes. -/
def difFull : String :=
  "0 1\n1 1\n2 1\n3 1\n4 1\n5 1\n6 1\n7 1\n8 1\n9 1\n" ++
  "10 1\n11 1\n12 1\n13 1\n14 1\n15 1\n16 1\n17 1\n18 1\n19 1\n"

/-- The buffer of a card that `buff_ptr` walks through. -/
def getBuf (b : Buf) (c : config5320) : Nat → Nat :=
  match b with
  | Buf.raw_data => c.raw_data
  | Buf.az_data => c.az_data
  | Buf.cal_data => c.cal_data

/-- The card with one of its three reading buffers replaced. -/
def withBuf (b : Buf) (c : config5320) (f : Nat → Nat) : config5320 :=
  match b with
  | Buf.raw_data => { c with raw_data := f }
  | Buf.az_data => { c with az_data := f }
  | Buf.cal_data => { c with cal_data := f }

/-- The sum of `n` successive conversion values, each masked with `mask`,
starting with the value the device returns for read number `start`. -/
def sampleSum (rd : Nat → Nat) (mask : Nat) : Nat → Nat → Nat
  | _, 0 => 0
  | start, n + 1 => ((rd start % 65536) &&& mask) + sampleSum rd mask (start + 1) n

/-! ## The calibration sources -/

/-- Modelled from the spec: the nominal voltages of the calibration channels
`CAL0` .. `CAL3` (4.9, 2.45, 1.225 and 0.6125 V). The driver holds only the
channel numbers; the header's comments name the voltages (its comment on
`CAL1` reads 2.459 V). A channel that is not a calibration channel is given
0 V here. -/
def calVoltage (ch : Nat) : ℚ :=
  if ch = CAL0 then 4.9
  else if ch = CAL1 then 2.45
  else if ch = CAL2 then 1.225
  else if ch = CAL3 then 0.6125
  else 0

/-- The voltage of the source a control word selects when it is built in AZV or
CAL mode: the auto-zero input (0 V) when both select bits (`AZ_SELECT`) are
set, and otherwise the calibration channel held in the bits below the gain
code. -/
def sourceVoltage (control : Nat) : ℚ :=
  if control &&& AZ_SELECT = AZ_SELECT then 0 else calVoltage (control &&& 0x3F)

end Xy5320

/-! # Theorems -/

namespace Avme470

/-! ## Bit-level facts about bytes -/

theorem testBit_ulongNot (x i : Nat) :
    (ulongNot x).testBit i = (decide (i < 32) && !(x.testBit i)) := by
  unfold ulongNot longBits
  rw [Nat.testBit_two_pow_sub_succ (Nat.mod_lt _ (by norm_num)), Nat.testBit_mod_two_pow]
  by_cases h : i < 32 <;> simp [h]

theorem and_two_pow_ne_zero (x i : Nat) : x &&& 2 ^ i ≠ 0 ↔ x.testBit i = true := by
  constructor
  · intro h
    by_contra hc
    apply h
    apply Nat.eq_of_testBit_eq
    intro j
    simp only [Nat.testBit_and, Nat.testBit_two_pow, Nat.zero_testBit]
    by_cases hij : i = j
    · subst hij; simp [hc]
    · simp [hij]
  · intro h heq
    have h2 := congrArg (fun y => Nat.testBit y i) heq
    simp [h, Nat.testBit_two_pow_self] at h2

/-- The read-modify-write of one bit in `avme470Write`: the byte stored has bit
`bit` equal to `v` and every other bit as in the byte read. -/
theorem bit_rmw (o bit v : Nat) (hb : bit < 8) (hv : v ≤ 1) :
    ((((o % 256 &&& ulongNot ((1 <<< bit) % 256)) ||| (v <<< bit)) % 256) &&& (1 <<< bit) ≠ 0
        ↔ v = 1) ∧
    ∀ b < 8, b ≠ bit →
      (((o % 256 &&& ulongNot ((1 <<< bit) % 256)) ||| (v <<< bit)) % 256).testBit b
        = o.testBit b := by
  have h1 : (1 <<< bit) % 256 = 2 ^ bit := by
    rw [Nat.one_shiftLeft]
    apply Nat.mod_eq_of_lt
    calc 2 ^ bit < 2 ^ 8 := Nat.pow_lt_pow_right (by norm_num) hb
      _ = 256 := by norm_num
  have h256 : (256 : Nat) = 2 ^ 8 := by norm_num
  rw [h1, Nat.one_shiftLeft, and_two_pow_ne_zero]
  constructor
  · rw [h256]
    simp only [Nat.testBit_mod_two_pow, Nat.testBit_or, Nat.testBit_and, testBit_ulongNot,
      Nat.testBit_two_pow_self, Nat.testBit_shiftLeft]
    have hv2 : v = 0 ∨ v = 1 := by omega
    rcases hv2 with rfl | rfl <;> simp [hb]
  · intro b hb8 hne
    rw [h256]
    simp only [Nat.testBit_mod_two_pow, Nat.testBit_or, Nat.testBit_and, testBit_ulongNot,
      Nat.testBit_two_pow, Nat.testBit_shiftLeft]
    have hv2 : v = 0 ∨ v = 1 := by omega
    have hb32 : b < 32 := by omega
    have hne2 : ¬ bit = b := fun h => hne h.symm
    rcases hv2 with rfl | rfl
    · simp [hb8, hb32, hne2]
    · by_cases hge : b ≥ bit
      · have : b - bit ≠ 0 := by omega
        simp [hb8, hb32, hne2, hge, Nat.testBit_one_eq_true_iff_self_eq_zero, this]
      · simp [hb8, hb32, hne2, hge]

/-! ## Register access lemmas -/

theorem selectBank_mem (nb : Nat) (c : config470) (hw : Hw) (a : Nat)
    (ha : a ≠ b_select c.brd_ptr 7) : (avme470SelectBank nb c hw).2.mem a = hw.mem a := by
  unfold avme470SelectBank
  simp only [avme470Input, avme470Output]
  split <;> simp [ha]

theorem b_select_inj (bp i j : Nat) : b_select bp i = b_select bp j ↔ i = j := by
  unfold b_select; omega

theorem avme470Write_bit (w : World) (name : String) (c : config470)
    (hfind : avme470FindCard w.registry name = some c) (port bit v : Nat)
    (hp : port < MAXPORTS) (hb : bit < MAXBITS) (hv : v ≤ 1) (nobt d : Int) :
    avme470Write w name port bit BIT v nobt d =
      (OK, { registry := w.registry,
             hw := avme470Output (avme470Input w.hw (b_select c.brd_ptr port)).2
               (b_select c.brd_ptr port)
               ((w.hw.mem (b_select c.brd_ptr port) % 256
                  &&& ulongNot ((1 <<< bit) % 256)) ||| (v <<< bit)) }) := by
  have h1 : ¬ ((port : Int) < 0 ∨ (port : Int) ≥ (MAXPORTS : Nat)) := by omega
  have h2 : ¬ ((bit : Int) < 0 ∨ (bit : Int) ≥ (MAXBITS : Nat)) := by omega
  have h3 : ¬ ((v : Int) < 0 ∨ (v : Int) > 1) := by omega
  simp only [avme470Write, h1, h2, h3, hfind, if_false, if_true, Int.toNat_ofNat, avme470Input]

theorem avme470Read_bit (w : World) (name : String) (c : config470)
    (hfind : avme470FindCard w.registry name = some c) (port bit : Nat)
    (hp : port < MAXPORTS) (hb : bit < MAXBITS) (d : Int) :
    avme470Read w name port bit BIT d =
      (OK,
       some (if (avme470SelectBank BANK0 c w.hw).2.mem (b_select c.brd_ptr port) % 256
                 &&& (1 <<< bit) ≠ 0 then 1 else 0),
       { registry := w.registry,
         hw := (avme470Input (avme470SelectBank BANK0 c w.hw).2 (b_select c.brd_ptr port)).2 }) := by
  have h1 : ¬ ((port : Int) < 0 ∨ (port : Int) ≥ (MAXPORTS : Nat)) := by omega
  have h2 : ¬ ((bit : Int) < 0 ∨ (bit : Int) ≥ (MAXBITS : Nat)) := by omega
  simp only [avme470Read, h1, h2, hfind, if_false, if_true, Int.toNat_ofNat, avme470Input,
    true_or]
/-- C1: on the simulated register store, with `name` a registered card, for
every port in [0,6), bit in [0,8) and v in {0,1}: `avme470Write` of a BIT
returns OK, the following `avme470Read` of that BIT returns OK with value v,
and (both after the write and after the read) every other bit of that port
register and every other port register 0..5 holds the value it had before. -/
theorem avme470_bit_write_then_read (w : World) (name : String) (c : config470)
    (hfind : avme470FindCard w.registry name = some c) (port bit v : Nat)
    (hp : port < MAXPORTS) (hb : bit < MAXBITS) (hv : v ≤ 1) (nobt d1 d2 : Int) :
    (avme470Write w name port bit BIT v nobt d1).1 = OK ∧
    (avme470Read (avme470Write w name port bit BIT v nobt d1).2 name port bit BIT d2).1 = OK ∧
    (avme470Read (avme470Write w name port bit BIT v nobt d1).2 name port bit BIT d2).2.1
      = some v ∧
    (∀ b < MAXBITS, b ≠ bit →
      ((avme470Write w name port bit BIT v nobt d1).2.hw.mem
          (b_select c.brd_ptr port)).testBit b
        = (w.hw.mem (b_select c.brd_ptr port)).testBit b ∧
      ((avme470Read (avme470Write w name port bit BIT v nobt d1).2 name port bit BIT
          d2).2.2.hw.mem (b_select c.brd_ptr port)).testBit b
        = (w.hw.mem (b_select c.brd_ptr port)).testBit b) ∧
    (∀ q < MAXPORTS, q ≠ port →
      (avme470Write w name port bit BIT v nobt d1).2.hw.mem (b_select c.brd_ptr q)
        = w.hw.mem (b_select c.brd_ptr q) ∧
      (avme470Read (avme470Write w name port bit BIT v nobt d1).2 name port bit BIT
          d2).2.2.hw.mem (b_select c.brd_ptr q)
        = w.hw.mem (b_select c.brd_ptr q)) := by
  have hb8 : bit < 8 := hb
  have hw := avme470Write_bit w name c hfind port bit v hp hb hv nobt d1
  have hfind2 : avme470FindCard (avme470Write w name port bit BIT v nobt d1).2.registry name
      = some c := by rw [hw]; exact hfind
  have hr := avme470Read_bit (avme470Write w name port bit BIT v nobt d1).2 name c hfind2
    port bit hp hb d2
  have hp7 : ∀ q < MAXPORTS, b_select c.brd_ptr q ≠ b_select c.brd_ptr 7 := by
    intro q hq h
    rw [b_select_inj] at h
    unfold MAXPORTS at hq
    omega
  obtain ⟨hbit, hframe⟩ := bit_rmw (w.hw.mem (b_select c.brd_ptr port)) bit v hb8 hv
  rw [hr]
  simp only [selectBank_mem _ _ _ _ (hp7 _ hp), avme470Input]
  rw [hw]
  simp only [avme470Output, avme470Input, if_true, Nat.mod_mod]
  refine ⟨trivial, trivial, ?_, ?_, ?_⟩
  · by_cases h1 : v = 1
    · rw [if_pos (hbit.mpr h1), h1]
    · rw [if_neg (fun h => h1 (hbit.mp h))]
      congr 1
      omega
  · intro b hb' hne
    exact ⟨hframe b hb' hne, hframe b hb' hne⟩
  · intro q hq hne
    have hqp : b_select c.brd_ptr q ≠ b_select c.brd_ptr port := by
      rw [Ne, b_select_inj]; exact hne
    simp only [selectBank_mem _ _ _ _ (hp7 _ hq), avme470Output, avme470Input, if_neg hqp,
      and_self]

theorem avme470_bit_write_then_read_witness :
    avme470FindCard dio1World.registry "DIO1" = some dio1 ∧
    (avme470Read (avme470Write dio1World "DIO1" 2 5 BIT 1 1 0).2 "DIO1" 2 5 BIT 0).2.1
      = some 1 :=
  ⟨by decide,
   (avme470_bit_write_then_read dio1World "DIO1" dio1 (by decide) 2 5 1 (by decide)
      (by decide) (by decide) 1 0 0).2.2.1⟩

/-- C2 (code at the failing input): on the all-zero store, writing the NIBBLE
value 8 at port 0, bit 5 (a span that crosses into port 1) returns OK, but the
read-back at the same position returns 0 instead of 8. -/
theorem avme470_nibble_crossing_readback :
    (avme470Write dio1World "DIO1" 0 5 NIBBLE 8 4 0).1 = OK ∧
    (avme470Read (avme470Write dio1World "DIO1" 0 5 NIBBLE 8 4 0).2 "DIO1" 0 5 NIBBLE 0).1
      = OK ∧
    (avme470Read (avme470Write dio1World "DIO1" 0 5 NIBBLE 8 4 0).2 "DIO1" 0 5 NIBBLE 0).2.1
      = some 0 := by
  decide

/-- C3 (code at the failing input): on the all-zero store, writing the NIBBLE
value 8 at port 0, bit 5 (span: flat bits 5..8) sets bit 5 of port 1 (flat bit
13, outside the span) and leaves bit 0 of port 1 (flat bit 8, inside) clear. -/
theorem avme470_nibble_crossing_frame :
    (8 * 0 + 5 + 4 ≤ 13) ∧
    (dio1World.hw.mem (b_select dio1.brd_ptr 1)).testBit 5 = false ∧
    ((avme470Write dio1World "DIO1" 0 5 NIBBLE 8 4 0).2.hw.mem
      (b_select dio1.brd_ptr 1)).testBit 5 = true ∧
    (avme470Write dio1World "DIO1" 0 5 NIBBLE 8 4 0).2.hw.mem (b_select dio1.brd_ptr 1)
      = 0x20 := by
  decide

theorem avme470Read_ports (w : World) (name : String) (c : config470)
    (hfind : avme470FindCard w.registry name = some c) (port bit : Nat)
    (hp : port < MAXPORTS) (hb : bit < MAXBITS) (flag : Int)
    (hflag : flag = NIBBLE ∨ flag = WORD) (d : Int) :
    (avme470Read w name port bit flag d).1 = OK ∧
    (avme470Read w name port bit flag d).2.1 =
      some ((((if port < MAXPORTS then w.hw.mem (b_select c.brd_ptr port) % 256 else 0)
              + 256 * (if port + 1 < MAXPORTS then
                         w.hw.mem (b_select c.brd_ptr (port + 1)) % 256 else 0)
              + 65536 * (if port + 2 < MAXPORTS then
                           w.hw.mem (b_select c.brd_ptr (port + 2)) % 256 else 0))
             >>> bit) &&& (if flag = NIBBLE then 0xF else 0xFFFF)) := by
  have h1 : ¬ ((port : Int) < 0 ∨ (port : Int) ≥ (MAXPORTS : Nat)) := by omega
  have h2 : ¬ ((bit : Int) < 0 ∨ (bit : Int) ≥ (MAXBITS : Nat)) := by omega
  have h3 : ¬ (flag = BIT ∨ flag = PORT) := by
    rcases hflag with h | h <;> rw [h] <;> decide
  have hp7 : ∀ q < MAXPORTS, b_select c.brd_ptr q ≠ b_select c.brd_ptr 7 := by
    intro q hq h
    rw [b_select_inj] at h
    unfold MAXPORTS at hq
    omega
  simp only [avme470Read, h1, h2, h3, hflag, hfind, if_false, if_true, Int.toNat_ofNat]
  refine ⟨trivial, ?_⟩
  congr 1
  have hres : ∀ (a b c : Nat), (c <<< 16) + (b <<< 8) + a = a + 256 * b + 65536 * c := by
    intro a b c
    simp only [Nat.shiftLeft_eq]
    omega
  by_cases hq1 : port + 1 < MAXPORTS
  · by_cases hq2 : port + 2 < MAXPORTS
    · have hq2' : port + 1 + 1 < MAXPORTS := hq2
      simp only [avme470ReadPorts, avme470Input, hp, hq1, hq2, hq2', if_true, and_true,
        Nat.lt_irrefl, true_and, List.set_cons_zero, List.set_cons_succ, List.getD_cons_zero,
        List.getD_cons_succ, selectBank_mem _ _ _ _ (hp7 _ hp),
        selectBank_mem _ _ _ _ (hp7 _ hq1), selectBank_mem _ _ _ _ (hp7 _ hq2), hres,
        show (0 : Nat) < 3 from by norm_num, show (0 + 1 : Nat) < 3 from by norm_num,
        show (0 + 1 + 1 : Nat) < 3 from by norm_num]
      split <;> rfl
    · have hq2' : ¬ port + 1 + 1 < MAXPORTS := hq2
      simp only [avme470ReadPorts, avme470Input, hp, hq1, hq2, hq2', if_true, if_false,
        and_true, and_false,
        Nat.lt_irrefl, true_and, List.set_cons_zero, List.set_cons_succ, List.getD_cons_zero,
        List.getD_cons_succ, selectBank_mem _ _ _ _ (hp7 _ hp),
        selectBank_mem _ _ _ _ (hp7 _ hq1), hres,
        show (0 : Nat) < 3 from by norm_num, show (0 + 1 : Nat) < 3 from by norm_num,
        show (0 + 1 + 1 : Nat) < 3 from by norm_num]
      split <;> rfl
  · have hq2 : ¬ port + 2 < MAXPORTS := by omega
    simp only [avme470ReadPorts, avme470Input, hp, hq1, hq2, if_true, if_false,
        and_true, and_false,
        Nat.lt_irrefl, true_and, List.set_cons_zero, List.set_cons_succ, List.getD_cons_zero,
        List.getD_cons_succ, selectBank_mem _ _ _ _ (hp7 _ hp), hres,
        show (0 : Nat) < 3 from by norm_num, show (0 + 1 : Nat) < 3 from by norm_num]
    split <;> rfl
/-- C4: for a registered card and in-range port and bit, `avme470Read` with
NIBBLE (resp. WORD) returns OK and the value
`((p0 + 256*p1 + 65536*p2) >> bit) & 0xF` (resp. `& 0xFFFF`), where `p_n` is the
register of port+n when port+n < 6 and 0 otherwise. -/
theorem avme470_read_nibble_word (w : World) (name : String) (c : config470)
    (hfind : avme470FindCard w.registry name = some c) (port bit : Nat)
    (hp : port < MAXPORTS) (hb : bit < MAXBITS) (d : Int) :
    (avme470Read w name port bit NIBBLE d).1 = OK ∧
    (avme470Read w name port bit NIBBLE d).2.1 =
      some ((((if port < MAXPORTS then w.hw.mem (b_select c.brd_ptr port) % 256 else 0)
              + 256 * (if port + 1 < MAXPORTS then
                         w.hw.mem (b_select c.brd_ptr (port + 1)) % 256 else 0)
              + 65536 * (if port + 2 < MAXPORTS then
                           w.hw.mem (b_select c.brd_ptr (port + 2)) % 256 else 0))
             >>> bit) &&& 0xF) ∧
    (avme470Read w name port bit WORD d).1 = OK ∧
    (avme470Read w name port bit WORD d).2.1 =
      some ((((if port < MAXPORTS then w.hw.mem (b_select c.brd_ptr port) % 256 else 0)
              + 256 * (if port + 1 < MAXPORTS then
                         w.hw.mem (b_select c.brd_ptr (port + 1)) % 256 else 0)
              + 65536 * (if port + 2 < MAXPORTS then
                           w.hw.mem (b_select c.brd_ptr (port + 2)) % 256 else 0))
             >>> bit) &&& 0xFFFF) := by
  have hn := avme470Read_ports w name c hfind port bit hp hb NIBBLE (Or.inl rfl) d
  have hw := avme470Read_ports w name c hfind port bit hp hb WORD (Or.inr rfl) d
  have e1 : (if NIBBLE = NIBBLE then (0xF : Nat) else 0xFFFF) = 0xF := if_pos rfl
  have e2 : (if WORD = NIBBLE then (0xF : Nat) else 0xFFFF) = 0xFFFF := if_neg (by decide)
  rw [e1] at hn
  rw [e2] at hw
  exact ⟨hn.1, hn.2, hw.1, hw.2⟩

theorem avme470_read_nibble_word_witness :
    avme470FindCard dio1World.registry "DIO1" = some dio1 ∧
    (avme470Read dio1World "DIO1" 4 3 WORD 0).2.1 = some 0 :=
  ⟨by decide,
   (avme470_read_nibble_word dio1World "DIO1" dio1 (by decide) 4 3 (by decide) (by decide)
      0).2.2.2⟩

/-! ## Bank selection -/

theorem writesOf_append (l₁ l₂ : List Access) :
    writesOf (l₁ ++ l₂) = writesOf l₁ ++ writesOf l₂ := by
  induction l₁ with
  | nil => rfl
  | cons x l ih =>
    cases x with
    | rd a v => simpa [writesOf] using ih
    | wr a v => simpa [writesOf] using ih

set_option maxRecDepth 1000000 in
theorem bank_bits_aux : ∀ y < 256, ∀ nb < 4,
    ((((y &&& 0x3F) ||| (nb <<< 6)) % 256) &&& 0xC0) >>> 6 = nb ∧
    ((y &&& 0x3F) ||| (nb <<< 6)) % 256 = (y &&& 0x3F) ||| (nb <<< 6) := by
  decide

theorem bank_bits (y nb : Nat) (hnb : nb < 4) :
    ((((y % 256 &&& 0x3F) ||| (nb <<< 6)) % 256) &&& 0xC0) >>> 6 = nb ∧
    ((y % 256 &&& 0x3F) ||| (nb <<< 6)) % 256 = (y % 256 &&& 0x3F) ||| (nb <<< 6) :=
  bank_bits_aux (y % 256) (Nat.mod_lt _ (by norm_num)) nb hnb

/-- The bank a store has selected: the top two bits of the bank-select byte. -/
theorem selectBank_fst (newBank : Nat) (c : config470) (hw : Hw) :
    (avme470SelectBank newBank c hw).1
      = (hw.mem (b_select c.brd_ptr 7) % 256 &&& 0xC0) >>> 6 := by
  unfold avme470SelectBank
  simp only [avme470Input]
  split <;> rfl

theorem selectBank_of_eq (newBank : Nat) (c : config470) (hw : Hw)
    (h : (hw.mem (b_select c.brd_ptr 7) % 256 &&& 0xC0) >>> 6 = newBank) :
    (avme470SelectBank newBank c hw).2 = (avme470Input hw (b_select c.brd_ptr 7)).2 := by
  unfold avme470SelectBank
  simp only [avme470Input, h, if_true]

theorem selectBank_of_ne (newBank : Nat) (c : config470) (hw : Hw)
    (h : (hw.mem (b_select c.brd_ptr 7) % 256 &&& 0xC0) >>> 6 ≠ newBank) :
    (avme470SelectBank newBank c hw).2
      = avme470Output (avme470Input hw (b_select c.brd_ptr 7)).2 (b_select c.brd_ptr 7)
          ((((if (hw.mem (b_select c.brd_ptr 7) % 256 &&& 0xC0) >>> 6 = BANK1
                then c.ev_control1 % 256 else hw.mem (b_select c.brd_ptr 7) % 256)
              &&& 0x3F) ||| (newBank <<< 6)) % 256) := by
  unfold avme470SelectBank
  simp only [avme470Input, h, if_false]

theorem selectBank_byte (newBank : Nat) (c : config470) (hw : Hw) (hnb : newBank < 4) :
    (((if (hw.mem (b_select c.brd_ptr 7) % 256 &&& 0xC0) >>> 6 = BANK1
         then c.ev_control1 % 256 else hw.mem (b_select c.brd_ptr 7) % 256)
       &&& 0x3F) ||| (newBank <<< 6)) % 256
    = ((if (hw.mem (b_select c.brd_ptr 7) % 256 &&& 0xC0) >>> 6 = BANK1
          then c.ev_control1 % 256 else hw.mem (b_select c.brd_ptr 7) % 256)
        &&& 0x3F) ||| (newBank <<< 6) := by
  split
  · exact (bank_bits c.ev_control1 newBank hnb).2
  · exact (bank_bits (hw.mem (b_select c.brd_ptr 7)) newBank hnb).2

theorem selectBank_selected (newBank : Nat) (c : config470) (hw : Hw) (hnb : newBank < 4) :
    ((avme470SelectBank newBank c hw).2.mem (b_select c.brd_ptr 7) % 256 &&& 0xC0) >>> 6
      = newBank := by
  by_cases h : (hw.mem (b_select c.brd_ptr 7) % 256 &&& 0xC0) >>> 6 = newBank
  · rw [selectBank_of_eq _ _ _ h]
    exact h
  · rw [selectBank_of_ne _ _ _ h]
    simp only [avme470Input, avme470Output, if_true, Nat.mod_mod]
    split
    · exact (bank_bits c.ev_control1 newBank hnb).1
    · exact (bank_bits (hw.mem (b_select c.brd_ptr 7)) newBank hnb).1

/-- C5: `avme470SelectBank` is idempotent on a store that reads back what was
written. For `newBank` in {BANK0, BANK1, BANK2}, a second call leaves the
register contents as the first call left them and writes nothing more; the
first call returns the bank selected before it (the top two bits of the
bank-select byte) and the second call returns `newBank`. -/
theorem avme470SelectBank_idempotent (newBank : Nat) (c : config470) (hw : Hw)
    (hnb : newBank ≤ BANK2) :
    (avme470SelectBank newBank c (avme470SelectBank newBank c hw).2).2.mem
      = (avme470SelectBank newBank c hw).2.mem ∧
    writesOf (avme470SelectBank newBank c (avme470SelectBank newBank c hw).2).2.log
      = writesOf (avme470SelectBank newBank c hw).2.log ∧
    (avme470SelectBank newBank c hw).1
      = (hw.mem (b_select c.brd_ptr 7) % 256 &&& 0xC0) >>> 6 ∧
    (avme470SelectBank newBank c (avme470SelectBank newBank c hw).2).1 = newBank := by
  have hnb4 : newBank < 4 := by unfold BANK2 at hnb; omega
  have hsel := selectBank_selected newBank c hw hnb4
  refine ⟨?_, ?_, selectBank_fst _ _ _, ?_⟩
  · rw [selectBank_of_eq _ _ _ hsel]
    rfl
  · rw [selectBank_of_eq _ _ _ hsel]
    simp only [avme470Input, writesOf_append, writesOf, List.append_nil]
  · rw [selectBank_fst]
    exact hsel

theorem avme470SelectBank_idempotent_witness :
    BANK0 ≤ BANK2 ∧
    (avme470SelectBank BANK0 dio1 bank1Hw).1 = BANK1 ∧
    (avme470SelectBank BANK0 dio1 (avme470SelectBank BANK0 dio1 bank1Hw).2).1 = BANK0 :=
  ⟨by decide, by decide,
   (avme470SelectBank_idempotent BANK0 dio1 bank1Hw (by decide)).2.2.2⟩

/-- C6: `avme470SelectBank` returns the top two bits of the bank-select byte
read at entry. If they equal `newBank` no register is written. Otherwise
exactly one byte is written, to the bank-select register, equal to
`(src & 0x3F) | (newBank << 6)` (as an `unsigned char`), where `src` is the low
byte of `ev_control[1]` when the old bank was BANK1 and the byte just read
otherwise; for a two-bit `newBank` that byte needs no truncation, and for
`newBank` in {0,1,2} the bank selected after the call is `newBank`. -/
theorem avme470SelectBank_spec (newBank : Nat) (c : config470) (hw : Hw) :
    (avme470SelectBank newBank c hw).1
      = (hw.mem (b_select c.brd_ptr 7) % 256 &&& 0xC0) >>> 6 ∧
    ((hw.mem (b_select c.brd_ptr 7) % 256 &&& 0xC0) >>> 6 = newBank →
      writesOf (avme470SelectBank newBank c hw).2.log = writesOf hw.log ∧
      (avme470SelectBank newBank c hw).2.mem = hw.mem) ∧
    ((hw.mem (b_select c.brd_ptr 7) % 256 &&& 0xC0) >>> 6 ≠ newBank →
      writesOf (avme470SelectBank newBank c hw).2.log
        = writesOf hw.log ++
            [(b_select c.brd_ptr 7,
              (((if (hw.mem (b_select c.brd_ptr 7) % 256 &&& 0xC0) >>> 6 = BANK1
                   then c.ev_control1 % 256 else hw.mem (b_select c.brd_ptr 7) % 256)
                 &&& 0x3F) ||| (newBank <<< 6)) % 256)] ∧
      (newBank < 4 →
        (((if (hw.mem (b_select c.brd_ptr 7) % 256 &&& 0xC0) >>> 6 = BANK1
             then c.ev_control1 % 256 else hw.mem (b_select c.brd_ptr 7) % 256)
           &&& 0x3F) ||| (newBank <<< 6)) % 256
        = ((if (hw.mem (b_select c.brd_ptr 7) % 256 &&& 0xC0) >>> 6 = BANK1
              then c.ev_control1 % 256 else hw.mem (b_select c.brd_ptr 7) % 256)
            &&& 0x3F) ||| (newBank <<< 6))) ∧
    (newBank ≤ BANK2 →
      ((avme470SelectBank newBank c hw).2.mem (b_select c.brd_ptr 7) % 256 &&& 0xC0) >>> 6
        = newBank) := by
  refine ⟨selectBank_fst _ _ _, ?_, ?_, ?_⟩
  · intro h
    rw [selectBank_of_eq _ _ _ h]
    simp only [avme470Input, writesOf_append, writesOf, List.append_nil, and_self]
  · intro h
    rw [selectBank_of_ne _ _ _ h]
    refine ⟨?_, selectBank_byte _ _ _⟩
    simp only [avme470Input, avme470Output, writesOf_append, writesOf, List.append_nil,
      Nat.mod_mod]
  · intro hnb
    exact selectBank_selected _ _ _ (by unfold BANK2 at hnb; omega)

theorem avme470SelectBank_spec_witness :
    (bank1Hw.mem (b_select dio1.brd_ptr 7) % 256 &&& 0xC0) >>> 6 ≠ BANK0 ∧
    writesOf (avme470SelectBank BANK0 dio1 bank1Hw).2.log = [(15, 0x0A)] ∧
    ((avme470SelectBank BANK0 dio1 bank1Hw).2.mem (b_select dio1.brd_ptr 7) % 256
        &&& 0xC0) >>> 6 = BANK0 :=
  ⟨by decide,
   ((avme470SelectBank_spec BANK0 dio1 bank1Hw).2.2.1 (by decide)).1,
   (avme470SelectBank_spec BANK0 dio1 bank1Hw).2.2.2 (by decide)⟩

/-! ## Registry -/

theorem setConfig_ident (ipac : Ipac) (pName : String) (card slot mode intHandler : Nat)
    (usrFunc : Option String) (vector event debounce : Nat) (blk : config470) :
    (avme470SetConfig ipac pName card slot mode intHandler usrFunc vector event debounce
        blk).pName = pName ∧
    (avme470SetConfig ipac pName card slot mode intHandler usrFunc vector event debounce
        blk).card = card ∧
    (avme470SetConfig ipac pName card slot mode intHandler usrFunc vector event debounce
        blk).slot = slot := by
  unfold avme470SetConfig
  simp only []
  split
  · exact ⟨rfl, rfl, rfl⟩
  · split
    · split
      · exact ⟨rfl, rfl, rfl⟩
      · split <;> exact ⟨rfl, rfl, rfl⟩
    · exact ⟨rfl, rfl, rfl⟩

theorem duplicate_iff (pName : String) (card slot : Nat) (reg : List config470) :
    avme470Duplicate pName card slot reg = true ↔
      ∃ c ∈ reg, c.pName = pName ∨ (c.card = card ∧ c.slot = slot) := by
  induction reg with
  | nil => simp [avme470Duplicate]
  | cons x l ih =>
    unfold avme470Duplicate
    by_cases h : x.pName = pName ∨ (x.card = card ∧ x.slot = slot)
    · simp only [h, if_true, List.mem_cons, true_iff]
      exact ⟨x, Or.inl rfl, h⟩
    · simp only [h, if_false, ih, List.mem_cons]
      constructor
      · rintro ⟨c, hc, hd⟩
        exact ⟨c, Or.inr hc, hd⟩
      · rintro ⟨c, hc | hc, hd⟩
        · subst hc; exact absurd hd h
        · exact ⟨c, hc, hd⟩

theorem findCard_none_iff (reg : List config470) (name : String) :
    avme470FindCard reg name = none ↔ ∀ c ∈ reg, c.pName ≠ name := by
  induction reg with
  | nil => simp [avme470FindCard]
  | cons x l ih =>
    unfold avme470FindCard
    by_cases h : x.pName = name
    · simp [h]
    · simp [h, ih]

theorem findCard_append_last (reg : List config470) (name : String) (c : config470)
    (hnone : avme470FindCard reg name = none) (hc : c.pName = name) :
    avme470FindCard (reg ++ [c]) name = some c := by
  induction reg with
  | nil => simp [avme470FindCard, hc]
  | cons x l ih =>
    unfold avme470FindCard at hnone
    by_cases h : x.pName = name
    · simp [h] at hnone
    · simp only [h, if_false] at hnone
      simp only [List.cons_append, avme470FindCard, h, if_false]
      exact ih hnone

theorem status_ne_OK :
    S_avme470_duplicateDevice ≠ OK ∧ S_avme470_modeError ≠ OK ∧
    S_avme470_intHandlerError ≠ OK ∧ S_avme470_validateFailed ≠ OK ∧
    S_avme470_mallocFailed ≠ OK ∧ S_avme470_vectorInvalid ≠ OK ∧
    S_avme470_eventRegInvalid ≠ OK ∧ S_avme470_debounceRegInvalid ≠ OK ∧
    S_avme470_portError ≠ OK ∧ S_avme470_bitError ≠ OK ∧ S_avme470_dataFlagError ≠ OK ∧
    S_avme470_cardNotFound ≠ OK ∧ S_avme470_writeError ≠ OK := by
  decide

theorem createMode_error_ne_OK (modeName intHandlerName : String)
    (vector event debounce : Int) (s : Nat)
    (h : avme470CreateMode modeName intHandlerName vector event debounce = Except.error s) :
    s ≠ OK := by
  unfold avme470CreateMode at h
  have hs := status_ne_OK
  split at h
  · cases h
  · split at h
    · simp only [] at h
      split at h
      · cases h; exact hs.2.2.1
      · split at h
        · cases h; exact hs.2.2.2.2.2.1
        · split at h
          · cases h; exact hs.2.2.2.2.2.2.1
          · split at h
            · cases h; exact hs.2.2.2.2.2.2.2.1
            · cases h
    · cases h; exact hs.2.1

/-- Every `avme470Create` call either fails and returns the state it was given,
or succeeds and appends the block filled by `avme470SetConfig`, which no card
of the list duplicates. -/
theorem create_cases (ipac : Ipac) (malloc : Option config470) (w : World)
    (pName : String) (card slot : Nat) (modeName intHandlerName : String)
    (usrFunc : Option String) (vector event debounce : Int) :
    ((avme470Create ipac malloc w pName card slot modeName intHandlerName usrFunc vector
        event debounce).1 ≠ OK ∧
      (avme470Create ipac malloc w pName card slot modeName intHandlerName usrFunc vector
        event debounce).2 = w) ∨
    (∃ blk mode intHandler,
      avme470Duplicate pName card slot w.registry = false ∧
      (avme470Create ipac malloc w pName card slot modeName intHandlerName usrFunc vector
        event debounce).1 = OK ∧
      (avme470Create ipac malloc w pName card slot modeName intHandlerName usrFunc vector
        event debounce).2.registry
        = w.registry ++ [avme470SetConfig ipac pName card slot mode intHandler usrFunc
            (vector % 65536).toNat (event % 65536).toNat (debounce % 65536).toNat blk]) := by
  have hs := status_ne_OK
  unfold avme470Create
  cases hm : avme470CreateMode modeName intHandlerName vector event debounce with
  | error s =>
    left
    exact ⟨createMode_error_ne_OK _ _ _ _ _ s hm, rfl⟩
  | ok mh =>
    obtain ⟨mode, intHandler⟩ := mh
    simp only []
    by_cases hv : ipac.ipmValidate card slot IP_MANUFACTURER_ACROMAG IP_MODEL_ACROMAG_IP470 ≠ 0
    · left
      rw [if_pos hv]
      exact ⟨hs.2.2.2.1, rfl⟩
    · rw [if_neg hv]
      by_cases he : w.registry = []
      · rw [if_pos he]
        cases malloc with
        | none => left; exact ⟨hs.2.2.2.2.1, rfl⟩
        | some blk =>
          right
          refine ⟨blk, mode, intHandler, ?_, rfl, ?_⟩
          · rw [he]; rfl
          · simp only [he, List.nil_append]
      · rw [if_neg he]
        by_cases hd : avme470Duplicate pName card slot w.registry = true
        · left
          rw [if_pos hd]
          exact ⟨hs.1, rfl⟩
        · rw [if_neg hd]
          cases malloc with
          | none => left; exact ⟨hs.2.2.2.2.1, rfl⟩
          | some blk =>
            right
            exact ⟨blk, mode, intHandler, by simpa using hd, rfl, rfl⟩
theorem runCreate_unique (w : World) (k : CreateCall) (h : RegistryUnique w.registry) :
    RegistryUnique (runCreate w k).registry := by
  unfold runCreate
  rcases create_cases k.ipac k.malloc w k.pName k.card k.slot k.modeName k.intHandlerName
    k.usrFunc k.vector k.event k.debounce with ⟨_, hsame⟩ | ⟨blk, mode, ih, hdup, _, hreg⟩
  · rw [hsame]; exact h
  · rw [hreg]
    have hid := setConfig_ident k.ipac k.pName k.card k.slot mode ih k.usrFunc
      (k.vector % 65536).toNat (k.event % 65536).toNat (k.debounce % 65536).toNat blk
    have hno : ∀ c ∈ w.registry, ¬ (c.pName = k.pName ∨ (c.card = k.card ∧ c.slot = k.slot)) := by
      intro c hc hd
      have := (duplicate_iff k.pName k.card k.slot w.registry).mpr ⟨c, hc, hd⟩
      rw [hdup] at this
      cases this
    unfold RegistryUnique at h ⊢
    simp only [List.map_append, List.map_cons, List.map_nil, hid.1, hid.2.1, hid.2.2]
    constructor
    · rw [List.nodup_append]
      refine ⟨h.1, List.nodup_singleton _, ?_⟩
      intro a ha hb
      rw [List.mem_singleton] at hb
      rw [List.mem_map] at ha
      obtain ⟨c, hc, rfl⟩ := ha
      exact hno c hc (Or.inl hb)
    · rw [List.nodup_append]
      refine ⟨h.2, List.nodup_singleton _, ?_⟩
      intro a ha hb
      rw [List.mem_singleton] at hb
      rw [List.mem_map] at ha
      obtain ⟨c, hc, rfl⟩ := ha
      rw [Prod.mk.injEq] at hb
      exact hno c hc (Or.inr hb)

theorem runCreates_unique (ks : List CreateCall) (w : World) (h : RegistryUnique w.registry) :
    RegistryUnique (runCreates w ks).registry := by
  induction ks generalizing w with
  | nil => exact h
  | cons k ks ih => exact ih (runCreate w k) (runCreate_unique w k h)

/-- C7: an `avme470Create` call with otherwise valid arguments (the mode and
handler section accepts them) and a validated board, whose name equals the name
of a card in the registry or whose (card, slot) pair equals that of a card in
the registry, returns `S_avme470_duplicateDevice` and leaves the state, hence
the registry with its cards and their order, as it was. Consequently names and
(card, slot) pairs stay pairwise distinct along any sequence of create calls:
from a registry where they are distinct, and so from the empty registry. -/
theorem avme470Create_duplicate_rejected (ipac : Ipac) (malloc : Option config470)
    (w : World) (pName : String) (card slot : Nat) (modeName intHandlerName : String)
    (usrFunc : Option String) (vector event debounce : Int) (ks : List CreateCall) :
    ((∃ mh, avme470CreateMode modeName intHandlerName vector event debounce = Except.ok mh) →
      ipac.ipmValidate card slot IP_MANUFACTURER_ACROMAG IP_MODEL_ACROMAG_IP470 = 0 →
      (∃ c ∈ w.registry, c.pName = pName ∨ (c.card = card ∧ c.slot = slot)) →
      (avme470Create ipac malloc w pName card slot modeName intHandlerName usrFunc vector
          event debounce).1 = S_avme470_duplicateDevice ∧
      (avme470Create ipac malloc w pName card slot modeName intHandlerName usrFunc vector
          event debounce).2.registry = w.registry ∧
      (avme470Create ipac malloc w pName card slot modeName intHandlerName usrFunc vector
          event debounce).2 = w) ∧
    (RegistryUnique w.registry → RegistryUnique (runCreates w ks).registry) ∧
    RegistryUnique (runCreates { registry := [], hw := w.hw } ks).registry := by
  refine ⟨?_, runCreates_unique ks w, runCreates_unique ks _ ?_⟩
  · rintro ⟨⟨mode, ih⟩, hm⟩ hv ⟨c, hc, hd⟩
    have hdup := (duplicate_iff pName card slot w.registry).mpr ⟨c, hc, hd⟩
    have hne : w.registry ≠ [] := by
      intro he
      rw [he] at hc
      cases hc
    unfold avme470Create
    rw [hm]
    simp only [hv, hne, hdup, ne_eq, not_true_eq_false, if_false, if_true, and_self]
  · exact ⟨List.nodup_nil, List.nodup_nil⟩

theorem avme470Create_duplicate_rejected_witness :
    (∃ mh, avme470CreateMode "STANDARD" "" 0 0 0 = Except.ok mh) ∧
    (∃ c ∈ dio1World.registry, c.pName = "DIO1" ∨ (c.card = 1 ∧ c.slot = 2)) ∧
    (avme470Create okIpac (some dio1) dio1World "DIO1" 1 2 "STANDARD" "" none 0 0 0).1
      = S_avme470_duplicateDevice ∧
    (avme470Create okIpac (some dio1) dio1World "DIO1" 1 2 "STANDARD" "" none 0 0 0).2.registry
      = [dio1] :=
  ⟨⟨(STANDARD, NOTUSED), rfl⟩, ⟨dio1, by decide, by decide⟩,
   ((avme470Create_duplicate_rejected okIpac (some dio1) dio1World "DIO1" 1 2 "STANDARD" ""
      none 0 0 0 []).1 ⟨(STANDARD, NOTUSED), rfl⟩ rfl
      ⟨dio1, by decide, by decide⟩).1,
   ((avme470Create_duplicate_rejected okIpac (some dio1) dio1World "DIO1" 1 2 "STANDARD" ""
      none 0 0 0 []).1 ⟨(STANDARD, NOTUSED), rfl⟩ rfl
      ⟨dio1, by decide, by decide⟩).2.1⟩

/-- C8: whenever `avme470Create` returns OK, the registry afterwards is the
registry before with exactly one new card appended at the tail; that card
carries the given name, card and slot, `avme470FindCard` of the name returns it
(no card of the old registry bore the name); and `avme470FindCard` of a name no
card of a registry carries returns `NULL`. -/
theorem avme470Create_appends (ipac : Ipac) (malloc : Option config470)
    (w : World) (pName : String) (card slot : Nat) (modeName intHandlerName : String)
    (usrFunc : Option String) (vector event debounce : Int)
    (reg : List config470) (name : String) :
    ((avme470Create ipac malloc w pName card slot modeName intHandlerName usrFunc vector
        event debounce).1 = OK →
      ∃ c : config470,
        (avme470Create ipac malloc w pName card slot modeName intHandlerName usrFunc vector
          event debounce).2.registry = w.registry ++ [c] ∧
        c.pName = pName ∧ c.card = card ∧ c.slot = slot ∧
        avme470FindCard w.registry pName = none ∧
        avme470FindCard
          (avme470Create ipac malloc w pName card slot modeName intHandlerName usrFunc vector
            event debounce).2.registry pName = some c) ∧
    ((∀ c ∈ reg, c.pName ≠ name) → avme470FindCard reg name = none) := by
  refine ⟨?_, (findCard_none_iff reg name).mpr⟩
  intro hok
  rcases create_cases ipac malloc w pName card slot modeName intHandlerName usrFunc vector
    event debounce with ⟨hne, _⟩ | ⟨blk, mode, ih, hdup, _, hreg⟩
  · exact absurd hok hne
  · have hid := setConfig_ident ipac pName card slot mode ih usrFunc
      (vector % 65536).toNat (event % 65536).toNat (debounce % 65536).toNat blk
    have hnone : avme470FindCard w.registry pName = none := by
      rw [findCard_none_iff]
      intro c hc hn
      have := (duplicate_iff pName card slot w.registry).mpr ⟨c, hc, Or.inl hn⟩
      rw [hdup] at this
      cases this
    refine ⟨_, hreg, hid.1, hid.2.1, hid.2.2, hnone, ?_⟩
    rw [hreg]
    exact findCard_append_last _ _ _ hnone hid.1

theorem avme470Create_appends_witness :
    (avme470Create okIpac (some dio1) dio1World "DIO2" 0 1 "STANDARD" "" none 0 0 0).1 = OK ∧
    (∃ c : config470,
      (avme470Create okIpac (some dio1) dio1World "DIO2" 0 1 "STANDARD" "" none 0 0 0).2.registry
        = dio1World.registry ++ [c] ∧
      c.pName = "DIO2" ∧ c.card = 0 ∧ c.slot = 1 ∧
      avme470FindCard dio1World.registry "DIO2" = none ∧
      avme470FindCard
        (avme470Create okIpac (some dio1) dio1World "DIO2" 0 1 "STANDARD" "" none 0 0
          0).2.registry "DIO2" = some c) :=
  ⟨by decide,
   (avme470Create_appends okIpac (some dio1) dio1World "DIO2" 0 1 "STANDARD" "" none 0 0 0
      [] "").1 (by decide)⟩

/-! ## Failing reads and writes -/

theorem write_cases (w : World) (name : String) (port bit flag value nobt d : Int) :
    (avme470Write w name port bit flag value nobt d).2 = w ∨
    (avme470Write w name port bit flag value nobt d).1 = OK := by
  unfold avme470Write
  simp only []
  cases avme470FindCard w.registry name <;> simp only [] <;> split_ifs <;> simp

theorem read_cases (w : World) (name : String) (port bit flag d : Int) :
    ((avme470Read w name port bit flag d).2.2 = w ∧
      (avme470Read w name port bit flag d).2.1 = none ∧
      (avme470Read w name port bit flag d).1 ≠ S_avme470_dataFlagError) ∨
    (avme470Read w name port bit flag d).1 = OK ∨
    (∃ c, avme470FindCard w.registry name = some c ∧
      (avme470Read w name port bit flag d).1 = S_avme470_dataFlagError ∧
      (avme470Read w name port bit flag d).2.1 = none ∧
      (avme470Read w name port bit flag d).2.2
        = { registry := w.registry, hw := (avme470SelectBank BANK0 c w.hw).2 }) := by
  have hs : S_avme470_portError ≠ S_avme470_dataFlagError ∧
      S_avme470_bitError ≠ S_avme470_dataFlagError ∧
      S_avme470_cardNotFound ≠ S_avme470_dataFlagError := by decide
  unfold avme470Read
  simp only []
  cases avme470FindCard w.registry name <;> simp only [] <;> split_ifs <;>
    simp [hs.1, hs.2.1, hs.2.2]

/-- C9 (as stated, refuted): with BANK1 selected, `avme470Read` with the
unknown granularity 7 returns `S_avme470_dataFlagError`, a non-OK status, yet
it has written the bank-select register (0x40 before, 0x0A after). -/
theorem avme470Read_dataFlagError_writes_bank :
    (avme470Read bank1World "DIO1" 0 0 7 0).1 = S_avme470_dataFlagError ∧
    (avme470Read bank1World "DIO1" 0 0 7 0).1 ≠ OK ∧
    writesOf bank1World.hw.log = [] ∧
    writesOf (avme470Read bank1World "DIO1" 0 0 7 0).2.2.hw.log
      = [(b_select dio1.brd_ptr 7, 0x0A)] ∧
    bank1World.hw.mem (b_select dio1.brd_ptr 7) = 0x40 ∧
    (avme470Read bank1World "DIO1" 0 0 7 0).2.2.hw.mem (b_select dio1.brd_ptr 7) = 0x0A := by
  decide

/-- C9 (amended): whenever `avme470Write` returns a non-OK status the state is
the state before the call: no register access was made and no configuration
field changed. Whenever `avme470Read` returns a non-OK status, `*pval` is not
written and no configuration field has changed; for every status other than
`S_avme470_dataFlagError` the state is the state before the call; for
`S_avme470_dataFlagError` the card was found, the store is the one
`avme470SelectBank(BANK0)` leaves, so every register other than the
bank-select register holds its value and at most one byte was written, to the
bank-select register. -/
theorem avme470_error_leaves_state (w : World) (name : String)
    (port bit flag value nobt d : Int) :
    ((avme470Write w name port bit flag value nobt d).1 ≠ OK →
      (avme470Write w name port bit flag value nobt d).2 = w) ∧
    ((avme470Read w name port bit flag d).1 ≠ OK →
      (avme470Read w name port bit flag d).2.1 = none ∧
      (avme470Read w name port bit flag d).2.2.registry = w.registry ∧
      ((avme470Read w name port bit flag d).1 ≠ S_avme470_dataFlagError →
        (avme470Read w name port bit flag d).2.2 = w) ∧
      ((avme470Read w name port bit flag d).1 = S_avme470_dataFlagError →
        ∃ c, avme470FindCard w.registry name = some c ∧
          (avme470Read w name port bit flag d).2.2.hw = (avme470SelectBank BANK0 c w.hw).2 ∧
          (∀ a, a ≠ b_select c.brd_ptr 7 →
            (avme470Read w name port bit flag d).2.2.hw.mem a = w.hw.mem a) ∧
          (writesOf (avme470Read w name port bit flag d).2.2.hw.log = writesOf w.hw.log ∨
            ∃ b, writesOf (avme470Read w name port bit flag d).2.2.hw.log
              = writesOf w.hw.log ++ [(b_select c.brd_ptr 7, b)]))) := by
  constructor
  · intro h
    rcases write_cases w name port bit flag value nobt d with h1 | h1
    · exact h1
    · exact absurd h1 h
  · intro h
    rcases read_cases w name port bit flag d with ⟨h1, h2, h3⟩ | h1 | ⟨c, hc, h1, h2, h3⟩
    · refine ⟨h2, by rw [h1], fun _ => h1, fun h4 => absurd h4 h3⟩
    · exact absurd h1 h
    · refine ⟨h2, by rw [h3], fun h4 => absurd h1 h4, fun _ => ⟨c, hc, by rw [h3], ?_, ?_⟩⟩
      · intro a ha
        rw [h3]
        exact selectBank_mem _ _ _ _ ha
      · rw [h3]
        by_cases hb : (w.hw.mem (b_select c.brd_ptr 7) % 256 &&& 0xC0) >>> 6 = BANK0
        · left
          simp only [selectBank_of_eq _ _ _ hb, avme470Input, writesOf_append, writesOf,
            List.append_nil]
        · right
          rw [selectBank_of_ne _ _ _ hb]
          simp only [avme470Input, avme470Output, writesOf_append, writesOf, List.append_nil]
          exact ⟨_, rfl⟩

theorem avme470_error_leaves_state_witness :
    (avme470Write bank1World "DIO1" 0 0 BIT 2 1 0).1 ≠ OK ∧
    (avme470Write bank1World "DIO1" 0 0 BIT 2 1 0).2 = bank1World ∧
    (avme470Read bank1World "DIO1" 0 8 BIT 0).1 ≠ OK ∧
    (avme470Read bank1World "DIO1" 0 8 BIT 0).2.2.registry = bank1World.registry :=
  ⟨by decide,
   (avme470_error_leaves_state bank1World "DIO1" 0 0 BIT 2 1 0).1 (by decide),
   by decide,
   ((avme470_error_leaves_state bank1World "DIO1" 0 8 BIT 2 1 0).2 (by decide)).2.1⟩

theorem write_status_eq (w : World) (name : String) (c : config470)
    (hfind : avme470FindCard w.registry name = some c) (port bit : Nat)
    (hp : port < MAXPORTS) (hb : bit < MAXBITS) (flag value nobt d : Int) :
    (avme470Write w name port bit flag value nobt d).1 =
      if flag = BIT then (if value < 0 ∨ value > 1 then S_avme470_writeError else OK)
      else if flag = PORT then
        (if value < 0 ∨ value > 0xFF then S_avme470_writeError else OK)
      else if flag = NIBBLE ∨ flag = WORD then
        (if flag = NIBBLE ∧ (value % 2 ^ longBits).toNat > 0xF then S_avme470_writeError
         else if flag = WORD ∧ (value % 2 ^ longBits).toNat > 0xFFFF then S_avme470_writeError
         else OK)
      else S_avme470_dataFlagError := by
  have h1 : ¬ ((port : Int) < 0 ∨ (port : Int) ≥ (MAXPORTS : Nat)) := by omega
  have h2 : ¬ ((bit : Int) < 0 ∨ (bit : Int) ≥ (MAXBITS : Nat)) := by omega
  simp only [avme470Write, h1, h2, hfind, if_false]
  split_ifs <;> rfl

/-- C10: for a registered card and in-range port and bit, `avme470Write` of a
`long` value returns `S_avme470_writeError` exactly when the granularity is
known and the value is out of its range (BIT: outside {0,1}; PORT: outside
[0,255]; NIBBLE: negative or above 0xF; WORD: negative or above 0xFFFF),
returns `S_avme470_dataFlagError` exactly when the granularity is none of BIT,
PORT, NIBBLE, WORD, and returns OK otherwise. -/
theorem avme470Write_status (w : World) (name : String) (c : config470)
    (hfind : avme470FindCard w.registry name = some c) (port bit : Nat)
    (hp : port < MAXPORTS) (hb : bit < MAXBITS) (flag value nobt d : Int)
    (hlong : -2 ^ 31 ≤ value ∧ value < 2 ^ 31) :
    ((avme470Write w name port bit flag value nobt d).1 = S_avme470_writeError ↔
      (flag = BIT ∧ (value < 0 ∨ 1 < value)) ∨
      (flag = PORT ∧ (value < 0 ∨ 0xFF < value)) ∨
      (flag = NIBBLE ∧ (value < 0 ∨ 0xF < value)) ∨
      (flag = WORD ∧ (value < 0 ∨ 0xFFFF < value))) ∧
    ((avme470Write w name port bit flag value nobt d).1 = S_avme470_dataFlagError ↔
      flag ≠ BIT ∧ flag ≠ PORT ∧ flag ≠ NIBBLE ∧ flag ≠ WORD) ∧
    ((avme470Write w name port bit flag value nobt d).1 ≠ S_avme470_writeError →
      (avme470Write w name port bit flag value nobt d).1 ≠ S_avme470_dataFlagError →
      (avme470Write w name port bit flag value nobt d).1 = OK) := by
  have hs : S_avme470_writeError ≠ OK ∧ S_avme470_dataFlagError ≠ OK ∧
      S_avme470_writeError ≠ S_avme470_dataFlagError := by decide
  obtain ⟨hs1, hs2, hs3⟩ := hs
  have hu15 : (value % 2 ^ longBits).toNat > 0xF ↔ (value < 0 ∨ 0xF < value) := by
    simp only [longBits]
    omega
  have hu16 : (value % 2 ^ longBits).toNat > 0xFFFF ↔ (value < 0 ∨ 0xFFFF < value) := by
    simp only [longBits]
    omega
  rw [write_status_eq w name c hfind port bit hp hb flag value nobt d]
  simp only [hu15, hu16]
  have hBP : BIT ≠ PORT := by decide
  have hBN : BIT ≠ NIBBLE := by decide
  have hBW : BIT ≠ WORD := by decide
  have hPN : PORT ≠ NIBBLE := by decide
  have hPW : PORT ≠ WORD := by decide
  have hNW : NIBBLE ≠ WORD := by decide
  by_cases fB : flag = BIT
  · subst fB
    by_cases hv : value < 0 ∨ 1 < value
    · simp [hv, hBP, hBN, hBW, hs3]
    · simp [hv, hBP, hBN, hBW, hs1.symm, hs2.symm]
  · by_cases fP : flag = PORT
    · subst fP
      by_cases hv : value < 0 ∨ 0xFF < value
      · simp [hv, hBP.symm, hPN, hPW, hs3]
      · simp [hv, hBP.symm, hPN, hPW, hs1.symm, hs2.symm]
    · by_cases fN : flag = NIBBLE
      · subst fN
        by_cases hv : value < 0 ∨ 0xF < value
        · simp [hv, hBN.symm, hPN.symm, hNW, hs3]
        · simp [hv, hBN.symm, hPN.symm, hNW, hs1.symm, hs2.symm]
      · by_cases fW : flag = WORD
        · subst fW
          by_cases hv : value < 0 ∨ 0xFFFF < value
          · simp [hv, hBW.symm, hPW.symm, hNW.symm, hs3]
          · simp [hv, hBW.symm, hPW.symm, hNW.symm, hs1.symm, hs2.symm]
        · simp [fB, fP, fN, fW, hs3.symm, hs2]

theorem avme470Write_status_witness :
    avme470FindCard dio1World.registry "DIO1" = some dio1 ∧
    ((avme470Write dio1World "DIO1" 3 7 NIBBLE (-1) 4 0).1 = S_avme470_writeError ↔
      (NIBBLE = BIT ∧ ((-1 : Int) < 0 ∨ 1 < (-1 : Int))) ∨
      (NIBBLE = PORT ∧ ((-1 : Int) < 0 ∨ 0xFF < (-1 : Int))) ∨
      (NIBBLE = NIBBLE ∧ ((-1 : Int) < 0 ∨ 0xF < (-1 : Int))) ∨
      (NIBBLE = WORD ∧ ((-1 : Int) < 0 ∨ 0xFFFF < (-1 : Int)))) :=
  ⟨by decide,
   (avme470Write_status dio1World "DIO1" dio1 (by decide) 3 7 (by decide) (by decide)
      NIBBLE (-1) 4 0 (by decide)).1⟩

/-! ## Argument validation of `avme470Create` -/

/-- C11: `avme470Create` with mode name ENHANCED returns
`S_avme470_intHandlerError` unless the handler name is COS or LEVEL, otherwise
`S_avme470_vectorInvalid` unless 0 <= vector <= 0xFF, otherwise
`S_avme470_eventRegInvalid` unless 0 <= event <= 0xFFF, otherwise
`S_avme470_debounceRegInvalid` unless 0 <= debounce <= 0xFF; with all four in
order none of these statuses is returned. A mode name other than STANDARD or
ENHANCED returns `S_avme470_modeError`. In each of these failing cases the
state after the call is the state before it: the registry is unchanged and no
register access was made. -/
theorem avme470Create_argument_errors (ipac : Ipac) (malloc : Option config470) (w : World)
    (pName : String) (card slot : Nat) (modeName intHandlerName : String)
    (usrFunc : Option String) (vector event debounce : Int) :
    (modeName = "ENHANCED" →
      ((intHandlerName ≠ "COS" ∧ intHandlerName ≠ "LEVEL") →
        avme470Create ipac malloc w pName card slot modeName intHandlerName usrFunc vector
          event debounce = (S_avme470_intHandlerError, w)) ∧
      ((intHandlerName = "COS" ∨ intHandlerName = "LEVEL") →
        ((vector < 0 ∨ 0xFF < vector) →
          avme470Create ipac malloc w pName card slot modeName intHandlerName usrFunc vector
            event debounce = (S_avme470_vectorInvalid, w)) ∧
        ((0 ≤ vector ∧ vector ≤ 0xFF) →
          ((event < 0 ∨ 0xFFF < event) →
            avme470Create ipac malloc w pName card slot modeName intHandlerName usrFunc
              vector event debounce = (S_avme470_eventRegInvalid, w)) ∧
          ((0 ≤ event ∧ event ≤ 0xFFF) →
            ((debounce < 0 ∨ 0xFF < debounce) →
              avme470Create ipac malloc w pName card slot modeName intHandlerName usrFunc
                vector event debounce = (S_avme470_debounceRegInvalid, w)) ∧
            ((0 ≤ debounce ∧ debounce ≤ 0xFF) →
              ∃ intHandler,
                avme470CreateMode modeName intHandlerName vector event debounce
                  = Except.ok (ENHANCED, intHandler)))))) ∧
    ((modeName ≠ "STANDARD" ∧ modeName ≠ "ENHANCED") →
      avme470Create ipac malloc w pName card slot modeName intHandlerName usrFunc vector
        event debounce = (S_avme470_modeError, w)) := by
  constructor
  · intro hm
    subst hm
    have hns : ¬ ("ENHANCED" = "STANDARD") := by decide
    refine ⟨?_, ?_⟩
    · intro hh
      simp only [avme470Create, avme470CreateMode, hns, hh, if_false, if_true, ne_eq,
        not_false_eq_true, and_self]
    · intro hh
      have hh2 : ¬ (intHandlerName ≠ "COS" ∧ intHandlerName ≠ "LEVEL") := by
        rintro ⟨h1, h2⟩
        rcases hh with h | h
        · exact h1 h
        · exact h2 h
      refine ⟨?_, ?_⟩
      · intro hv
        simp only [avme470Create, avme470CreateMode, hns, hh2, hv, if_false, if_true]
      · intro hv
        have hv2 : ¬ (vector < 0 ∨ 0xFF < vector) := by omega
        refine ⟨?_, ?_⟩
        · intro he
          simp only [avme470Create, avme470CreateMode, hns, hh2, hv2, he, if_false, if_true]
        · intro he
          have he2 : ¬ (event < 0 ∨ 0xFFF < event) := by omega
          refine ⟨?_, ?_⟩
          · intro hd
            simp only [avme470Create, avme470CreateMode, hns, hh2, hv2, he2, hd, if_false,
              if_true]
          · intro hd
            have hd2 : ¬ (debounce < 0 ∨ 0xFF < debounce) := by omega
            refine ⟨if intHandlerName = "COS" then COS else LEVEL, ?_⟩
            simp only [avme470CreateMode, hns, hh2, hv2, he2, hd2, if_false, if_true]
  · rintro ⟨h1, h2⟩
    simp only [avme470Create, avme470CreateMode, h1, h2, if_false]

theorem avme470Create_argument_errors_witness :
    avme470Create okIpac (some dio1) dio1World "DIO2" 0 1 "ENHANCED" "COS" none 0x60 0x1000 0
      = (S_avme470_eventRegInvalid, dio1World) :=
  ((((avme470Create_argument_errors okIpac (some dio1) dio1World "DIO2" 0 1 "ENHANCED" "COS"
      none 0x60 0x1000 0).1 rfl).2 (Or.inl rfl)).2 (by decide)).1 (by decide)

/-! ## Initialisation -/

theorem initScan_fields (f : Nat → Nat) (n : Nat) (d : config470) :
    (avme470InitScan f n d).e_mode = d.e_mode ∧ (avme470InitScan f n d).card = d.card ∧
    (avme470InitScan f n d).slot = d.slot ∧ (avme470InitScan f n d).vector = d.vector ∧
    (avme470InitScan f n d).isr = d.isr ∧ (avme470InitScan f n d).pName = d.pName :=
  ⟨rfl, rfl, rfl, rfl, rfl, rfl⟩

/-- Over a stretch of cards whose interrupt attach succeeds the loop of
`avme470Initialise` makes the attach and enable calls of each ENHANCED card and
goes on with the rest of the list. -/
theorem initialiseLoop_prefix (env : InitEnv) (rest : List config470) :
    ∀ (pre : List config470) (n : Nat) (calls : List CarrierCall),
      (∀ d ∈ pre, d.e_mode = ENHANCED → env.ipmIntConnect d.card d.slot d.vector = 0) →
      ∃ m, (avme470InitialiseLoop env n (pre ++ rest) calls).1 =
          (avme470InitialiseLoop env m rest (calls ++ pre.flatMap avme470AttachCalls)).1 ∧
        (avme470InitialiseLoop env n (pre ++ rest) calls).2.2 =
          (avme470InitialiseLoop env m rest (calls ++ pre.flatMap avme470AttachCalls)).2.2 := by
  intro pre
  induction pre with
  | nil => intro n calls _; exact ⟨n, by simp, by simp⟩
  | cons d pre ih =>
    intro n calls h
    have hd := h d (List.mem_cons_self _ _)
    have hpre : ∀ e ∈ pre, e.e_mode = ENHANCED → env.ipmIntConnect e.card e.slot e.vector = 0 :=
      fun e he => h e (List.mem_cons_of_mem _ he)
    by_cases hm : d.e_mode = ENHANCED
    · obtain ⟨m, h1, h2⟩ := ih (n + 3 * (MAXPORTS * MAXBITS))
        (calls ++ avme470AttachCalls d) hpre
      refine ⟨m, ?_, ?_⟩
      · rw [List.cons_append, avme470InitialiseLoop]
        simp only [initScan_fields, hm, hd hm, if_true, ne_eq, not_true_eq_false, if_false]
        simp only [avme470AttachCalls, hm, if_true, List.flatMap_cons, List.append_assoc,
          List.cons_append, List.nil_append] at h1 ⊢
        exact h1
      · rw [List.cons_append, avme470InitialiseLoop]
        simp only [initScan_fields, hm, hd hm, if_true, ne_eq, not_true_eq_false, if_false]
        simp only [avme470AttachCalls, hm, if_true, List.flatMap_cons, List.append_assoc,
          List.cons_append, List.nil_append] at h2 ⊢
        exact h2
    · obtain ⟨m, h1, h2⟩ := ih (n + 3 * (MAXPORTS * MAXBITS)) calls hpre
      refine ⟨m, ?_, ?_⟩
      · rw [List.cons_append, avme470InitialiseLoop]
        simp only [initScan_fields, hm, if_false]
        simp only [avme470AttachCalls, hm, if_false, List.flatMap_cons, List.nil_append] at h1 ⊢
        exact h1
      · rw [List.cons_append, avme470InitialiseLoop]
        simp only [initScan_fields, hm, if_false]
        simp only [avme470AttachCalls, hm, if_false, List.flatMap_cons, List.nil_append] at h2 ⊢
        exact h2

/-- C21 (as amended): `avme470Initialise` stops at the first ENHANCED card whose
interrupt attach fails. It returns `S_avme470_intConnectError`; every ENHANCED
card before that card has its ISR attached to its vector and its carrier
interrupt enabled; and the carrier calls it has made are exactly the attach and
enable calls of those cards followed by the failed attach, so no call is made
for any card after the failing one. -/
theorem avme470Initialise_stops_at_failed_attach (env : InitEnv)
    (pre post : List config470) (c : config470)
    (hpre : ∀ d ∈ pre, d.e_mode = ENHANCED → env.ipmIntConnect d.card d.slot d.vector = 0)
    (hc : c.e_mode = ENHANCED) (hfail : env.ipmIntConnect c.card c.slot c.vector ≠ 0) :
    (avme470Initialise env (pre ++ c :: post)).1 = S_avme470_intConnectError ∧
      (∀ d ∈ pre, d.e_mode = ENHANCED →
        IsrAttached (avme470Initialise env (pre ++ c :: post)).2.2 d ∧
        IrqEnabled (avme470Initialise env (pre ++ c :: post)).2.2 d) ∧
      (avme470Initialise env (pre ++ c :: post)).2.2 =
        pre.flatMap avme470AttachCalls ++
          [CarrierCall.ipmIntConnect c.card c.slot c.vector c.isr c.pName
            (env.ipmIntConnect c.card c.slot c.vector)] := by
  obtain ⟨m, h1, h2⟩ := initialiseLoop_prefix env (c :: post) pre 0 [] hpre
  have e1 : (avme470InitialiseLoop env m (c :: post) ([] ++ pre.flatMap avme470AttachCalls)).1
      = S_avme470_intConnectError := by
    rw [avme470InitialiseLoop]
    simp only [initScan_fields, hc, if_true, ne_eq, hfail, not_false_eq_true]
  have e2 : (avme470InitialiseLoop env m (c :: post) ([] ++ pre.flatMap avme470AttachCalls)).2.2
      = pre.flatMap avme470AttachCalls ++
          [CarrierCall.ipmIntConnect c.card c.slot c.vector c.isr c.pName
            (env.ipmIntConnect c.card c.slot c.vector)] := by
    rw [avme470InitialiseLoop]
    simp only [initScan_fields, hc, if_true, ne_eq, hfail, not_false_eq_true, List.nil_append]
  have hcalls : (avme470Initialise env (pre ++ c :: post)).2.2 =
      pre.flatMap avme470AttachCalls ++
        [CarrierCall.ipmIntConnect c.card c.slot c.vector c.isr c.pName
          (env.ipmIntConnect c.card c.slot c.vector)] := by
    unfold avme470Initialise; rw [h2, e2]
  refine ⟨by unfold avme470Initialise; rw [h1, e1], ?_, hcalls⟩
  intro d hd hm
  have hin : ∀ x ∈ avme470AttachCalls d,
      x ∈ (avme470Initialise env (pre ++ c :: post)).2.2 := by
    intro x hx
    rw [hcalls]
    exact List.mem_append_left _ (List.mem_flatMap.mpr ⟨d, hd, hx⟩)
  constructor
  · apply hin; simp [avme470AttachCalls, hm]
  · apply hin; simp [avme470AttachCalls, hm]

/-- C21 at the registry "DIO2", "DIO1" on a carrier where the attach fails in
slot 0: "DIO2" is attached and enabled, the call fails at "DIO1". -/
theorem avme470Initialise_stops_at_failed_attach_witness :
    (avme470Initialise slot0FailsEnv ([dio2] ++ dio1 :: [])).1 = S_avme470_intConnectError ∧
      (∀ d ∈ [dio2], d.e_mode = ENHANCED →
        IsrAttached (avme470Initialise slot0FailsEnv ([dio2] ++ dio1 :: [])).2.2 d ∧
        IrqEnabled (avme470Initialise slot0FailsEnv ([dio2] ++ dio1 :: [])).2.2 d) :=
  ⟨(avme470Initialise_stops_at_failed_attach slot0FailsEnv [dio2] [] dio1
      (by decide) (by decide) (by decide)).1,
    (avme470Initialise_stops_at_failed_attach slot0FailsEnv [dio2] [] dio1
      (by decide) (by decide) (by decide)).2.1⟩

/-- C21 as stated fails: in the registry "DIO1", "DIO2", both ENHANCED, the
attach fails for "DIO1" only, and "DIO2", the other ENHANCED card, is neither
attached nor enabled: the only carrier call made is the failed attach. -/
theorem avme470Initialise_skips_cards_after_failure :
    dio1.e_mode = ENHANCED ∧ dio2.e_mode = ENHANCED ∧
      slot0FailsEnv.ipmIntConnect dio1.card dio1.slot dio1.vector ≠ 0 ∧
      slot0FailsEnv.ipmIntConnect dio2.card dio2.slot dio2.vector = 0 ∧
      (avme470Initialise slot0FailsEnv [dio1, dio2]).1 = S_avme470_intConnectError ∧
      (avme470Initialise slot0FailsEnv [dio1, dio2]).2.2 =
        [CarrierCall.ipmIntConnect 0 0 0x60 Isr.avme470COS "DIO1" (-1)] ∧
      ¬ IsrAttached (avme470Initialise slot0FailsEnv [dio1, dio2]).2.2 dio2 ∧
      ¬ IrqEnabled (avme470Initialise slot0FailsEnv [dio1, dio2]).2.2 dio2 := by
  decide

/-! ## Interrupt service routines -/

theorem foldl_range_inv {σ : Type} (f : σ → Nat → σ) (P : Nat → σ → Prop) (n : Nat) (s : σ)
    (h0 : P 0 s) (hstep : ∀ k t, k < n → P k t → P (k + 1) (f t k)) :
    P n ((List.range n).foldl f s) := by
  induction n with
  | zero => simpa using h0
  | succ n ih =>
    rw [List.range_succ, List.foldl_append]
    exact hstep n _ (Nat.lt_succ_self n) (ih (fun k t hk => hstep k t (Nat.lt_succ_of_lt hk)))

theorem bitMask_byte (j : Nat) (hj : j < 8) : (1 <<< j) % 256 = 2 ^ j := by
  interval_cases j <;> decide

theorem clearMask_byte (j : Nat) (hj : j < 8) : ulongNot (2 ^ j) % 256 = 255 - 2 ^ j := by
  interval_cases j <;> decide

theorem clearMask_testBit : ∀ k < 8, ∀ j < 8, j ≠ k → (255 - 2 ^ j).testBit k = true := by
  decide

theorem mask_and_ne_zero (x j : Nat) : 2 ^ j &&& x ≠ 0 ↔ x.testBit j = true := by
  rw [Nat.land_comm]; exact and_two_pow_ne_zero x j

/-- One pass of the bit loop of `avme470COS`: the card's address is kept, only
the port's register can change, and the accesses are the sense read followed,
when the bit reads as set, by the write of the clear mask. -/
theorem cosBitStep_effect (i : Nat) (st : IsrState) (j : Nat) (hj : j < 8) :
    (avme470COSBitStep i st j).plist.brd_ptr = st.plist.brd_ptr ∧
    (∀ a, a ≠ b_select st.plist.brd_ptr i →
      (avme470COSBitStep i st j).hw.mem a = st.hw.mem a) ∧
    (portBit st.hw st.plist.brd_ptr i j = true →
      (avme470COSBitStep i st j).hw.mem (b_select st.plist.brd_ptr i) = 255 - 2 ^ j ∧
      (avme470COSBitStep i st j).hw.log = st.hw.log ++
        [Access.rd (b_select st.plist.brd_ptr i) (st.hw.mem (b_select st.plist.brd_ptr i) % 256),
         Access.wr (b_select st.plist.brd_ptr i) (255 - 2 ^ j)]) ∧
    (portBit st.hw st.plist.brd_ptr i j = false →
      (avme470COSBitStep i st j).hw.mem = st.hw.mem ∧
      (avme470COSBitStep i st j).hw.log = st.hw.log ++
        [Access.rd (b_select st.plist.brd_ptr i)
          (st.hw.mem (b_select st.plist.brd_ptr i) % 256)]) := by
  unfold avme470COSBitStep portBit
  simp only [avme470Input, bitMask_byte j hj]
  by_cases h : (st.hw.mem (b_select st.plist.brd_ptr i) % 256).testBit j = true
  · rw [if_pos ((mask_and_ne_zero _ _).mpr h)]
    refine ⟨rfl, ?_, ?_, ?_⟩
    · intro a ha
      simp [avme470COSBit, avme470Output, ha]
    · intro _
      simp [avme470COSBit, avme470Output, clearMask_byte j hj]
    · intro hf; rw [h] at hf; exact absurd hf (by decide)
  · rw [if_neg (fun hc => h ((mask_and_ne_zero _ _).mp hc))]
    refine ⟨rfl, fun a _ => rfl, ?_, fun _ => ⟨rfl, rfl⟩⟩
    intro ht; exact absurd ht h

/-- The bit loop of `avme470COS` on port `i`: every bit that reads as set when
the loop is entered has its clear mask written. -/
theorem cosBits_effect (i : Nat) (t0 : IsrState) :
    ((List.range 8).foldl (avme470COSBitStep i) t0).plist.brd_ptr = t0.plist.brd_ptr ∧
    (∀ a, a ≠ b_select t0.plist.brd_ptr i →
      ((List.range 8).foldl (avme470COSBitStep i) t0).hw.mem a = t0.hw.mem a) ∧
    ∃ ext, ((List.range 8).foldl (avme470COSBitStep i) t0).hw.log = t0.hw.log ++ ext ∧
      (∀ x ∈ ext, accessAddr x = b_select t0.plist.brd_ptr i) ∧
      (∀ j < 8, portBit t0.hw t0.plist.brd_ptr i j = true →
        Access.wr (b_select t0.plist.brd_ptr i) (255 - 2 ^ j) ∈ ext) := by
  have key := foldl_range_inv (avme470COSBitStep i)
    (fun k t =>
      t.plist.brd_ptr = t0.plist.brd_ptr ∧
      (∀ a, a ≠ b_select t0.plist.brd_ptr i → t.hw.mem a = t0.hw.mem a) ∧
      (t.hw.mem (b_select t0.plist.brd_ptr i) % 256 = t0.hw.mem (b_select t0.plist.brd_ptr i) % 256
        ∨ ∃ j, j < k ∧ t.hw.mem (b_select t0.plist.brd_ptr i) = 255 - 2 ^ j) ∧
      ∃ ext, t.hw.log = t0.hw.log ++ ext ∧
        (∀ x ∈ ext, accessAddr x = b_select t0.plist.brd_ptr i) ∧
        (∀ j < k, portBit t0.hw t0.plist.brd_ptr i j = true →
          Access.wr (b_select t0.plist.brd_ptr i) (255 - 2 ^ j) ∈ ext))
    8 t0
    ⟨rfl, fun _ _ => rfl, Or.inl rfl, [], by simp, by simp, by simp⟩
    (by
      intro k t hk ⟨hbp, hfr, hcur, ext, hlog, haddr, hwr⟩
      obtain ⟨e1, e2, e3, e4⟩ := cosBitStep_effect i t k hk
      rw [hbp] at e1 e2 e3 e4
      have hpend : portBit t0.hw t0.plist.brd_ptr i k = true →
          portBit t.hw t0.plist.brd_ptr i k = true := by
        intro h0
        unfold portBit at h0 ⊢
        rcases hcur with hc | ⟨j, hjk, hc⟩
        · rw [hc]; exact h0
        · rw [hc]
          have hlt : 255 - 2 ^ j < 256 := Nat.lt_of_le_of_lt (Nat.sub_le _ _) (by norm_num)
          rw [Nat.mod_eq_of_lt hlt]
          exact clearMask_testBit k hk j (by omega) (by omega)
      by_cases hp : portBit t.hw t0.plist.brd_ptr i k = true
      · obtain ⟨m1, l1⟩ := e3 hp
        refine ⟨e1, fun a ha => (e2 a ha).trans (hfr a ha), Or.inr ⟨k, Nat.lt_succ_self k, m1⟩,
          ext ++ [Access.rd (b_select t0.plist.brd_ptr i)
              (t.hw.mem (b_select t0.plist.brd_ptr i) % 256),
            Access.wr (b_select t0.plist.brd_ptr i) (255 - 2 ^ k)], ?_, ?_, ?_⟩
        · rw [l1, hlog, List.append_assoc]
        · intro x hx
          rcases List.mem_append.mp hx with h | h
          · exact haddr x h
          · simp only [List.mem_cons, List.mem_singleton, List.not_mem_nil, or_false] at h
            rcases h with h | h <;> rw [h] <;> rfl
        · intro j hj hb
          rcases Nat.lt_succ_iff_lt_or_eq.mp hj with h | h
          · exact List.mem_append_left _ (hwr j h hb)
          · subst h
            exact List.mem_append_right _ (by simp)
      · have hp' : portBit t.hw t0.plist.brd_ptr i k = false := by
          cases h : portBit t.hw t0.plist.brd_ptr i k
          · rfl
          · exact absurd h hp
        obtain ⟨m1, l1⟩ := e4 hp'
        refine ⟨e1, fun a ha => (e2 a ha).trans (hfr a ha), ?_,
          ext ++ [Access.rd (b_select t0.plist.brd_ptr i)
              (t.hw.mem (b_select t0.plist.brd_ptr i) % 256)], ?_, ?_, ?_⟩
        · rw [m1]
          rcases hcur with hc | ⟨j, hjk, hc⟩
          · exact Or.inl hc
          · exact Or.inr ⟨j, Nat.lt_succ_of_lt hjk, hc⟩
        · rw [l1, hlog, List.append_assoc]
        · intro x hx
          rcases List.mem_append.mp hx with h | h
          · exact haddr x h
          · simp only [List.mem_singleton] at h
            rw [h]; rfl
        · intro j hj hb
          rcases Nat.lt_succ_iff_lt_or_eq.mp hj with h | h
          · exact List.mem_append_left _ (hwr j h hb)
          · subst h
            exact absurd (hpend hb) hp)
  obtain ⟨h1, h2, _, ext, h4, h5, h6⟩ := key
  exact ⟨h1, h2, ext, h4, h5, h6⟩

/-- One pass of the port loop of `avme470COS`: after the status read, a port
whose status bit is clear is not accessed, and a port whose status bit is set
has the clear mask of every bit written that reads as set when the pass
begins; only the port's own register can change. -/
theorem cosPortStep_effect (st : IsrState) (i : Nat) (hi : i < 8) :
    (avme470COSPortStep st i).plist.brd_ptr = st.plist.brd_ptr ∧
    (∀ a, a ≠ b_select st.plist.brd_ptr i →
      (avme470COSPortStep st i).hw.mem a = st.hw.mem a) ∧
    ∃ ext, (avme470COSPortStep st i).hw.log = st.hw.log ++
        Access.rd (b_select st.plist.brd_ptr 6) (st.hw.mem (b_select st.plist.brd_ptr 6) % 256)
          :: ext ∧
      (∀ x ∈ ext, accessAddr x = b_select st.plist.brd_ptr i) ∧
      (portBit st.hw st.plist.brd_ptr 6 i = false → ext = []) ∧
      (portBit st.hw st.plist.brd_ptr 6 i = true → ∀ j < 8,
        portBit st.hw st.plist.brd_ptr i j = true →
        Access.wr (b_select st.plist.brd_ptr i) (255 - 2 ^ j) ∈ ext) := by
  unfold avme470COSPortStep
  simp only [avme470Input, bitMask_byte i hi]
  by_cases h : (st.hw.mem (b_select st.plist.brd_ptr 6) % 256).testBit i = true
  · rw [if_pos ((mask_and_ne_zero _ _).mpr h)]
    obtain ⟨p1, p2, ext, p3, p4, p5⟩ := cosBits_effect i
      { st with hw := { mem := st.hw.mem, log := st.hw.log ++
          [Access.rd (b_select st.plist.brd_ptr 6)
            (st.hw.mem (b_select st.plist.brd_ptr 6) % 256)] } }
    simp only [MAXBITS]
    refine ⟨p1, ?_, ext ++ [Access.wr (b_select st.plist.brd_ptr i) 255], ?_, ?_, ?_, ?_⟩
    · intro a ha
      simp only [avme470Output, p1]
      rw [if_neg ha]
      exact p2 a ha
    · simp only [avme470Output, p1, p3]
      simp
    · intro x hx
      rcases List.mem_append.mp hx with hx | hx
      · exact p4 x hx
      · simp only [List.mem_singleton] at hx
        rw [hx]; rfl
    · intro hf
      unfold portBit at hf
      rw [h] at hf
      exact absurd hf (by decide)
    · intro _ j hj hb
      exact List.mem_append_left _ (p5 j hj hb)
  · rw [if_neg (fun hc => h ((mask_and_ne_zero _ _).mp hc))]
    refine ⟨rfl, fun a _ => rfl, [], rfl, by simp, fun _ => rfl, ?_⟩
    intro ht
    exact absurd ht h

/-- The port loop of `avme470COS`, entered in the state `s0`. Every access is
the status read or goes to the register of a port whose status bit is set;
for such a port the clear mask of every bit that reads as set on entry is
written; registers other than those of the six ports keep their content. -/
theorem cosPorts_effect (s0 : IsrState) :
    ((List.range 6).foldl avme470COSPortStep s0).plist.brd_ptr = s0.plist.brd_ptr ∧
    (∀ a, (∀ q < 6, a ≠ b_select s0.plist.brd_ptr q) →
      ((List.range 6).foldl avme470COSPortStep s0).hw.mem a = s0.hw.mem a) ∧
    ∃ ext, ((List.range 6).foldl avme470COSPortStep s0).hw.log = s0.hw.log ++ ext ∧
      (∀ x ∈ ext,
        x = Access.rd (b_select s0.plist.brd_ptr 6)
              (s0.hw.mem (b_select s0.plist.brd_ptr 6) % 256) ∨
        ∃ q < 6, portBit s0.hw s0.plist.brd_ptr 6 q = true ∧
          accessAddr x = b_select s0.plist.brd_ptr q) ∧
      (∀ q < 6, ∀ j < 8, portBit s0.hw s0.plist.brd_ptr 6 q = true →
        portBit s0.hw s0.plist.brd_ptr q j = true →
        Access.wr (b_select s0.plist.brd_ptr q) (255 - 2 ^ j) ∈ ext) := by
  have key := foldl_range_inv avme470COSPortStep
    (fun k s =>
      s.plist.brd_ptr = s0.plist.brd_ptr ∧
      (∀ a, (∀ q < k, a ≠ b_select s0.plist.brd_ptr q) → s.hw.mem a = s0.hw.mem a) ∧
      ∃ ext, s.hw.log = s0.hw.log ++ ext ∧
        (∀ x ∈ ext,
          x = Access.rd (b_select s0.plist.brd_ptr 6)
                (s0.hw.mem (b_select s0.plist.brd_ptr 6) % 256) ∨
          ∃ q < k, portBit s0.hw s0.plist.brd_ptr 6 q = true ∧
            accessAddr x = b_select s0.plist.brd_ptr q) ∧
        (∀ q < k, ∀ j < 8, portBit s0.hw s0.plist.brd_ptr 6 q = true →
          portBit s0.hw s0.plist.brd_ptr q j = true →
          Access.wr (b_select s0.plist.brd_ptr q) (255 - 2 ^ j) ∈ ext))
    6 s0
    ⟨rfl, fun _ _ => rfl, [], by simp, by simp, by simp⟩
    (by
      intro k s hk ⟨hbp, hfr, ext, hlog, hcls, hwr⟩
      obtain ⟨e1, e2, ext1, e3, e4, e5, e6⟩ := cosPortStep_effect s k (by omega)
      rw [hbp] at e1 e2 e3 e4 e5 e6
      have h6 : s.hw.mem (b_select s0.plist.brd_ptr 6) = s0.hw.mem (b_select s0.plist.brd_ptr 6) :=
        hfr _ (fun q hq hc => by rw [b_select_inj] at hc; omega)
      have hkk : s.hw.mem (b_select s0.plist.brd_ptr k) = s0.hw.mem (b_select s0.plist.brd_ptr k) :=
        hfr _ (fun q hq hc => by rw [b_select_inj] at hc; omega)
      have hp6 : ∀ q, portBit s.hw s0.plist.brd_ptr 6 q = portBit s0.hw s0.plist.brd_ptr 6 q := by
        intro q; unfold portBit; rw [h6]
      have hpk : ∀ j, portBit s.hw s0.plist.brd_ptr k j = portBit s0.hw s0.plist.brd_ptr k j := by
        intro j; unfold portBit; rw [hkk]
      rw [h6] at e3
      rw [hp6] at e5 e6
      refine ⟨e1, ?_, ext ++ Access.rd (b_select s0.plist.brd_ptr 6)
          (s0.hw.mem (b_select s0.plist.brd_ptr 6) % 256) :: ext1, ?_, ?_, ?_⟩
      · intro a ha
        rw [e2 a (ha k (Nat.lt_succ_self k))]
        exact hfr a (fun q hq => ha q (Nat.lt_succ_of_lt hq))
      · rw [e3, hlog, List.append_assoc]
      · intro x hx
        rcases List.mem_append.mp hx with hx | hx
        · rcases hcls x hx with h | ⟨q, hq, hb, ha⟩
          · exact Or.inl h
          · exact Or.inr ⟨q, Nat.lt_succ_of_lt hq, hb, ha⟩
        · rcases List.mem_cons.mp hx with hx | hx
          · exact Or.inl hx
          · refine Or.inr ⟨k, Nat.lt_succ_self k, ?_, e4 x hx⟩
            cases hb : portBit s0.hw s0.plist.brd_ptr 6 k
            · rw [e5 hb] at hx
              exact absurd hx (List.not_mem_nil _)
            · rfl
      · intro q hq j hj hb6 hb
        rcases Nat.lt_succ_iff_lt_or_eq.mp hq with h | h
        · exact List.mem_append_left _ (hwr q h j hj hb6 hb)
        · subst h
          refine List.mem_append_right _ (List.mem_cons_of_mem _ (e6 hb6 j hj ?_))
          rw [hpk]; exact hb)
  exact key

/-- One pass of the bit loop of `avme470LEVEL`. -/
theorem levelBitStep_effect (i i_pend : Nat) (st : IsrState) (j : Nat) (hj : j < 8) :
    (avme470LEVELBitStep i i_pend st j).plist.brd_ptr = st.plist.brd_ptr ∧
    (∀ a, a ≠ b_select st.plist.brd_ptr i →
      (avme470LEVELBitStep i i_pend st j).hw.mem a = st.hw.mem a) ∧
    (i_pend.testBit j = true →
      (avme470LEVELBitStep i i_pend st j).hw.log = st.hw.log ++
        [Access.wr (b_select st.plist.brd_ptr i) (255 - 2 ^ j)]) ∧
    (i_pend.testBit j = false → (avme470LEVELBitStep i i_pend st j).hw.log = st.hw.log) := by
  unfold avme470LEVELBitStep
  simp only [bitMask_byte j hj]
  by_cases h : i_pend.testBit j = true
  · rw [if_pos ((mask_and_ne_zero _ _).mpr h)]
    refine ⟨rfl, ?_, ?_, ?_⟩
    · intro a ha
      simp [avme470LEVELBit, avme470Output, ha]
    · intro _
      simp [avme470LEVELBit, avme470Output, clearMask_byte j hj]
    · intro hf; rw [h] at hf; exact absurd hf (by decide)
  · rw [if_neg (fun hc => h ((mask_and_ne_zero _ _).mp hc))]
    exact ⟨rfl, fun a _ => rfl, fun ht => absurd ht h, fun _ => rfl⟩

/-- The bit loop of `avme470LEVEL` on port `i`: every bit set in the sense
value `i_pend` has its clear mask written. -/
theorem levelBits_effect (i i_pend : Nat) (t0 : IsrState) :
    ((List.range 8).foldl (avme470LEVELBitStep i i_pend) t0).plist.brd_ptr
      = t0.plist.brd_ptr ∧
    (∀ a, a ≠ b_select t0.plist.brd_ptr i →
      ((List.range 8).foldl (avme470LEVELBitStep i i_pend) t0).hw.mem a = t0.hw.mem a) ∧
    ∃ ext, ((List.range 8).foldl (avme470LEVELBitStep i i_pend) t0).hw.log
        = t0.hw.log ++ ext ∧
      (∀ x ∈ ext, accessAddr x = b_select t0.plist.brd_ptr i) ∧
      (∀ j < 8, i_pend.testBit j = true →
        Access.wr (b_select t0.plist.brd_ptr i) (255 - 2 ^ j) ∈ ext) := by
  have key := foldl_range_inv (avme470LEVELBitStep i i_pend)
    (fun k t =>
      t.plist.brd_ptr = t0.plist.brd_ptr ∧
      (∀ a, a ≠ b_select t0.plist.brd_ptr i → t.hw.mem a = t0.hw.mem a) ∧
      ∃ ext, t.hw.log = t0.hw.log ++ ext ∧
        (∀ x ∈ ext, accessAddr x = b_select t0.plist.brd_ptr i) ∧
        (∀ j < k, i_pend.testBit j = true →
          Access.wr (b_select t0.plist.brd_ptr i) (255 - 2 ^ j) ∈ ext))
    8 t0
    ⟨rfl, fun _ _ => rfl, [], by simp, by simp, by simp⟩
    (by
      intro k t hk ⟨hbp, hfr, ext, hlog, haddr, hwr⟩
      obtain ⟨e1, e2, e3, e4⟩ := levelBitStep_effect i i_pend t k hk
      rw [hbp] at e1 e2 e3
      by_cases hp : i_pend.testBit k = true
      · refine ⟨e1, fun a ha => (e2 a ha).trans (hfr a ha),
          ext ++ [Access.wr (b_select t0.plist.brd_ptr i) (255 - 2 ^ k)], ?_, ?_, ?_⟩
        · rw [e3 hp, hlog, List.append_assoc]
        · intro x hx
          rcases List.mem_append.mp hx with h | h
          · exact haddr x h
          · simp only [List.mem_singleton] at h
            rw [h]; rfl
        · intro j hj hb
          rcases Nat.lt_succ_iff_lt_or_eq.mp hj with h | h
          · exact List.mem_append_left _ (hwr j h hb)
          · subst h
            exact List.mem_append_right _ (by simp)
      · have hp' : i_pend.testBit k = false := by
          cases h : i_pend.testBit k
          · rfl
          · exact absurd h hp
        refine ⟨e1, fun a ha => (e2 a ha).trans (hfr a ha), ext, ?_, haddr, ?_⟩
        · rw [e4 hp', hlog]
        · intro j hj hb
          rcases Nat.lt_succ_iff_lt_or_eq.mp hj with h | h
          · exact hwr j h hb
          · subst h
            exact absurd hb hp)
  exact key

/-- One pass of the port loop of `avme470LEVEL` for the status value `i_stat`. -/
theorem levelPortStep_effect (i_stat : Nat) (st : IsrState) (i : Nat) (hi : i < 8) :
    (avme470LEVELPortStep i_stat st i).plist.brd_ptr = st.plist.brd_ptr ∧
    (∀ a, a ≠ b_select st.plist.brd_ptr i →
      (avme470LEVELPortStep i_stat st i).hw.mem a = st.hw.mem a) ∧
    ∃ ext, (avme470LEVELPortStep i_stat st i).hw.log = st.hw.log ++ ext ∧
      (∀ x ∈ ext, accessAddr x = b_select st.plist.brd_ptr i) ∧
      (i_stat.testBit i = false → ext = []) ∧
      (i_stat.testBit i = true → ∀ j < 8,
        portBit st.hw st.plist.brd_ptr i j = true →
        Access.wr (b_select st.plist.brd_ptr i) (255 - 2 ^ j) ∈ ext) := by
  unfold avme470LEVELPortStep
  simp only [avme470Input, bitMask_byte i hi]
  by_cases h : i_stat.testBit i = true
  · rw [if_pos ((mask_and_ne_zero _ _).mpr h)]
    obtain ⟨p1, p2, ext, p3, p4, p5⟩ := levelBits_effect i
      (st.hw.mem (b_select st.plist.brd_ptr i) % 256)
      { st with hw := { mem := st.hw.mem, log := st.hw.log ++
          [Access.rd (b_select st.plist.brd_ptr i)
            (st.hw.mem (b_select st.plist.brd_ptr i) % 256)] } }
    simp only [MAXBITS]
    refine ⟨p1, ?_, Access.rd (b_select st.plist.brd_ptr i)
        (st.hw.mem (b_select st.plist.brd_ptr i) % 256) ::
        (ext ++ [Access.wr (b_select st.plist.brd_ptr i) 255]), ?_, ?_, ?_, ?_⟩
    · intro a ha
      simp only [avme470Output, p1]
      rw [if_neg ha]
      exact p2 a ha
    · simp only [avme470Output, p1, p3]
      simp
    · intro x hx
      rcases List.mem_cons.mp hx with hx | hx
      · rw [hx]; rfl
      · rcases List.mem_append.mp hx with hx | hx
        · exact p4 x hx
        · simp only [List.mem_singleton] at hx
          rw [hx]; rfl
    · intro hf
      rw [h] at hf
      exact absurd hf (by decide)
    · intro _ j hj hb
      exact List.mem_cons_of_mem _ (List.mem_append_left _ (p5 j hj hb))
  · rw [if_neg (fun hc => h ((mask_and_ne_zero _ _).mp hc))]
    refine ⟨rfl, fun a _ => rfl, [], by simp, by simp, fun _ => rfl, ?_⟩
    intro ht
    exact absurd ht h

/-- The port loop of `avme470LEVEL` for the status value `i_stat`, entered in
the state `s0`. -/
theorem levelPorts_effect (i_stat : Nat) (s0 : IsrState) :
    ((List.range 6).foldl (avme470LEVELPortStep i_stat) s0).plist.brd_ptr
      = s0.plist.brd_ptr ∧
    (∀ a, (∀ q < 6, a ≠ b_select s0.plist.brd_ptr q) →
      ((List.range 6).foldl (avme470LEVELPortStep i_stat) s0).hw.mem a = s0.hw.mem a) ∧
    ∃ ext, ((List.range 6).foldl (avme470LEVELPortStep i_stat) s0).hw.log
        = s0.hw.log ++ ext ∧
      (∀ x ∈ ext, ∃ q < 6, i_stat.testBit q = true ∧
        accessAddr x = b_select s0.plist.brd_ptr q) ∧
      (∀ q < 6, ∀ j < 8, i_stat.testBit q = true →
        portBit s0.hw s0.plist.brd_ptr q j = true →
        Access.wr (b_select s0.plist.brd_ptr q) (255 - 2 ^ j) ∈ ext) := by
  have key := foldl_range_inv (avme470LEVELPortStep i_stat)
    (fun k s =>
      s.plist.brd_ptr = s0.plist.brd_ptr ∧
      (∀ a, (∀ q < k, a ≠ b_select s0.plist.brd_ptr q) → s.hw.mem a = s0.hw.mem a) ∧
      ∃ ext, s.hw.log = s0.hw.log ++ ext ∧
        (∀ x ∈ ext, ∃ q < k, i_stat.testBit q = true ∧
          accessAddr x = b_select s0.plist.brd_ptr q) ∧
        (∀ q < k, ∀ j < 8, i_stat.testBit q = true →
          portBit s0.hw s0.plist.brd_ptr q j = true →
          Access.wr (b_select s0.plist.brd_ptr q) (255 - 2 ^ j) ∈ ext))
    6 s0
    ⟨rfl, fun _ _ => rfl, [], by simp, by simp, by simp⟩
    (by
      intro k s hk ⟨hbp, hfr, ext, hlog, hcls, hwr⟩
      obtain ⟨e1, e2, ext1, e3, e4, e5, e6⟩ := levelPortStep_effect i_stat s k (by omega)
      rw [hbp] at e1 e2 e4 e6
      have hkk : s.hw.mem (b_select s0.plist.brd_ptr k) = s0.hw.mem (b_select s0.plist.brd_ptr k) :=
        hfr _ (fun q hq hc => by rw [b_select_inj] at hc; omega)
      have hpk : ∀ j, portBit s.hw s0.plist.brd_ptr k j = portBit s0.hw s0.plist.brd_ptr k j := by
        intro j; unfold portBit; rw [hkk]
      refine ⟨e1, ?_, ext ++ ext1, ?_, ?_, ?_⟩
      · intro a ha
        rw [e2 a (ha k (Nat.lt_succ_self k))]
        exact hfr a (fun q hq => ha q (Nat.lt_succ_of_lt hq))
      · rw [e3, hlog, List.append_assoc]
      · intro x hx
        rcases List.mem_append.mp hx with hx | hx
        · obtain ⟨q, hq, hb, ha⟩ := hcls x hx
          exact ⟨q, Nat.lt_succ_of_lt hq, hb, ha⟩
        · refine ⟨k, Nat.lt_succ_self k, ?_, e4 x hx⟩
          cases hb : i_stat.testBit k
          · rw [e5 hb] at hx
            exact absurd hx (List.not_mem_nil _)
          · rfl
      · intro q hq j hj hb6 hb
        rcases Nat.lt_succ_iff_lt_or_eq.mp hq with h | h
        · exact List.mem_append_left _ (hwr q h j hj hb6 hb)
        · subst h
          refine List.mem_append_right _ (e6 hb6 j hj ?_)
          rw [hpk]; exact hb)
  exact key

theorem selectBank_log (nb : Nat) (c : config470) (hw : Hw) :
    ∃ ext, (avme470SelectBank nb c hw).2.log = hw.log ++ ext ∧
      ∀ x ∈ ext, accessAddr x = b_select c.brd_ptr 7 := by
  unfold avme470SelectBank
  simp only [avme470Input, avme470Output]
  split
  · exact ⟨[Access.rd (b_select c.brd_ptr 7) (hw.mem (b_select c.brd_ptr 7) % 256)], rfl,
      by intro x hx; simp only [List.mem_singleton] at hx; rw [hx]; rfl⟩
  · refine ⟨[Access.rd (b_select c.brd_ptr 7) (hw.mem (b_select c.brd_ptr 7) % 256)] ++
      [Access.wr (b_select c.brd_ptr 7) _], List.append_assoc _ _ _, ?_⟩
    intro x hx
    simp only [List.mem_append, List.mem_singleton] at hx
    rcases hx with h | h <;> rw [h] <;> rfl

theorem selectedBank_lt (hw : Hw) (bp : Nat) : selectedBank hw bp < 4 := by
  unfold selectedBank
  have h : hw.mem (b_select bp 7) % 256 &&& 0xC0 ≤ 0xC0 := Nat.and_le_right
  rw [Nat.shiftRight_eq_div_pow]
  omega

theorem selectBank_portBit (nb : Nat) (c : config470) (hw : Hw) (q j : Nat) (hq : q < 7) :
    portBit (avme470SelectBank nb c hw).2 c.brd_ptr q j = portBit hw c.brd_ptr q j := by
  unfold portBit
  rw [selectBank_mem nb c hw _ (fun hc => by rw [b_select_inj] at hc; omega)]

/-- A run of `avme470COS` on the store. Its accesses go to the bank-select
register, to the status register (reads of the value held on entry) and to the
registers of ports whose status bit is set on entry; for each such port the
clear mask of every bit set on entry is written; the bank selected on entry is
selected again on return. -/
theorem cos_effect (st : IsrState) :
    (avme470COS st).plist.brd_ptr = st.plist.brd_ptr ∧
    (∃ ext, (avme470COS st).hw.log = st.hw.log ++ ext ∧
      (∀ x ∈ ext, accessAddr x = b_select st.plist.brd_ptr 7 ∨
        x = Access.rd (b_select st.plist.brd_ptr 6)
              (st.hw.mem (b_select st.plist.brd_ptr 6) % 256) ∨
        ∃ q < 6, portBit st.hw st.plist.brd_ptr 6 q = true ∧
          accessAddr x = b_select st.plist.brd_ptr q) ∧
      (∀ q < 6, ∀ j < 8, portBit st.hw st.plist.brd_ptr 6 q = true →
        portBit st.hw st.plist.brd_ptr q j = true →
        Access.wr (b_select st.plist.brd_ptr q) (255 - 2 ^ j) ∈ ext)) ∧
    selectedBank (avme470COS st).hw st.plist.brd_ptr = selectedBank st.hw st.plist.brd_ptr := by
  obtain ⟨s0, hs0⟩ : ∃ s0 : IsrState, s0 =
      { plist := st.plist, hw := (avme470SelectBank BANK1 st.plist st.hw).2,
        scans := st.scans, usrCalls := st.usrCalls,
        carrier := st.carrier ++ [CarrierCall.ipmIrqCmd st.plist.card st.plist.slot 0
          ipac_irqCmd_t.ipac_irqDisable] } := ⟨_, rfl⟩
  have hpl : s0.plist = st.plist := by rw [hs0]
  have hhw0 : s0.hw = (avme470SelectBank BANK1 st.plist st.hw).2 := by rw [hs0]
  have hP : (avme470COS st).plist = ((List.range 6).foldl avme470COSPortStep s0).plist := by
    rw [hs0]; rfl
  have hH : (avme470COS st).hw =
      (avme470SelectBank (avme470SelectBank BANK1 st.plist st.hw).1
        ((List.range 6).foldl avme470COSPortStep s0).plist
        ((List.range 6).foldl avme470COSPortStep s0).hw).2 := by
    rw [hs0]; rfl
  obtain ⟨p1, p2, ext, p3, p4, p5⟩ := cosPorts_effect s0
  rw [hpl] at p1 p2 p4 p5
  obtain ⟨x1, l1, a1⟩ := selectBank_log BANK1 st.plist st.hw
  obtain ⟨x2, l2, a2⟩ := selectBank_log (avme470SelectBank BANK1 st.plist st.hw).1
    ((List.range 6).foldl avme470COSPortStep s0).plist
    ((List.range 6).foldl avme470COSPortStep s0).hw
  rw [p1] at a2
  have h6 : s0.hw.mem (b_select st.plist.brd_ptr 6) = st.hw.mem (b_select st.plist.brd_ptr 6) := by
    rw [hhw0]
    exact selectBank_mem _ _ _ _ (fun hc => by rw [b_select_inj] at hc; omega)
  have hpb : ∀ q < 7, ∀ j, portBit s0.hw st.plist.brd_ptr q j = portBit st.hw st.plist.brd_ptr q j := by
    intro q hq j
    rw [hhw0]
    exact selectBank_portBit _ _ _ _ _ hq
  refine ⟨by rw [hP, p1], ⟨x1 ++ ext ++ x2, ?_, ?_, ?_⟩, ?_⟩
  · rw [hH, l2, p3, hhw0, l1]
    simp only [List.append_assoc]
  · intro x hx
    rcases List.mem_append.mp hx with hx | hx
    · rcases List.mem_append.mp hx with hx | hx
      · exact Or.inl (a1 x hx)
      · rcases p4 x hx with h | ⟨q, hq, hb, ha⟩
        · rw [h6] at h
          exact Or.inr (Or.inl h)
        · rw [hpb 6 (by omega)] at hb
          exact Or.inr (Or.inr ⟨q, hq, hb, ha⟩)
    · exact Or.inl (a2 x hx)
  · intro q hq j hj hb6 hb
    refine List.mem_append_left _ (List.mem_append_right _ (p5 q hq j hj ?_ ?_))
    · rw [hpb 6 (by omega)]; exact hb6
    · rw [hpb q (by omega)]; exact hb
  · rw [hH]
    have hsel := selectBank_selected (avme470SelectBank BANK1 st.plist st.hw).1
      ((List.range 6).foldl avme470COSPortStep s0).plist
      ((List.range 6).foldl avme470COSPortStep s0).hw
      (by rw [selectBank_fst]; exact selectedBank_lt st.hw st.plist.brd_ptr)
    rw [p1] at hsel
    unfold selectedBank
    rw [hsel, selectBank_fst]

theorem ier_ne_b_select (bp q : Nat) (hq : q < 8) : b_select bp q ≠ ier bp := by
  unfold b_select ier; omega

/-- A run of `avme470LEVEL` on the store: the first access writes 0 to the
interrupt enable register and the last writes `INTEN` to it; the accesses in
between are those of the COS handler's description, with the status read once. -/
theorem level_effect (st : IsrState) :
    (avme470LEVEL st).plist.brd_ptr = st.plist.brd_ptr ∧
    (∃ mid, (avme470LEVEL st).hw.log = st.hw.log ++
        Access.wr (ier st.plist.brd_ptr) 0 ::
          (mid ++ [Access.wr (ier st.plist.brd_ptr) INTEN]) ∧
      (∀ x ∈ mid, accessAddr x = b_select st.plist.brd_ptr 7 ∨
        x = Access.rd (b_select st.plist.brd_ptr 6)
              (st.hw.mem (b_select st.plist.brd_ptr 6) % 256) ∨
        ∃ q < 6, portBit st.hw st.plist.brd_ptr 6 q = true ∧
          accessAddr x = b_select st.plist.brd_ptr q) ∧
      (∀ q < 6, ∀ j < 8, portBit st.hw st.plist.brd_ptr 6 q = true →
        portBit st.hw st.plist.brd_ptr q j = true →
        Access.wr (b_select st.plist.brd_ptr q) (255 - 2 ^ j) ∈ mid)) ∧
    selectedBank (avme470LEVEL st).hw st.plist.brd_ptr
      = selectedBank st.hw st.plist.brd_ptr := by
  obtain ⟨hw1, hhw1⟩ : ∃ hw1 : Hw, hw1 = avme470Output st.hw (ier st.plist.brd_ptr) 0 :=
    ⟨_, rfl⟩
  have hm1 : ∀ q < 8, hw1.mem (b_select st.plist.brd_ptr q) = st.hw.mem (b_select st.plist.brd_ptr q) := by
    intro q hq
    rw [hhw1]
    simp only [avme470Output]
    rw [if_neg (ier_ne_b_select _ _ hq)]
  have hl1 : hw1.log = st.hw.log ++ [Access.wr (ier st.plist.brd_ptr) 0] := by
    rw [hhw1]; rfl
  obtain ⟨s0, hs0⟩ : ∃ s0 : IsrState, s0 =
      { plist := st.plist,
        hw := (avme470Input (avme470SelectBank BANK1 st.plist hw1).2
          (b_select st.plist.brd_ptr 6)).2,
        scans := st.scans, usrCalls := st.usrCalls,
        carrier := st.carrier ++ [CarrierCall.ipmIrqCmd st.plist.card st.plist.slot 0
          ipac_irqCmd_t.ipac_irqDisable] } := ⟨_, rfl⟩
  obtain ⟨i_stat, hstat⟩ : ∃ i_stat : Nat, i_stat =
      (avme470Input (avme470SelectBank BANK1 st.plist hw1).2 (b_select st.plist.brd_ptr 6)).1 :=
    ⟨_, rfl⟩
  have hpl : s0.plist = st.plist := by rw [hs0]
  have hmem0 : s0.hw.mem = (avme470SelectBank BANK1 st.plist hw1).2.mem := by rw [hs0]; rfl
  have hm6 : ∀ q < 7, s0.hw.mem (b_select st.plist.brd_ptr q)
      = st.hw.mem (b_select st.plist.brd_ptr q) := by
    intro q hq
    rw [hmem0, selectBank_mem _ _ _ _ (fun hc => by rw [b_select_inj] at hc; omega)]
    exact hm1 q (by omega)
  have hstat' : i_stat = st.hw.mem (b_select st.plist.brd_ptr 6) % 256 := by
    rw [hstat]
    simp only [avme470Input]
    rw [selectBank_mem _ _ _ _ (fun hc => by rw [b_select_inj] at hc; omega)]
    rw [hm1 6 (by omega)]
  have hlog0 : s0.hw.log = (avme470SelectBank BANK1 st.plist hw1).2.log ++
      [Access.rd (b_select st.plist.brd_ptr 6) (st.hw.mem (b_select st.plist.brd_ptr 6) % 256)] := by
    rw [hs0]
    simp only [avme470Input]
    rw [selectBank_mem _ _ _ _ (fun hc => by rw [b_select_inj] at hc; omega)]
    rw [hm1 6 (by omega)]
  have hP : (avme470LEVEL st).plist
      = ((List.range 6).foldl (avme470LEVELPortStep i_stat) s0).plist := by
    rw [hs0, hstat, hhw1]; rfl
  have hH : (avme470LEVEL st).hw =
      avme470Output
        (avme470SelectBank (avme470SelectBank BANK1 st.plist hw1).1
          ((List.range 6).foldl (avme470LEVELPortStep i_stat) s0).plist
          ((List.range 6).foldl (avme470LEVELPortStep i_stat) s0).hw).2
        (ier ((List.range 6).foldl (avme470LEVELPortStep i_stat) s0).plist.brd_ptr) INTEN := by
    rw [hs0, hstat, hhw1]; rfl
  obtain ⟨p1, p2, ext, p3, p4, p5⟩ := levelPorts_effect i_stat s0
  rw [hpl] at p1 p2 p4 p5
  obtain ⟨x1, l1, a1⟩ := selectBank_log BANK1 st.plist hw1
  obtain ⟨x2, l2, a2⟩ := selectBank_log (avme470SelectBank BANK1 st.plist hw1).1
    ((List.range 6).foldl (avme470LEVELPortStep i_stat) s0).plist
    ((List.range 6).foldl (avme470LEVELPortStep i_stat) s0).hw
  rw [p1] at a2
  have hpb : ∀ q < 7, ∀ j, portBit s0.hw st.plist.brd_ptr q j
      = portBit st.hw st.plist.brd_ptr q j := by
    intro q hq j
    unfold portBit
    rw [hm6 q hq]
  have hb6 : ∀ q, i_stat.testBit q = portBit st.hw st.plist.brd_ptr 6 q := by
    intro q; rw [hstat']; rfl
  refine ⟨by rw [hP, p1], ⟨x1 ++ Access.rd (b_select st.plist.brd_ptr 6)
      (st.hw.mem (b_select st.plist.brd_ptr 6) % 256) :: ext ++ x2, ?_, ?_, ?_⟩, ?_⟩
  · rw [hH, p1]
    simp only [avme470Output]
    rw [l2, p3, hlog0, l1, hl1]
    simp only [List.append_assoc, List.cons_append, List.singleton_append, List.nil_append]
    rfl
  · intro x hx
    rcases List.mem_append.mp hx with hx | hx
    · rcases List.mem_append.mp hx with hx | hx
      · exact Or.inl (a1 x hx)
      · rcases List.mem_cons.mp hx with hx | hx
        · exact Or.inr (Or.inl hx)
        · obtain ⟨q, hq, hb, ha⟩ := p4 x hx
          rw [hb6] at hb
          exact Or.inr (Or.inr ⟨q, hq, hb, ha⟩)
    · exact Or.inl (a2 x hx)
  · intro q hq j hj hbq hb
    refine List.mem_append_left _ (List.mem_append_right _ (List.mem_cons_of_mem _
      (p5 q hq j hj ?_ ?_)))
    · rw [hb6]; exact hbq
    · rw [hpb q (by omega)]; exact hb
  · rw [hH, p1]
    have hsel := selectBank_selected (avme470SelectBank BANK1 st.plist hw1).1
      ((List.range 6).foldl (avme470LEVELPortStep i_stat) s0).plist
      ((List.range 6).foldl (avme470LEVELPortStep i_stat) s0).hw
      (by rw [selectBank_fst]; exact selectedBank_lt hw1 st.plist.brd_ptr)
    rw [p1] at hsel
    unfold selectedBank
    simp only [avme470Output]
    rw [if_neg (ier_ne_b_select _ _ (by omega)), hsel, selectBank_fst, hm1 7 (by omega)]

theorem newAccesses_of_append (before after : Hw) (ext : List Access)
    (h : after.log = before.log ++ ext) : newAccesses before after = ext := by
  unfold newAccesses
  rw [h, List.drop_left]

theorem clearMask_value (j : Nat) (hj : j < 8) : 0xFF &&& ulongNot (1 <<< j) = 255 - 2 ^ j := by
  interval_cases j <;> decide

/-- C24: on the register store, for every port `i` and bit `j` that the status
register (port 6) and the port's sense register report pending when the
handler is entered, both `avme470COS` and `avme470LEVEL` write the complement
of the bit mask, `0xFF & ~(1 << j)`, to the register of port `i` (so bit `j` is
written as 0); and the register of a port whose status bit is not set is never
written. -/
theorem avme470_isr_clears_pending_bits (st : IsrState) (i j : Nat)
    (hi : i < MAXPORTS) (hj : j < MAXBITS) :
    (portBit st.hw st.plist.brd_ptr 6 i = true → portBit st.hw st.plist.brd_ptr i j = true →
      Access.wr (b_select st.plist.brd_ptr i) (0xFF &&& ulongNot (1 <<< j))
        ∈ newAccesses st.hw (avme470COS st).hw ∧
      Access.wr (b_select st.plist.brd_ptr i) (0xFF &&& ulongNot (1 <<< j))
        ∈ newAccesses st.hw (avme470LEVEL st).hw) ∧
    (portBit st.hw st.plist.brd_ptr 6 i = false → ∀ v,
      Access.wr (b_select st.plist.brd_ptr i) v ∉ newAccesses st.hw (avme470COS st).hw ∧
      Access.wr (b_select st.plist.brd_ptr i) v ∉ newAccesses st.hw (avme470LEVEL st).hw) ∧
    (0xFF &&& ulongNot (1 <<< j)) + 2 ^ j = 0xFF := by
  unfold MAXPORTS at hi
  unfold MAXBITS at hj
  obtain ⟨_, ⟨extC, lC, cC, wC⟩, _⟩ := cos_effect st
  obtain ⟨_, ⟨mid, lL, cL, wL⟩, _⟩ := level_effect st
  have nC := newAccesses_of_append _ _ _ lC
  have nL := newAccesses_of_append _ _ _ lL
  have hpow : 2 ^ j ≤ 255 := by interval_cases j <;> decide
  refine ⟨?_, ?_, ?_⟩
  · intro h6 hb
    rw [nC, nL, clearMask_value j hj]
    exact ⟨wC i hi j hj h6 hb,
      List.mem_cons_of_mem _ (List.mem_append_left _ (wL i hi j hj h6 hb))⟩
  · intro h6 v
    have hne : ∀ x, (accessAddr x = b_select st.plist.brd_ptr 7 ∨
        x = Access.rd (b_select st.plist.brd_ptr 6)
              (st.hw.mem (b_select st.plist.brd_ptr 6) % 256) ∨
        ∃ q < 6, portBit st.hw st.plist.brd_ptr 6 q = true ∧
          accessAddr x = b_select st.plist.brd_ptr q) →
        x ≠ Access.wr (b_select st.plist.brd_ptr i) v := by
      intro x hx hc
      subst hc
      rcases hx with h | h | ⟨q, _, hb, ha⟩
      · simp only [accessAddr, b_select_inj] at h
        omega
      · exact Access.noConfusion h
      · simp only [accessAddr, b_select_inj] at ha
        subst ha
        rw [h6] at hb
        exact absurd hb (by decide)
    rw [nC, nL]
    constructor
    · intro hc
      exact hne _ (cC _ hc) rfl
    · intro hc
      rcases List.mem_cons.mp hc with hc | hc
      · have := congrArg accessAddr hc
        simp only [accessAddr] at this
        exact ier_ne_b_select _ _ (by omega) this
      · rcases List.mem_append.mp hc with hc | hc
        · exact hne _ (cL _ hc) rfl
        · simp only [List.mem_singleton] at hc
          have := congrArg accessAddr hc
          simp only [accessAddr] at this
          exact ier_ne_b_select _ _ (by omega) this
  · rw [clearMask_value j hj]
    omega

/-- C24 at "DIO1" with port 2, bit 5 pending: both handlers write 0xDF to the
register of port 2. -/
theorem avme470_isr_clears_pending_bits_witness :
    portBit pendingHw 0 6 2 = true ∧ portBit pendingHw 0 2 5 = true ∧
      Access.wr 5 0xDF ∈ newAccesses pendingHw (avme470COS (isrEntry dio1 pendingHw)).hw ∧
      Access.wr 5 0xDF ∈ newAccesses pendingHw (avme470LEVEL (isrEntry dio1 pendingHw)).hw :=
  ⟨by decide, by decide,
    ((avme470_isr_clears_pending_bits (isrEntry dio1 pendingHw) 2 5 (by decide) (by decide)).1
      (by decide) (by decide)).1,
    ((avme470_isr_clears_pending_bits (isrEntry dio1 pendingHw) 2 5 (by decide) (by decide)).1
      (by decide) (by decide)).2⟩

/-- C25: on the register store, for every bank selected when the handler is
entered, the bank selected (the top two bits of the bank-select register) after
`avme470COS` returns, and after `avme470LEVEL` returns, is the bank that was
selected on entry. -/
theorem avme470_isr_restores_bank (st : IsrState) :
    selectedBank (avme470COS st).hw st.plist.brd_ptr = selectedBank st.hw st.plist.brd_ptr ∧
    selectedBank (avme470LEVEL st).hw st.plist.brd_ptr
      = selectedBank st.hw st.plist.brd_ptr :=
  ⟨(cos_effect st).2.2, (level_effect st).2.2⟩

/-- C26: in the register accesses of one run, `avme470LEVEL` first writes 0 to
the interrupt enable register and last writes `INTEN` to it, while
`avme470COS` makes no access to the interrupt enable register, so no write. -/
theorem avme470_isr_enable_register (st : IsrState) :
    (∃ mid, newAccesses st.hw (avme470LEVEL st).hw =
      Access.wr (ier st.plist.brd_ptr) 0 ::
        (mid ++ [Access.wr (ier st.plist.brd_ptr) INTEN])) ∧
    (∀ x ∈ newAccesses st.hw (avme470COS st).hw, accessAddr x ≠ ier st.plist.brd_ptr) ∧
    (∀ v, Access.wr (ier st.plist.brd_ptr) v ∉ newAccesses st.hw (avme470COS st).hw) := by
  obtain ⟨_, ⟨extC, lC, cC, _⟩, _⟩ := cos_effect st
  obtain ⟨_, ⟨mid, lL, _, _⟩, _⟩ := level_effect st
  have nC := newAccesses_of_append _ _ _ lC
  have nL := newAccesses_of_append _ _ _ lL
  have hno : ∀ x ∈ newAccesses st.hw (avme470COS st).hw, accessAddr x ≠ ier st.plist.brd_ptr := by
    intro x hx
    rw [nC] at hx
    rcases cC x hx with h | h | ⟨q, hq, _, ha⟩
    · rw [h]; exact ier_ne_b_select _ _ (by omega)
    · rw [h]; exact ier_ne_b_select _ _ (by omega)
    · rw [ha]; exact ier_ne_b_select _ _ (by omega)
  exact ⟨⟨mid, nL⟩, hno, fun v hc => hno _ hc rfl⟩

/-! ## What a handler records and whom it notifies -/

theorem trace_start (hw : Hw) (p7 : Nat) : ConfigTrace hw hw p7 (hw.mem p7) [] :=
  ⟨rfl, [], by simp, rfl⟩

theorem trace_out_ne (hw h : Hw) (p7 v : Nat) (W : List (Nat × Nat)) (a b : Nat)
    (t : ConfigTrace hw h p7 v W) (ha : p7 ≠ a) :
    ConfigTrace hw (avme470Output h a b) p7 v (W ++ [(a, b % 256)]) := by
  obtain ⟨hm, L, hl, hW⟩ := t
  refine ⟨?_, L ++ [Access.wr a (b % 256)], ?_, ?_⟩
  · simp only [avme470Output]
    rw [if_neg ha]; exact hm
  · simp only [avme470Output]
    rw [hl, List.append_assoc]
  · rw [writesOf_append, hW]; rfl

theorem trace_out_eq (hw h : Hw) (p7 v : Nat) (W : List (Nat × Nat)) (b : Nat)
    (t : ConfigTrace hw h p7 v W) :
    ConfigTrace hw (avme470Output h p7 b) p7 (b % 256) (W ++ [(p7, b % 256)]) := by
  obtain ⟨_, L, hl, hW⟩ := t
  refine ⟨?_, L ++ [Access.wr p7 (b % 256)], ?_, ?_⟩
  · simp only [avme470Output, if_true]
  · simp only [avme470Output]
    rw [hl, List.append_assoc]
  · rw [writesOf_append, hW]; rfl

theorem trace_sel (hw h : Hw) (c : config470) (v : Nat) (W : List (Nat × Nat)) (nb : Nat)
    (t : ConfigTrace hw h (b_select c.brd_ptr 7) v W) (hnb : nb < 4) :
    ConfigTrace hw (avme470SelectBank nb c h).2 (b_select c.brd_ptr 7)
      (if (v % 256 &&& 0xC0) >>> 6 = nb then v
       else ((if (v % 256 &&& 0xC0) >>> 6 = BANK1 then c.ev_control1 % 256 else v % 256)
              &&& 0x3F) ||| (nb <<< 6))
      (W ++ if (v % 256 &&& 0xC0) >>> 6 = nb then []
        else [(b_select c.brd_ptr 7,
          ((if (v % 256 &&& 0xC0) >>> 6 = BANK1 then c.ev_control1 % 256 else v % 256)
              &&& 0x3F) ||| (nb <<< 6))]) := by
  obtain ⟨hm, L, hl, hW⟩ := t
  by_cases hb : (v % 256 &&& 0xC0) >>> 6 = nb
  · rw [if_pos hb, if_pos hb]
    have hb' : (h.mem (b_select c.brd_ptr 7) % 256 &&& 0xC0) >>> 6 = nb := by rw [hm]; exact hb
    rw [selectBank_of_eq nb c h hb']
    refine ⟨hm, L ++ [Access.rd (b_select c.brd_ptr 7) (h.mem (b_select c.brd_ptr 7) % 256)],
      ?_, ?_⟩
    · simp only [avme470Input]
      rw [hl, List.append_assoc]
    · rw [writesOf_append, hW]; simp [writesOf]
  · rw [if_neg hb, if_neg hb]
    have hb' : (h.mem (b_select c.brd_ptr 7) % 256 &&& 0xC0) >>> 6 ≠ nb := by rw [hm]; exact hb
    rw [selectBank_of_ne nb c h hb', selectBank_byte nb c h hnb, hm]
    refine ⟨?_, L ++ [Access.rd (b_select c.brd_ptr 7) (v % 256),
        Access.wr (b_select c.brd_ptr 7)
          (((if (v % 256 &&& 0xC0) >>> 6 = BANK1 then c.ev_control1 % 256 else v % 256)
              &&& 0x3F) ||| (nb <<< 6))], ?_, ?_⟩
    · have hbyte := selectBank_byte nb c h hnb
      rw [hm] at hbyte
      simp only [avme470Output, avme470Input, if_true]
      exact hbyte
    · have hbyte := selectBank_byte nb c h hnb
      rw [hm] at hbyte
      simp only [avme470Output, avme470Input]
      rw [hl, hm, hbyte]
      simp
    · rw [writesOf_append, hW]; simp [writesOf]

theorem trace_ports (hw h : Hw) (bp v : Nat) (W : List (Nat × Nat))
    (t : ConfigTrace hw h (b_select bp 7) v W) :
    ConfigTrace hw (avme470ConfigPorts bp h) (b_select bp 7) v
      (W ++ [(b_select bp 0, 0), (b_select bp 0, 0xFF), (b_select bp 1, 0), (b_select bp 1, 0xFF),
        (b_select bp 2, 0), (b_select bp 2, 0xFF), (b_select bp 3, 0), (b_select bp 3, 0xFF),
        (b_select bp 4, 0), (b_select bp 4, 0xFF), (b_select bp 5, 0), (b_select bp 5, 0xFF)]) := by
  have hne : ∀ q < 6, b_select bp 7 ≠ b_select bp q := by
    intro q hq hc
    rw [b_select_inj] at hc
    omega
  have e : avme470ConfigPorts bp h =
      avme470Output (avme470Output (avme470Output (avme470Output (avme470Output (avme470Output
      (avme470Output (avme470Output (avme470Output (avme470Output (avme470Output (avme470Output h
        (b_select bp 0) 0) (b_select bp 0) 0xFF) (b_select bp 1) 0) (b_select bp 1) 0xFF)
        (b_select bp 2) 0) (b_select bp 2) 0xFF) (b_select bp 3) 0) (b_select bp 3) 0xFF)
        (b_select bp 4) 0) (b_select bp 4) 0xFF) (b_select bp 5) 0) (b_select bp 5) 0xFF := rfl
  rw [e]
  have t1 := trace_out_ne _ _ _ _ _ _ 0xFF
    (trace_out_ne _ _ _ _ _ _ 0 t (hne 0 (by omega))) (hne 0 (by omega))
  have t2 := trace_out_ne _ _ _ _ _ _ 0xFF
    (trace_out_ne _ _ _ _ _ _ 0 t1 (hne 1 (by omega))) (hne 1 (by omega))
  have t3 := trace_out_ne _ _ _ _ _ _ 0xFF
    (trace_out_ne _ _ _ _ _ _ 0 t2 (hne 2 (by omega))) (hne 2 (by omega))
  have t4 := trace_out_ne _ _ _ _ _ _ 0xFF
    (trace_out_ne _ _ _ _ _ _ 0 t3 (hne 3 (by omega))) (hne 3 (by omega))
  have t5 := trace_out_ne _ _ _ _ _ _ 0xFF
    (trace_out_ne _ _ _ _ _ _ 0 t4 (hne 4 (by omega))) (hne 4 (by omega))
  have t6 := trace_out_ne _ _ _ _ _ _ 0xFF
    (trace_out_ne _ _ _ _ _ _ 0 t5 (hne 5 (by omega))) (hne 5 (by omega))
  simpa using t6

theorem trace_sel_eq (hw h : Hw) (c : config470) (v : Nat) (W : List (Nat × Nat)) (nb : Nat)
    (t : ConfigTrace hw h (b_select c.brd_ptr 7) v W) (hnb : nb < 4)
    (hb : (v % 256 &&& 0xC0) >>> 6 = nb) :
    ConfigTrace hw (avme470SelectBank nb c h).2 (b_select c.brd_ptr 7) v W := by
  have s := trace_sel hw h c v W nb t hnb
  rw [if_pos hb, if_pos hb, List.append_nil] at s
  exact s

theorem trace_sel_ne (hw h : Hw) (c : config470) (v : Nat) (W : List (Nat × Nat)) (nb x : Nat)
    (t : ConfigTrace hw h (b_select c.brd_ptr 7) v W) (hnb : nb < 4)
    (hb : (v % 256 &&& 0xC0) >>> 6 ≠ nb)
    (hx : (if (v % 256 &&& 0xC0) >>> 6 = BANK1 then c.ev_control1 % 256 else v % 256) = x) :
    ConfigTrace hw (avme470SelectBank nb c h).2 (b_select c.brd_ptr 7)
      ((x &&& 0x3F) ||| (nb <<< 6))
      (W ++ [(b_select c.brd_ptr 7, (x &&& 0x3F) ||| (nb <<< 6))]) := by
  have s := trace_sel hw h c v W nb t hnb
  rw [if_neg hb, if_neg hb, hx] at s
  exact s

theorem ivr_ne_b_select (bp q : Nat) (hq : q < 8) : b_select bp q ≠ ivr bp := by
  unfold b_select ivr; omega

set_option maxRecDepth 100000 in
theorem low_bits_kept : ∀ x < 256, ∀ nb < 4,
    ((x &&& 0x3F) ||| (nb <<< 6)) % 256 &&& 0x3F = x &&& 0x3F := by
  decide

/-- The first part of `avme470Config` in enhanced mode, up to the write of
`ev_control[1]`. -/
theorem config_head (c : config470) (hw : Hw) :
    ConfigTrace hw
      (avme470Output (avme470Output (avme470SelectBank BANK1 c
        (avme470Output (avme470SelectBank BANK0 c
          (avme470Output (avme470Output (avme470Output (avme470Output (avme470Output hw
            (b_select c.brd_ptr 7) 0x07) (b_select c.brd_ptr 7) 0x0D) (b_select c.brd_ptr 7) 0x06)
            (b_select c.brd_ptr 7) 0x12) (ivr c.brd_ptr) c.vector)).2
          (b_select c.brd_ptr 7) (0 &&& 0x3F))).2
        (b_select c.brd_ptr 6) c.ev_control0) (b_select c.brd_ptr 7) c.ev_control1)
      (b_select c.brd_ptr 7) (c.ev_control1 % 256)
      [(b_select c.brd_ptr 7, 0x07), (b_select c.brd_ptr 7, 0x0D),
       (b_select c.brd_ptr 7, 0x06), (b_select c.brd_ptr 7, 0x12),
       (ivr c.brd_ptr, c.vector % 256),
       (b_select c.brd_ptr 7, 0),
       (b_select c.brd_ptr 7, 0x40),
       (b_select c.brd_ptr 6, c.ev_control0 % 256),
       (b_select c.brd_ptr 7, c.ev_control1 % 256)] := by
  have t1 : ConfigTrace hw _ (b_select c.brd_ptr 7) 0x07 [(b_select c.brd_ptr 7, 0x07)] :=
    trace_out_eq hw hw _ _ _ 0x07 (trace_start hw _)
  have t2 : ConfigTrace hw _ (b_select c.brd_ptr 7) 0x0D
      [(b_select c.brd_ptr 7, 0x07), (b_select c.brd_ptr 7, 0x0D)] :=
    trace_out_eq hw _ _ _ _ 0x0D t1
  have t3 : ConfigTrace hw _ (b_select c.brd_ptr 7) 0x06
      [(b_select c.brd_ptr 7, 0x07), (b_select c.brd_ptr 7, 0x0D),
       (b_select c.brd_ptr 7, 0x06)] :=
    trace_out_eq hw _ _ _ _ 0x06 t2
  have t4 : ConfigTrace hw _ (b_select c.brd_ptr 7) 0x12
      [(b_select c.brd_ptr 7, 0x07), (b_select c.brd_ptr 7, 0x0D),
       (b_select c.brd_ptr 7, 0x06), (b_select c.brd_ptr 7, 0x12)] :=
    trace_out_eq hw _ _ _ _ 0x12 t3
  have t5 := trace_out_ne hw _ _ _ _ (ivr c.brd_ptr) c.vector t4 (ivr_ne_b_select _ _ (by omega))
  have t6 := trace_sel_eq hw _ c _ _ BANK0 t5 (by decide) (by decide)
  have t7 : ConfigTrace hw _ (b_select c.brd_ptr 7) 0 _ :=
    trace_out_eq hw _ _ _ _ (0 &&& 0x3F) t6
  have t8 : ConfigTrace hw _ (b_select c.brd_ptr 7) 0x40 _ :=
    trace_sel_ne hw _ c _ _ BANK1 0 t7 (by decide) (by decide) (if_neg (by decide))
  have t9 := trace_out_ne hw _ _ _ _ (b_select c.brd_ptr 6) c.ev_control0 t8
    (fun hc => by rw [b_select_inj] at hc; omega)
  have t10 := trace_out_eq hw _ _ _ _ c.ev_control1 t9
  exact t10

theorem trace_cast (hw h : Hw) (p7 v v' : Nat) (W W' : List (Nat × Nat))
    (t : ConfigTrace hw h p7 v W) (hv : v = v') (hW : W = W') : ConfigTrace hw h p7 v' W' := by
  subst hv; subst hW; exact t

theorem trace_writes (hw h : Hw) (p7 v : Nat) (W : List (Nat × Nat))
    (t : ConfigTrace hw h p7 v W) : writesOf (newAccesses hw h) = W := by
  obtain ⟨_, L, hl, hW⟩ := t
  rw [newAccesses_of_append hw h L hl, hW]

/-- The second part of `avme470Config` in enhanced mode, entered with BANK2
selected: the debounce registers, the switch to BANK1, the twelve writes to
the six port registers and, last, the write of `INTEN` to the interrupt enable
register. -/
theorem config_tail (c : config470) (hw h : Hw) (v : Nat) (W : List (Nat × Nat))
    (t : ConfigTrace hw h (b_select c.brd_ptr 7) v W)
    (hb : (v % 256 &&& 0xC0) >>> 6 = BANK2)
    (hlow : v % 256 &&& 0x3F = c.ev_control1 % 256 &&& 0x3F) :
    ConfigTrace hw
      (avme470Output (avme470ConfigPorts c.brd_ptr (avme470SelectBank BANK1 c
        (avme470Output (avme470SelectBank BANK2 c
          (avme470Output (avme470Output (avme470SelectBank BANK2 c
            (avme470Output h (b_select c.brd_ptr 0) c.deb_control)).2
            (b_select c.brd_ptr 1) (c.deb_duration &&& 0xFF))
            (b_select c.brd_ptr 2) ((c.deb_duration >>> 8) &&& 0xF))).2
          (b_select c.brd_ptr 3) c.deb_clock)).2) (ier c.brd_ptr) 1)
      (b_select c.brd_ptr 7) ((c.ev_control1 % 256 &&& 0x3F) ||| 0x40)
      (W ++
       [(b_select c.brd_ptr 0, c.deb_control % 256),
        (b_select c.brd_ptr 1, (c.deb_duration &&& 0xFF) % 256),
        (b_select c.brd_ptr 2, ((c.deb_duration >>> 8) &&& 0xF) % 256),
        (b_select c.brd_ptr 3, c.deb_clock % 256),
        (b_select c.brd_ptr 7, (c.ev_control1 % 256 &&& 0x3F) ||| 0x40),
        (b_select c.brd_ptr 0, 0), (b_select c.brd_ptr 0, 0xFF),
        (b_select c.brd_ptr 1, 0), (b_select c.brd_ptr 1, 0xFF),
        (b_select c.brd_ptr 2, 0), (b_select c.brd_ptr 2, 0xFF),
        (b_select c.brd_ptr 3, 0), (b_select c.brd_ptr 3, 0xFF),
        (b_select c.brd_ptr 4, 0), (b_select c.brd_ptr 4, 0xFF),
        (b_select c.brd_ptr 5, 0), (b_select c.brd_ptr 5, 0xFF),
        (ier c.brd_ptr, INTEN)]) := by
  have hne : ∀ q < 6, b_select c.brd_ptr 7 ≠ b_select c.brd_ptr q := by
    intro q hq hc
    rw [b_select_inj] at hc
    omega
  have t12 := trace_out_ne hw _ _ _ _ (b_select c.brd_ptr 0) c.deb_control t (hne 0 (by omega))
  have t13 := trace_sel_eq hw _ c _ _ BANK2 t12 (by decide) hb
  have t14 := trace_out_ne hw _ _ _ _ (b_select c.brd_ptr 1) (c.deb_duration &&& 0xFF) t13
    (hne 1 (by omega))
  have t15 := trace_out_ne hw _ _ _ _ (b_select c.brd_ptr 2) ((c.deb_duration >>> 8) &&& 0xF) t14
    (hne 2 (by omega))
  have t16 := trace_sel_eq hw _ c _ _ BANK2 t15 (by decide) hb
  have t17 := trace_out_ne hw _ _ _ _ (b_select c.brd_ptr 3) c.deb_clock t16 (hne 3 (by omega))
  have hb1 : (v % 256 &&& 0xC0) >>> 6 ≠ BANK1 := by rw [hb]; decide
  have t18 := trace_sel_ne hw _ c _ _ BANK1 (v % 256) t17 (by decide) hb1 (if_neg hb1)
  rw [hlow] at t18
  have t19 := trace_ports hw _ _ _ _ t18
  have t20 := trace_out_ne hw _ _ _ _ (ier c.brd_ptr) 1 t19
    (ier_ne_b_select _ _ (by omega))
  refine trace_cast hw _ _ _ _ _ _ t20 rfl ?_
  simp only [List.append_assoc, List.cons_append, List.nil_append]
  rfl

/-- The register writes `avme470Config` makes, on any store, for a block with
all parameter bits set, in enhanced mode, with `enable = INTEN` and the mask
register value 0 (what `avme470SetConfig` produces in ENHANCED mode). -/
theorem config_enhanced_writes (c : config470) (hw : Hw)
    (hparam : c.param = PARAM_MASK_ENHANCED) (hmode : c.e_mode = ENHANCED)
    (hen : c.enable = INTEN) (hmask : c.mask_reg = 0) :
    writesOf (newAccesses hw (avme470Config c hw)) =
      [(b_select c.brd_ptr 7, 0x07), (b_select c.brd_ptr 7, 0x0D),
       (b_select c.brd_ptr 7, 0x06), (b_select c.brd_ptr 7, 0x12),
       (ivr c.brd_ptr, c.vector % 256),
       (b_select c.brd_ptr 7, 0),
       (b_select c.brd_ptr 7, 0x40),
       (b_select c.brd_ptr 6, c.ev_control0 % 256),
       (b_select c.brd_ptr 7, c.ev_control1 % 256)] ++
      (if (c.ev_control1 % 256 &&& 0xC0) >>> 6 = BANK2 then []
       else [(b_select c.brd_ptr 7, (c.ev_control1 % 256 &&& 0x3F) ||| 0x80)]) ++
      [(b_select c.brd_ptr 0, c.deb_control % 256),
       (b_select c.brd_ptr 1, (c.deb_duration &&& 0xFF) % 256),
       (b_select c.brd_ptr 2, ((c.deb_duration >>> 8) &&& 0xF) % 256),
       (b_select c.brd_ptr 3, c.deb_clock % 256),
       (b_select c.brd_ptr 7, (c.ev_control1 % 256 &&& 0x3F) ||| 0x40),
       (b_select c.brd_ptr 0, 0), (b_select c.brd_ptr 0, 0xFF),
       (b_select c.brd_ptr 1, 0), (b_select c.brd_ptr 1, 0xFF),
       (b_select c.brd_ptr 2, 0), (b_select c.brd_ptr 2, 0xFF),
       (b_select c.brd_ptr 3, 0), (b_select c.brd_ptr 3, 0xFF),
       (b_select c.brd_ptr 4, 0), (b_select c.brd_ptr 4, 0xFF),
       (b_select c.brd_ptr 5, 0), (b_select c.brd_ptr 5, 0xFF),
       (ier c.brd_ptr, INTEN)] := by
  unfold avme470Config
  simp +decide only [hparam, hmode, hen, hmask, PARAM_MASK_ENHANCED, RESET_INTEN, RESET, ENHANCED,
    VECT, MASK, EVCONTROL, DEBCONTROL, DEBDURATION, DEBCLOCK, INTEN, if_true, if_false,
    and_self, and_true, true_and, and_false, false_and, ne_eq, not_true_eq_false,
    not_false_eq_true]
  have t10 := config_head c hw
  by_cases hb : (c.ev_control1 % 256 &&& 0xC0) >>> 6 = BANK2
  · rw [if_pos hb, List.append_nil]
    have t11 := trace_sel_eq hw _ c _ _ BANK2 t10 (by decide) (by rw [Nat.mod_mod]; exact hb)
    have t := config_tail c hw _ _ _ t11 (by rw [Nat.mod_mod]; exact hb) (by rw [Nat.mod_mod])
    exact trace_writes hw _ _ _ _ t
  · rw [if_neg hb]
    have hx : (if (c.ev_control1 % 256 % 256 &&& 0xC0) >>> 6 = BANK1 then c.ev_control1 % 256
        else c.ev_control1 % 256 % 256) = c.ev_control1 % 256 := by
      split
      · rfl
      · exact Nat.mod_mod _ _
    have t11 := trace_sel_ne hw _ c _ _ BANK2 (c.ev_control1 % 256) t10 (by decide)
      (by rw [Nat.mod_mod]; exact hb) hx
    have t := config_tail c hw _ _ _ t11 (bank_bits c.ev_control1 BANK2 (by decide)).1
      (low_bits_kept (c.ev_control1 % 256) (Nat.mod_lt _ (by norm_num)) BANK2 (by decide))
    have hw' := trace_writes hw _ _ _ _ t
    simp only [List.append_assoc, List.cons_append, List.nil_append] at hw' ⊢
    exact hw'

/-- C27: for a card that `avme470SetConfig` configured in ENHANCED mode (COS or
LEVEL), the register writes of `avme470Config` are, in order: the four bytes
of the mode-select sequence, the vector register (with the configured vector),
the mask register, the event control registers (after the switch to BANK1),
the debounce control, duration and clock registers (in BANK2), the switch to
BANK1 and the twelve writes to the six port registers, and last the interrupt
enable register with `INTEN`; no other write goes to the interrupt enable
register, so the vector write precedes the only enable write. -/
theorem avme470Config_write_order (ipac : Ipac) (pName : String) (card slot intHandler : Nat)
    (usrFunc : Option String) (vector event debounce : Nat) (blk c : config470) (hw : Hw)
    (hh : intHandler = COS ∨ intHandler = LEVEL)
    (hc : c = avme470SetConfig ipac pName card slot ENHANCED intHandler usrFunc vector event
      debounce blk) :
    c.vector = vector % 256 ∧
    (∃ A, writesOf (newAccesses hw (avme470Config c hw)) = A ++ [(ier c.brd_ptr, INTEN)] ∧
      (∀ w ∈ A, w.1 ≠ ier c.brd_ptr) ∧
      A.take 5 = [(b_select c.brd_ptr 7, 0x07), (b_select c.brd_ptr 7, 0x0D),
        (b_select c.brd_ptr 7, 0x06), (b_select c.brd_ptr 7, 0x12),
        (ivr c.brd_ptr, c.vector)]) ∧
    writesOf (newAccesses hw (avme470Config c hw)) =
      [(b_select c.brd_ptr 7, 0x07), (b_select c.brd_ptr 7, 0x0D),
       (b_select c.brd_ptr 7, 0x06), (b_select c.brd_ptr 7, 0x12),
       (ivr c.brd_ptr, c.vector),
       (b_select c.brd_ptr 7, 0),
       (b_select c.brd_ptr 7, 0x40),
       (b_select c.brd_ptr 6, c.ev_control0 % 256),
       (b_select c.brd_ptr 7, c.ev_control1 % 256)] ++
      (if (c.ev_control1 % 256 &&& 0xC0) >>> 6 = BANK2 then []
       else [(b_select c.brd_ptr 7, (c.ev_control1 % 256 &&& 0x3F) ||| 0x80)]) ++
      [(b_select c.brd_ptr 0, 0x3F),
       (b_select c.brd_ptr 1, debounce % 65536 &&& 0xFF),
       (b_select c.brd_ptr 2, ((debounce % 65536) >>> 8) &&& 0xF),
       (b_select c.brd_ptr 3, 1),
       (b_select c.brd_ptr 7, (c.ev_control1 % 256 &&& 0x3F) ||| 0x40),
       (b_select c.brd_ptr 0, 0), (b_select c.brd_ptr 0, 0xFF),
       (b_select c.brd_ptr 1, 0), (b_select c.brd_ptr 1, 0xFF),
       (b_select c.brd_ptr 2, 0), (b_select c.brd_ptr 2, 0xFF),
       (b_select c.brd_ptr 3, 0), (b_select c.brd_ptr 3, 0xFF),
       (b_select c.brd_ptr 4, 0), (b_select c.brd_ptr 4, 0xFF),
       (b_select c.brd_ptr 5, 0), (b_select c.brd_ptr 5, 0xFF),
       (ier c.brd_ptr, INTEN)] := by
  have hparam : c.param = PARAM_MASK_ENHANCED := by
    rw [hc]; rcases hh with h | h <;> subst h <;> simp [avme470SetConfig, ENHANCED, STANDARD, COS, LEVEL]
  have hmode : c.e_mode = ENHANCED := by
    rw [hc]; rcases hh with h | h <;> subst h <;> simp [avme470SetConfig, ENHANCED, STANDARD, COS, LEVEL]
  have hen : c.enable = INTEN := by
    rw [hc]; rcases hh with h | h <;> subst h <;> simp [avme470SetConfig, ENHANCED, STANDARD, COS, LEVEL]
  have hmask : c.mask_reg = 0 := by
    rw [hc]; rcases hh with h | h <;> subst h <;> simp [avme470SetConfig, ENHANCED, STANDARD, COS, LEVEL]
  have hvec : c.vector = vector % 256 := by
    rw [hc]; rcases hh with h | h <;> subst h <;> simp [avme470SetConfig, ENHANCED, STANDARD, COS, LEVEL]
  have hdc : c.deb_control = 0x3F := by
    rw [hc]; rcases hh with h | h <;> subst h <;> simp [avme470SetConfig, ENHANCED, STANDARD, COS, LEVEL]
  have hdd : c.deb_duration = debounce % 65536 := by
    rw [hc]; rcases hh with h | h <;> subst h <;> simp [avme470SetConfig, ENHANCED, STANDARD, COS, LEVEL]
  have hck : c.deb_clock = 1 := by
    rw [hc]; rcases hh with h | h <;> subst h <;> simp [avme470SetConfig, ENHANCED, STANDARD, COS, LEVEL]
  have key := config_enhanced_writes c hw hparam hmode hen hmask
  have hv2 : c.vector % 256 = c.vector := by rw [hvec, Nat.mod_mod]
  have h1 : (debounce % 65536 &&& 0xFF) % 256 = debounce % 65536 &&& 0xFF :=
    Nat.mod_eq_of_lt (Nat.lt_of_le_of_lt Nat.and_le_right (by norm_num))
  have h2 : (((debounce % 65536) >>> 8) &&& 0xF) % 256 = ((debounce % 65536) >>> 8) &&& 0xF :=
    Nat.mod_eq_of_lt (Nat.lt_of_le_of_lt Nat.and_le_right (by norm_num))
  have e63 : (0x3F : Nat) % 256 = 0x3F := rfl
  have e1 : (1 : Nat) % 256 = 1 := rfl
  rw [hv2, hdc, hdd, hck, h1, h2, e63, e1] at key
  have hne7 : ∀ q < 8, b_select c.brd_ptr q ≠ ier c.brd_ptr := fun q hq => ier_ne_b_select _ q hq
  have hnev : ivr c.brd_ptr ≠ ier c.brd_ptr := by unfold ivr ier; omega
  have hA : ∀ X : List (Nat × Nat),
      (∀ w ∈ X, w.1 = b_select c.brd_ptr 7) →
      ∃ A, [(b_select c.brd_ptr 7, 0x07), (b_select c.brd_ptr 7, 0x0D),
       (b_select c.brd_ptr 7, 0x06), (b_select c.brd_ptr 7, 0x12),
       (ivr c.brd_ptr, c.vector),
       (b_select c.brd_ptr 7, 0),
       (b_select c.brd_ptr 7, 0x40),
       (b_select c.brd_ptr 6, c.ev_control0 % 256),
       (b_select c.brd_ptr 7, c.ev_control1 % 256)] ++ X ++
      [(b_select c.brd_ptr 0, 0x3F),
       (b_select c.brd_ptr 1, debounce % 65536 &&& 0xFF),
       (b_select c.brd_ptr 2, ((debounce % 65536) >>> 8) &&& 0xF),
       (b_select c.brd_ptr 3, 1),
       (b_select c.brd_ptr 7, (c.ev_control1 % 256 &&& 0x3F) ||| 0x40),
       (b_select c.brd_ptr 0, 0), (b_select c.brd_ptr 0, 0xFF),
       (b_select c.brd_ptr 1, 0), (b_select c.brd_ptr 1, 0xFF),
       (b_select c.brd_ptr 2, 0), (b_select c.brd_ptr 2, 0xFF),
       (b_select c.brd_ptr 3, 0), (b_select c.brd_ptr 3, 0xFF),
       (b_select c.brd_ptr 4, 0), (b_select c.brd_ptr 4, 0xFF),
       (b_select c.brd_ptr 5, 0), (b_select c.brd_ptr 5, 0xFF),
       (ier c.brd_ptr, INTEN)] = A ++ [(ier c.brd_ptr, INTEN)] ∧
      (∀ w ∈ A, w.1 ≠ ier c.brd_ptr) ∧
      A.take 5 = [(b_select c.brd_ptr 7, 0x07), (b_select c.brd_ptr 7, 0x0D),
        (b_select c.brd_ptr 7, 0x06), (b_select c.brd_ptr 7, 0x12),
        (ivr c.brd_ptr, c.vector)] := by
    intro X hX
    refine ⟨[(b_select c.brd_ptr 7, 0x07), (b_select c.brd_ptr 7, 0x0D),
       (b_select c.brd_ptr 7, 0x06), (b_select c.brd_ptr 7, 0x12),
       (ivr c.brd_ptr, c.vector),
       (b_select c.brd_ptr 7, 0),
       (b_select c.brd_ptr 7, 0x40),
       (b_select c.brd_ptr 6, c.ev_control0 % 256),
       (b_select c.brd_ptr 7, c.ev_control1 % 256)] ++ X ++
      [(b_select c.brd_ptr 0, 0x3F),
       (b_select c.brd_ptr 1, debounce % 65536 &&& 0xFF),
       (b_select c.brd_ptr 2, ((debounce % 65536) >>> 8) &&& 0xF),
       (b_select c.brd_ptr 3, 1),
       (b_select c.brd_ptr 7, (c.ev_control1 % 256 &&& 0x3F) ||| 0x40),
       (b_select c.brd_ptr 0, 0), (b_select c.brd_ptr 0, 0xFF),
       (b_select c.brd_ptr 1, 0), (b_select c.brd_ptr 1, 0xFF),
       (b_select c.brd_ptr 2, 0), (b_select c.brd_ptr 2, 0xFF),
       (b_select c.brd_ptr 3, 0), (b_select c.brd_ptr 3, 0xFF),
       (b_select c.brd_ptr 4, 0), (b_select c.brd_ptr 4, 0xFF),
       (b_select c.brd_ptr 5, 0), (b_select c.brd_ptr 5, 0xFF)], ?_, ?_, rfl⟩
    · simp only [List.append_assoc, List.cons_append, List.nil_append]
    · intro w hmem
      rcases List.mem_append.mp hmem with hmem | hmem
      · rcases List.mem_append.mp hmem with hmem | hmem
        · simp only [List.mem_cons, List.mem_singleton, List.not_mem_nil, or_false] at hmem
          rcases hmem with h | h | h | h | h | h | h | h | h <;> rw [h] <;>
            first | exact hne7 _ (by omega) | exact hnev
        · rw [hX w hmem]
          exact hne7 7 (by omega)
      · simp only [List.mem_cons, List.mem_singleton, List.not_mem_nil, or_false] at hmem
        rcases hmem with h | h | h | h | h | h | h | h | h | h | h | h | h | h | h | h | h <;>
          rw [h] <;> exact hne7 _ (by omega)
  obtain ⟨A, hA1, hA2, hA3⟩ := hA
    (if (c.ev_control1 % 256 &&& 0xC0) >>> 6 = BANK2 then []
     else [(b_select c.brd_ptr 7, (c.ev_control1 % 256 &&& 0x3F) ||| 0x80)])
    (by
      intro w hmem
      split at hmem
      · exact absurd hmem (List.not_mem_nil _)
      · simp only [List.mem_singleton] at hmem
        rw [hmem])
  exact ⟨hvec, ⟨A, key.trans hA1, hA2, hA3⟩, key⟩

/-- C27 at "DIO1" as `avme470SetConfig` makes it for ENHANCED / COS with
vector 0x60, on the all-zero store: the writes of `avme470Config`, in order. -/
theorem avme470Config_write_order_witness :
    (COS = COS ∨ COS = LEVEL) ∧
      (avme470SetConfig okIpac "DIO1" 0 0 ENHANCED COS none 0x60 0 0 dio1).vector = 0x60 % 256 ∧
      writesOf (newAccesses zeroHw
          (avme470Config (avme470SetConfig okIpac "DIO1" 0 0 ENHANCED COS none 0x60 0 0 dio1)
            zeroHw)) =
        [(15, 0x07), (15, 0x0D), (15, 0x06), (15, 0x12), (47, 0x60), (15, 0), (15, 0x40),
         (13, 0xAA), (15, 0x0A), (15, 0x8A), (1, 0x3F), (3, 0), (5, 0), (7, 1), (15, 0x4A),
         (1, 0), (1, 0xFF), (3, 0), (3, 0xFF), (5, 0), (5, 0xFF), (7, 0), (7, 0xFF),
         (9, 0), (9, 0xFF), (11, 0), (11, 0xFF), (31, 1)] :=
  ⟨Or.inl rfl,
    (avme470Config_write_order okIpac "DIO1" 0 0 COS none 0x60 0 0 dio1 _ zeroHw (Or.inl rfl)
      rfl).1,
    by decide⟩

end Avme470

namespace Xy5320

/-! ## Correction transform -/

theorem correctSelect_valid (range gain : Nat) (a b c : ℚ)
    (hr : range = RANGE_5TO5 ∨ range = RANGE_10TO10 ∨ range = RANGE_0TO10)
    (hg : gain = GAIN_X1 ∨ gain = GAIN_X2 ∨ gain = GAIN_X4 ∨ gain = GAIN_X8) :
    correctSelect range gain a b c = idealValues range gain := by
  unfold idealValues correctSelect
  rcases hr with h | h | h <;> rcases hg with g | g | g | g <;> subst h <;> subst g <;>
    simp [RANGE_5TO5, RANGE_10TO10, RANGE_0TO10, GAIN_X1, GAIN_X2, GAIN_X4, GAIN_X8]

/-- For a valid range and gain the selected voltages differ, the span is not
zero, and the low voltage is 0 except for the range 0..10. -/
theorem idealValues_facts (range gain : Nat)
    (hr : range = RANGE_5TO5 ∨ range = RANGE_10TO10 ∨ range = RANGE_0TO10)
    (hg : gain = GAIN_X1 ∨ gain = GAIN_X2 ∨ gain = GAIN_X4 ∨ gain = GAIN_X8) :
    (idealValues range gain).1 - (idealValues range gain).2.1 ≠ 0 ∧
    (idealValues range gain).2.2.2 ≠ 0 ∧ (gain : ℚ) ≠ 0 ∧
    (idealValues range gain).2.1 = (if range = RANGE_0TO10 then 0.6125 else 0) ∧
    (idealValues range gain).2.2.1 =
      (if range = RANGE_5TO5 then -5 else if range = RANGE_10TO10 then -10 else 0) := by
  unfold idealValues correctSelect
  rcases hr with h | h | h <;> rcases hg with g | g | g | g <;> subst h <;> subst g <;>
    norm_num [RANGE_5TO5, RANGE_10TO10, RANGE_0TO10, GAIN_X1, GAIN_X2, GAIN_X4, GAIN_X8]

theorem correctLoop_spec (k : Nat) : ∀ (i0 : Nat) (h z s : ℚ) (c : config5320),
    (correctLoop k i0 h z s c).range = c.range ∧
    (correctLoop k i0 h z s c).s_array = c.s_array ∧
    (correctLoop k i0 h z s c).raw_data = c.raw_data ∧
    (correctLoop k i0 h z s c).az_data = c.az_data ∧
    (correctLoop k i0 h z s c).cal_data = c.cal_data ∧
    (correctLoop k i0 h z s c).bit_constant = c.bit_constant ∧
    (∀ i, i < i0 →
      (correctLoop k i0 h z s c).analogData i = c.analogData i ∧
      (correctLoop k i0 h z s c).cor_data i = c.cor_data i) ∧
    (∀ i, i0 ≤ i → i < i0 + k →
      (c.range = RANGE_5TO5 ∨ c.range = RANGE_10TO10 ∨ c.range = RANGE_0TO10) →
      ((c.s_array i).gain = GAIN_X1 ∨ (c.s_array i).gain = GAIN_X2 ∨
        (c.s_array i).gain = GAIN_X4 ∨ (c.s_array i).gain = GAIN_X8) →
      (correctLoop k i0 h z s c).analogData i =
        (idealValues c.range (c.s_array i).gain).2.2.2 *
          (correctTemp c i (idealValues c.range (c.s_array i).gain).1
              (idealValues c.range (c.s_array i).gain).2.1
              (idealValues c.range (c.s_array i).gain).2.2.1
              (idealValues c.range (c.s_array i).gain).2.2.2 / (c.bit_constant : ℚ))
          + (idealValues c.range (c.s_array i).gain).2.2.1 ∧
      (correctLoop k i0 h z s c).cor_data i =
        cTrunc (correctTemp c i (idealValues c.range (c.s_array i).gain).1
              (idealValues c.range (c.s_array i).gain).2.1
              (idealValues c.range (c.s_array i).gain).2.2.1
              (idealValues c.range (c.s_array i).gain).2.2.2)) := by
  induction k with
  | zero =>
    intro i0 h z s c
    refine ⟨rfl, rfl, rfl, rfl, rfl, rfl, fun i _ => ⟨rfl, rfl⟩, ?_⟩
    intro i h1 h2
    omega
  | succ k ih =>
    intro i0 h z s c
    unfold correctLoop
    simp only []
    obtain ⟨e1, e2, e3, e4, e5, e6, hlow, hhigh⟩ :=
      ih (i0 + 1) (correctSelect c.range (c.s_array i0).gain h z s).1
        (correctSelect c.range (c.s_array i0).gain h z s).2.2.1
        (correctSelect c.range (c.s_array i0).gain h z s).2.2.2
        { c with
          cor_data := fun n => if n = i0 then
              cTrunc (correctTemp c i0 (correctSelect c.range (c.s_array i0).gain h z s).1
                (correctSelect c.range (c.s_array i0).gain h z s).2.1
                (correctSelect c.range (c.s_array i0).gain h z s).2.2.1
                (correctSelect c.range (c.s_array i0).gain h z s).2.2.2)
            else c.cor_data n,
          analogData := fun n =>
            if n = i0 then
              ((correctSelect c.range (c.s_array i0).gain h z s).2.2.2 *
                (correctTemp c i0 (correctSelect c.range (c.s_array i0).gain h z s).1
                  (correctSelect c.range (c.s_array i0).gain h z s).2.1
                  (correctSelect c.range (c.s_array i0).gain h z s).2.2.1
                  (correctSelect c.range (c.s_array i0).gain h z s).2.2.2 /
                  (c.bit_constant : ℚ))) +
                (correctSelect c.range (c.s_array i0).gain h z s).2.2.1
            else c.analogData n }
    refine ⟨e1, e2, e3, e4, e5, e6, ?_, ?_⟩
    · intro i hi
      have := hlow i (by omega)
      have hne : i ≠ i0 := by omega
      simpa [hne] using this
    · intro i h1 h2 hr hg
      by_cases hi : i = i0
      · subst hi
        have := hlow i (by omega)
        simp only [if_true] at this
        rw [this.1, this.2, correctSelect_valid _ _ _ _ _ hr hg]
        exact ⟨rfl, rfl⟩
      · have := hhigh i (by omega) (by omega) hr hg
        exact this

/-- The analog value and the integer value `xy5320CorrectInputs` stores for a
configured channel with a valid range and gain, for calibrated readings that
differ: a two-point line through (az, gain*callo) and (cal, gain*calhi). -/
theorem correctInputs_affine (u : Uninit) (c : config5320) (i : Nat)
    (hi : (i : Int) < c.numChannels)
    (hr : c.range = RANGE_5TO5 ∨ c.range = RANGE_10TO10 ∨ c.range = RANGE_0TO10)
    (hg : (c.s_array i).gain = GAIN_X1 ∨ (c.s_array i).gain = GAIN_X2 ∨
      (c.s_array i).gain = GAIN_X4 ∨ (c.s_array i).gain = GAIN_X8)
    (hne : c.cal_data i ≠ c.az_data i) (hb : c.bit_constant ≠ 0) :
    (xy5320CorrectInputs u c).analogData i =
      correctSlope c i (idealValues c.range (c.s_array i).gain).1
          (idealValues c.range (c.s_array i).gain).2.1
        * ((c.raw_data i : ℚ) - (c.az_data i : ℚ))
        + ((c.s_array i).gain : ℚ) * (idealValues c.range (c.s_array i).gain).2.1 ∧
    (xy5320CorrectInputs u c).cor_data i =
      cTrunc (correctTemp c i (idealValues c.range (c.s_array i).gain).1
              (idealValues c.range (c.s_array i).gain).2.1
              (idealValues c.range (c.s_array i).gain).2.2.1
              (idealValues c.range (c.s_array i).gain).2.2.2) := by
  have hk : i < 0 + c.numChannels.toNat := by omega
  obtain ⟨_, _, _, _, _, _, _, hhigh⟩ :=
    correctLoop_spec c.numChannels.toNat 0 u.calhi u.i_zero u.i_span c
  obtain ⟨ha, hc⟩ := hhigh i (Nat.zero_le _) hk hr hg
  obtain ⟨f1, f2, f3, _, _⟩ := idealValues_facts c.range (c.s_array i).gain hr hg
  unfold xy5320CorrectInputs
  refine ⟨?_, hc⟩
  rw [ha]
  have hd : (((c.cal_data i : Int) - (c.az_data i : Int) : Int) : ℚ) ≠ 0 := by
    intro h0
    have h1 : ((c.cal_data i : Int) - (c.az_data i : Int)) = 0 := by exact_mod_cast h0
    apply hne
    omega
  have hbq : (c.bit_constant : ℚ) ≠ 0 := by exact_mod_cast hb
  have hs : correctSlope c i (idealValues c.range (c.s_array i).gain).1
      (idealValues c.range (c.s_array i).gain).2.1 ≠ 0 := by
    unfold correctSlope
    exact div_ne_zero (mul_ne_zero f3 f1) hd
  unfold correctTemp
  field_simp
  ring
/-- C14 (as stated, refuted): for the card "AI1" (range -5..5, gain 1) with
auto-zero reading 0, calibration reading 1000 and raw reading 0 = auto-zero,
`xy5320CorrectInputs` stores the analog value 0, not the ideal zero -5. -/
theorem xy5320CorrectInputs_auto_zero_is_not_ideal_zero :
    ai1Cal.range = RANGE_5TO5 ∧ (ai1Cal.s_array 0).gain = GAIN_X1 ∧
    ai1Cal.raw_data 0 = ai1Cal.az_data 0 ∧ ai1Cal.cal_data 0 ≠ ai1Cal.az_data 0 ∧
    (xy5320CorrectInputs zeroUninit ai1Cal).analogData 0 = 0 ∧
    (xy5320CorrectInputs zeroUninit ai1Cal).analogData 0 ≠ -5 := by
  have hr : ai1Cal.range = RANGE_5TO5 := by decide
  have hg : (ai1Cal.s_array 0).gain = GAIN_X1 := by decide
  have h := (correctInputs_affine zeroUninit ai1Cal 0 (by decide) (Or.inl hr) (Or.inl hg)
    (by decide) (by decide)).1
  have hraw : ai1Cal.raw_data 0 = 0 := by decide
  have haz : ai1Cal.az_data 0 = 0 := by decide
  have hlo := (idealValues_facts ai1Cal.range (ai1Cal.s_array 0).gain (Or.inl hr)
    (Or.inl hg)).2.2.2.1
  have h3 : ¬ (ai1Cal.range = RANGE_0TO10) := by decide
  rw [if_neg h3] at hlo
  have h0 : (xy5320CorrectInputs zeroUninit ai1Cal).analogData 0 = 0 := by
    rw [h, hlo, hraw, haz]
    simp
  refine ⟨hr, hg, by decide, by decide, h0, ?_⟩
  rw [h0]
  norm_num

/-- C14 (amended): with arithmetic taken exactly, for a configured channel `i`
of a card with a valid range and gain, a non-zero bit constant and
`cal_data[i]` different from `az_data[i]`: if `raw_data[i]` equals `az_data[i]`
then the analog value `xy5320CorrectInputs` stores for channel `i` equals
`gain * callo`, which is 0 for the ranges -5..5 and -10..10 and `gain * 0.6125`
for the range 0..10. -/
theorem xy5320CorrectInputs_at_auto_zero (u : Uninit) (c : config5320) (i : Nat)
    (hi : (i : Int) < c.numChannels)
    (hr : c.range = RANGE_5TO5 ∨ c.range = RANGE_10TO10 ∨ c.range = RANGE_0TO10)
    (hg : (c.s_array i).gain = GAIN_X1 ∨ (c.s_array i).gain = GAIN_X2 ∨
      (c.s_array i).gain = GAIN_X4 ∨ (c.s_array i).gain = GAIN_X8)
    (hne : c.cal_data i ≠ c.az_data i) (hb : c.bit_constant ≠ 0)
    (hraw : c.raw_data i = c.az_data i) :
    (xy5320CorrectInputs u c).analogData i
      = ((c.s_array i).gain : ℚ) * (idealValues c.range (c.s_array i).gain).2.1 ∧
    ((c.range = RANGE_5TO5 ∨ c.range = RANGE_10TO10) →
      (xy5320CorrectInputs u c).analogData i = 0) ∧
    (c.range = RANGE_0TO10 →
      (xy5320CorrectInputs u c).analogData i = ((c.s_array i).gain : ℚ) * 0.6125) := by
  have h := (correctInputs_affine u c i hi hr hg hne hb).1
  have hlo := (idealValues_facts c.range (c.s_array i).gain hr hg).2.2.2.1
  have h0 : (xy5320CorrectInputs u c).analogData i
      = ((c.s_array i).gain : ℚ) * (idealValues c.range (c.s_array i).gain).2.1 := by
    rw [h, hraw]
    simp
  refine ⟨h0, ?_, ?_⟩
  · intro h12
    have h3 : ¬ (c.range = RANGE_0TO10) := by
      rcases h12 with h | h <;> rw [h] <;> decide
    rw [h0, hlo, if_neg h3]
    simp
  · intro h3
    rw [h0, hlo, if_pos h3]

theorem xy5320CorrectInputs_at_auto_zero_witness :
    ((0 : Nat) : Int) < ai1Cal.numChannels ∧ ai1Cal.cal_data 0 ≠ ai1Cal.az_data 0 ∧
    ai1Cal.raw_data 0 = ai1Cal.az_data 0 ∧
    (xy5320CorrectInputs zeroUninit ai1Cal).analogData 0
      = ((ai1Cal.s_array 0).gain : ℚ) * (idealValues ai1Cal.range (ai1Cal.s_array 0).gain).2.1 :=
  ⟨by decide, by decide, by decide,
   (xy5320CorrectInputs_at_auto_zero zeroUninit ai1Cal 0 (by decide) (Or.inl (by decide))
      (Or.inl (by decide)) (by decide) (by decide) (by decide)).1⟩

/-- C15: with arithmetic taken exactly, for a configured channel `i` of a card
with a valid range and gain, a non-zero bit constant and `cal_data[i]`
different from `az_data[i]`: the analog value `xy5320CorrectInputs` stores is
`slope * (raw_data[i] - az_data[i]) + gain * callo` with
`slope = gain * (calhi - callo) / (cal_data[i] - az_data[i])`, an affine
function of `raw_data[i]`; it equals `gain * callo` when `raw_data[i]` is
`az_data[i]` and `gain * calhi` when `raw_data[i]` is `cal_data[i]`, where
(`calhi`, `callo`) is the table entry selected for (range, gain). The integer
value stored is `(bit_constant * slope / i_span) * (raw + ((callo * gain -
i_zero) / slope) - az)` truncated toward zero. -/
theorem xy5320CorrectInputs_two_point (u : Uninit) (c : config5320) (i : Nat)
    (hi : (i : Int) < c.numChannels)
    (hr : c.range = RANGE_5TO5 ∨ c.range = RANGE_10TO10 ∨ c.range = RANGE_0TO10)
    (hg : (c.s_array i).gain = GAIN_X1 ∨ (c.s_array i).gain = GAIN_X2 ∨
      (c.s_array i).gain = GAIN_X4 ∨ (c.s_array i).gain = GAIN_X8)
    (hne : c.cal_data i ≠ c.az_data i) (hb : c.bit_constant ≠ 0) :
    (xy5320CorrectInputs u c).analogData i =
      (((c.s_array i).gain : ℚ)
          * ((idealValues c.range (c.s_array i).gain).1
              - (idealValues c.range (c.s_array i).gain).2.1)
          / ((c.cal_data i : ℚ) - (c.az_data i : ℚ)))
        * ((c.raw_data i : ℚ) - (c.az_data i : ℚ))
        + ((c.s_array i).gain : ℚ) * (idealValues c.range (c.s_array i).gain).2.1 ∧
    (c.raw_data i = c.az_data i →
      (xy5320CorrectInputs u c).analogData i
        = ((c.s_array i).gain : ℚ) * (idealValues c.range (c.s_array i).gain).2.1) ∧
    (c.raw_data i = c.cal_data i →
      (xy5320CorrectInputs u c).analogData i
        = ((c.s_array i).gain : ℚ) * (idealValues c.range (c.s_array i).gain).1) ∧
    (xy5320CorrectInputs u c).cor_data i =
      cTrunc ((((c.bit_constant : ℚ)
            * (((c.s_array i).gain : ℚ)
                * ((idealValues c.range (c.s_array i).gain).1
                    - (idealValues c.range (c.s_array i).gain).2.1)
                / ((c.cal_data i : ℚ) - (c.az_data i : ℚ))))
          / (idealValues c.range (c.s_array i).gain).2.2.2)
        * ((c.raw_data i : ℚ)
            + (((idealValues c.range (c.s_array i).gain).2.1 * ((c.s_array i).gain : ℚ))
                - (idealValues c.range (c.s_array i).gain).2.2.1)
              / (((c.s_array i).gain : ℚ)
                  * ((idealValues c.range (c.s_array i).gain).1
                      - (idealValues c.range (c.s_array i).gain).2.1)
                  / ((c.cal_data i : ℚ) - (c.az_data i : ℚ)))
            - (c.az_data i : ℚ))) := by
  obtain ⟨ha, hc⟩ := correctInputs_affine u c i hi hr hg hne hb
  have hsl : correctSlope c i (idealValues c.range (c.s_array i).gain).1
      (idealValues c.range (c.s_array i).gain).2.1
      = ((c.s_array i).gain : ℚ)
          * ((idealValues c.range (c.s_array i).gain).1
              - (idealValues c.range (c.s_array i).gain).2.1)
          / ((c.cal_data i : ℚ) - (c.az_data i : ℚ)) := by
    unfold correctSlope
    push_cast
    rfl
  have hd : (c.cal_data i : ℚ) - (c.az_data i : ℚ) ≠ 0 := by
    intro h0
    apply hne
    have : (c.cal_data i : ℚ) = (c.az_data i : ℚ) := by linarith
    exact_mod_cast this
  rw [hsl] at ha
  refine ⟨ha, ?_, ?_, ?_⟩
  · intro h
    rw [ha, h]
    simp
  · intro h
    rw [ha, h]
    field_simp
    ring
  · rw [hc]
    unfold correctTemp
    rw [hsl]

theorem xy5320CorrectInputs_two_point_witness :
    ((0 : Nat) : Int) < ai1Cal.numChannels ∧ ai1Cal.cal_data 0 ≠ ai1Cal.az_data 0 ∧
    ai1Cal.bit_constant ≠ 0 ∧
    (ai1Cal.raw_data 0 = ai1Cal.az_data 0 →
      (xy5320CorrectInputs zeroUninit ai1Cal).analogData 0
        = ((ai1Cal.s_array 0).gain : ℚ)
            * (idealValues ai1Cal.range (ai1Cal.s_array 0).gain).2.1) :=
  ⟨by decide, by decide, by decide,
   (xy5320CorrectInputs_two_point zeroUninit ai1Cal 0 (by decide) (Or.inl (by decide))
      (Or.inl (by decide)) (by decide) (by decide)).2.1⟩

/-! ## Registry and channel lookup -/

theorem findChannelLoop_none (c : config5320) (channel : Int)
    (hno : ∀ i : Nat, (i : Int) < c.numChannels → ((c.s_array i).chan : Int) ≠ channel)
    (fuel : Nat) : ∀ i : Nat, findChannelLoop c channel fuel i = none := by
  induction fuel with
  | zero => intro i; rfl
  | succ fuel ih =>
    intro i
    unfold findChannelLoop
    by_cases h : (i : Int) < c.numChannels
    · rw [if_pos h, if_neg (hno i h)]
      exact ih (i + 1)
    · rw [if_neg h]

/-- C13: for a registered card and every channel number that does not occur
among its configured channels, `xy5320ReadChannel` returns
`S_xy5320_invalidChannel`, stores nothing through `prval`, and leaves the
registry, hence every buffer of every card, as it was. -/
theorem xy5320ReadChannel_unconfigured (registry : List config5320) (name : String)
    (c : config5320) (hfind : xy5320FindCard registry name = some c) (channel : Int)
    (ftvl : Nat)
    (hno : ∀ i : Nat, (i : Int) < c.numChannels → ((c.s_array i).chan : Int) ≠ channel) :
    xy5320ReadChannel registry name channel ftvl
      = (S_xy5320_invalidChannel, none, registry) := by
  have hs : S_xy5320_invalidChannel ≠ 0 := by decide
  unfold xy5320ReadChannel
  rw [hfind]
  simp only [xy5320FindChannel, findChannelLoop_none c channel hno, ne_eq, hs,
    not_false_eq_true, if_true]

theorem ai1_channels (i : Nat) (hi : (i : Int) < ai1.numChannels) :
    ((ai1.s_array i).chan : Int) ≠ 99 := by
  have h2 : ai1.numChannels = 2 := by decide
  rw [h2] at hi
  have h01 : i = 0 ∨ i = 1 := by omega
  rcases h01 with h | h <;> subst h <;> decide

theorem xy5320ReadChannel_unconfigured_witness :
    xy5320FindCard [ai1] "AI1" = some ai1 ∧
    xy5320ReadChannel [ai1] "AI1" 99 TYPE_DOUBLE = (S_xy5320_invalidChannel, none, [ai1]) :=
  ⟨rfl, xy5320ReadChannel_unconfigured [ai1] "AI1" ai1 rfl 99 TYPE_DOUBLE ai1_channels⟩

/-- On a non-empty list a failing `xy5320Create` returns the list unchanged. -/
theorem xy5320Create_failure_nonempty (env : Env) (malloc : Option config5320)
    (first : config5320) (pnext : List config5320) (pName : String) (card slot : Nat)
    (voltRangeName modeName : String) (numSamples : Int) (filename : String)
    (hfail : (xy5320Create env malloc (first :: pnext) pName card slot voltRangeName modeName
      numSamples filename).1 ≠ OK) :
    (xy5320Create env malloc (first :: pnext) pName card slot voltRangeName modeName
      numSamples filename).2 = first :: pnext := by
  unfold xy5320Create at hfail ⊢
  simp only [] at hfail ⊢
  by_cases h1 : voltRangeName ≠ "-5TO5" ∧ voltRangeName ≠ "-10TO10" ∧ voltRangeName ≠ "0TO10"
  · rw [if_pos h1]
  · rw [if_neg h1] at hfail ⊢
    by_cases h2 : modeName ≠ "DIF" ∧ modeName ≠ "SE"
    · rw [if_pos h2]
    · rw [if_neg h2] at hfail ⊢
      by_cases h3 : env.ipac.ipmValidate card slot IP_MANUFACTURER_XYCOM IP_MODEL_XYCOM_5320 ≠ 0
      · rw [if_pos h3]
      · rw [if_neg h3] at hfail ⊢
        by_cases h4 : xy5320Duplicate pName card slot (first :: pnext) = true
        · rw [if_pos h4]
        · rw [if_neg h4] at hfail ⊢
          cases malloc with
          | none => rfl
          | some blk =>
            simp only [] at hfail ⊢
            split_ifs at hfail ⊢ <;> first | rfl | exact absurd rfl hfail

/-- C12 (code at the failing input): on the empty list, a create whose file
cannot be opened returns `S_xy5320_fileOpenFailed`, yet the list afterwards
holds the allocated block, marked `startTasks = 0`. -/
theorem xy5320Create_failure_on_empty_list :
    (xy5320Create (fileEnv "0 1\n1 1\n") (some (blockWith 0)) [] "AI1" 0 0 "-5TO5" "DIF" 16
      "absent.cfg").1 = S_xy5320_fileOpenFailed ∧
    S_xy5320_fileOpenFailed ≠ OK ∧
    (xy5320Create (fileEnv "0 1\n1 1\n") (some (blockWith 0)) [] "AI1" 0 0 "-5TO5" "DIF" 16
      "absent.cfg").2.length = 1 ∧
    (xy5320Create (fileEnv "0 1\n1 1\n") (some (blockWith 0)) [] "AI1" 0 0 "-5TO5" "DIF" 16
      "absent.cfg").2.map (fun c => c.startTasks) = [0] := by
  decide

/-- C20 (code at the failing input): the card "AI1" is created (status OK) in a
block whose `analogData` entries held 7; it is never calibrated. After three
passes of the read task `xy5320ReadChannel` returns OK with the integer value 0
for TYPE_LONG, but with 7 for TYPE_DOUBLE: `xy5320SetConfig` zeroes `raw_data`,
`az_data`, `cal_data` and `cor_data`, not `analogData`. -/
theorem xy5320ReadChannel_uncalibrated_double :
    (xy5320Create (fileEnv "0 1\n1 1\n") (some (blockWith 7)) [] "AI1" 0 0 "-5TO5" "DIF" 16
      "chan.cfg").1 = OK ∧
    ((xy5320Create (fileEnv "0 1\n1 1\n") (some (blockWith 7)) [] "AI1" 0 0 "-5TO5" "DIF" 16
      "chan.cfg").2.map (fun c => c.cal)) = [0] ∧
    (xy5320ReadTaskPasses zeroUninit 100 3
      (xy5320Create (fileEnv "0 1\n1 1\n") (some (blockWith 7)) [] "AI1" 0 0 "-5TO5" "DIF" 16
        "chan.cfg").2 zeroBus).map
        (fun r => ((xy5320ReadChannel r.1 "AI1" 0 TYPE_LONG).1,
                   (xy5320ReadChannel r.1 "AI1" 0 TYPE_LONG).2.1))
      = some (OK, some (Value.long 0)) ∧
    (xy5320ReadTaskPasses zeroUninit 100 3
      (xy5320Create (fileEnv "0 1\n1 1\n") (some (blockWith 7)) [] "AI1" 0 0 "-5TO5" "DIF" 16
        "chan.cfg").2 zeroBus).map
        (fun r => ((xy5320ReadChannel r.1 "AI1" 0 TYPE_DOUBLE).1,
                   (xy5320ReadChannel r.1 "AI1" 0 TYPE_DOUBLE).2.1))
      = some (OK, some (Value.double 7)) := by
  decide

/-! ## The channel file -/

theorem status_ne_zero :
    S_xy5320_fileFormatError ≠ 0 ∧ S_xy5320_tooManyChannels ≠ 0 ∧
    S_xy5320_invalidChannel ≠ 0 ∧ S_xy5320_invalidGain ≠ 0 ∧ S_xy5320_noChannels ≠ 0 ∧
    S_xy5320_semFailed ≠ 0 ∧ S_xy5320_fileOpenFailed ≠ 0 := by
  decide

/-- When the loop of `xy5320SetConfig` ends with status 0, every buffer was
parsed, passed the checks and was entered at its position. -/
theorem setConfigLoop_ok (pre : Char) (maxChannels : Int) :
    ∀ (lines : List (List Char)) (numRead : Nat) (sa : Nat → scan_array),
    (xy5320SetConfigLoop pre maxChannels lines numRead sa).1 = 0 →
    (xy5320SetConfigLoop pre maxChannels lines numRead sa).2.1 = numRead + lines.length ∧
    (lines ≠ [] → ((numRead + lines.length : Nat) : Int) ≤ maxChannels) ∧
    (∀ k, k < numRead → (xy5320SetConfigLoop pre maxChannels lines numRead sa).2.2 k = sa k) ∧
    (∀ i buffer, lines[i]? = some buffer →
      ∃ cc gg, xy5320ParseLine pre buffer = some (cc, gg) ∧ 0 ≤ cc ∧ cc ≤ maxChannels - 1 ∧
        (gg = GAIN_X1 ∨ gg = GAIN_X2 ∨ gg = GAIN_X4 ∨ gg = GAIN_X8) ∧
        (xy5320SetConfigLoop pre maxChannels lines numRead sa).2.2 (numRead + i)
          = { chan := cc.toNat, gain := gg.toNat }) := by
  have hs := status_ne_zero
  intro lines
  induction lines with
  | nil =>
    intro numRead sa _
    refine ⟨rfl, fun h => absurd rfl h, fun _ _ => rfl, ?_⟩
    intro i buffer h
    simp at h
  | cons b rest ih =>
    intro numRead sa h0
    unfold xy5320SetConfigLoop at h0 ⊢
    cases hp : xy5320ParseLine pre b with
    | none =>
      rw [hp] at h0
      exact absurd h0 hs.1
    | some p =>
      obtain ⟨cc, gg⟩ := p
      rw [hp] at h0
      simp only [] at h0 ⊢
      by_cases h1 : (numRead : Int) > maxChannels - 1
      · rw [if_pos h1] at h0; exact absurd h0 hs.2.1
      · rw [if_neg h1] at h0 ⊢
        by_cases h2 : cc < 0 ∨ cc > maxChannels - 1
        · rw [if_pos h2] at h0; exact absurd h0 hs.2.2.1
        · rw [if_neg h2] at h0 ⊢
          by_cases h3 : gg ≠ GAIN_X1 ∧ gg ≠ GAIN_X2 ∧ gg ≠ GAIN_X4 ∧ gg ≠ GAIN_X8
          · rw [if_pos h3] at h0; exact absurd h0 hs.2.2.2.1
          · rw [if_neg h3] at h0 ⊢
            obtain ⟨e1, e2, e3, e4⟩ := ih (numRead + 1) _ h0
            have hg : gg = GAIN_X1 ∨ gg = GAIN_X2 ∨ gg = GAIN_X4 ∨ gg = GAIN_X8 := by
              by_contra hc
              apply h3
              refine ⟨fun h => hc (Or.inl h), fun h => hc (Or.inr (Or.inl h)),
                fun h => hc (Or.inr (Or.inr (Or.inl h))),
                fun h => hc (Or.inr (Or.inr (Or.inr h)))⟩
            refine ⟨?_, ?_, ?_, ?_⟩
            · rw [e1, List.length_cons]; omega
            · intro _
              by_cases hr : rest = []
              · subst hr
                simp only [List.length_cons, List.length_nil]
                push_cast
                omega
              · have := e2 hr
                simp only [List.length_cons]
                push_cast at this ⊢
                omega
            · intro k hk
              rw [e3 k (by omega)]
              have hne : k ≠ numRead := by omega
              simp only [hne, if_false]
            · intro i buffer hi
              cases i with
              | zero =>
                simp only [List.getElem?_cons_zero, Option.some.injEq] at hi
                subst hi
                refine ⟨cc, gg, hp, by omega, by omega, hg, ?_⟩
                have q := e3 numRead (by omega)
                simp only [if_true] at q
                simpa using q
              | succ i =>
                simp only [List.getElem?_cons_succ] at hi
                obtain ⟨cc', gg', q1, q2, q3, q4, q5⟩ := e4 i buffer hi
                refine ⟨cc', gg', q1, q2, q3, q4, ?_⟩
                rw [show numRead + (i + 1) = numRead + 1 + i from by omega]
                exact q5

/-- Buffers that pass the checks, with room for them, are stepped over by the
loop of `xy5320SetConfig`. -/
theorem setConfigLoop_prefix (pre : Char) (maxChannels : Int) :
    ∀ (good rest : List (List Char)) (numRead : Nat) (sa : Nat → scan_array),
    (∀ b ∈ good, lineAccepted pre maxChannels b = true) →
    ((numRead + good.length : Nat) : Int) ≤ maxChannels →
    ∃ sa', xy5320SetConfigLoop pre maxChannels (good ++ rest) numRead sa
      = xy5320SetConfigLoop pre maxChannels rest (numRead + good.length) sa' := by
  intro good
  induction good with
  | nil =>
    intro rest numRead sa _ _
    exact ⟨sa, rfl⟩
  | cons b good ih =>
    intro rest numRead sa hacc hlen
    have hb := hacc b (List.mem_cons_self _ _)
    unfold lineAccepted at hb
    cases hp : xy5320ParseLine pre b with
    | none => rw [hp] at hb; cases hb
    | some p =>
      obtain ⟨cc, gg⟩ := p
      rw [hp] at hb
      simp only [decide_eq_true_eq] at hb
      obtain ⟨c1, c2, c3⟩ := hb
      simp only [List.length_cons] at hlen
      push_cast at hlen
      have h1 : ¬ ((numRead : Int) > maxChannels - 1) := by omega
      have h2 : ¬ (cc < 0 ∨ cc > maxChannels - 1) := by omega
      have h3 : ¬ (gg ≠ GAIN_X1 ∧ gg ≠ GAIN_X2 ∧ gg ≠ GAIN_X4 ∧ gg ≠ GAIN_X8) := by
        rintro ⟨n1, n2, n3, n4⟩
        rcases c3 with h | h | h | h
        · exact n1 h
        · exact n2 h
        · exact n3 h
        · exact n4 h
      obtain ⟨sa', hsa⟩ := ih rest (numRead + 1)
        (fun k => if k = numRead then { chan := cc.toNat, gain := gg.toNat } else sa k)
        (fun b' hb' => hacc b' (List.mem_cons_of_mem _ hb'))
        (by push_cast; omega)
      refine ⟨sa', ?_⟩
      rw [List.cons_append]
      conv_lhs => unfold xy5320SetConfigLoop
      rw [hp]
      simp only []
      rw [if_neg h1, if_neg h2, if_neg h3, hsa, List.length_cons]
      congr 1
      omega

theorem setConfig_none (env : Env) (pName : String) (card slot : Nat) (blk : config5320)
    (voltRange mode numSamples : Int) (filename : String) (hf : env.fopen filename = none) :
    (xy5320SetConfig env pName card slot blk voltRange mode numSamples filename).1
      = S_xy5320_fileOpenFailed := by
  have hs := status_ne_zero
  unfold xy5320SetConfig
  simp only [hf, ne_eq, hs.2.2.2.2.2.2, not_false_eq_true, if_true]

/-- The status of `xy5320SetConfig` in terms of the exit of its line loop, and
the configured list on success. -/
theorem setConfig_some (env : Env) (pName : String) (card slot : Nat) (blk : config5320)
    (voltRange mode numSamples : Int) (filename : String) (content : List Char)
    (hf : env.fopen filename = some content) :
    ((xy5320SetConfigLoop env.pre (maxChannelsFor mode) (fileBuffers content) 0
        blk.s_array).1 ≠ 0 →
      (xy5320SetConfig env pName card slot blk voltRange mode numSamples filename).1
        = (xy5320SetConfigLoop env.pre (maxChannelsFor mode) (fileBuffers content) 0
            blk.s_array).1) ∧
    ((xy5320SetConfigLoop env.pre (maxChannelsFor mode) (fileBuffers content) 0
        blk.s_array).1 = 0 →
      ((xy5320SetConfigLoop env.pre (maxChannelsFor mode) (fileBuffers content) 0
          blk.s_array).2.1 = 0 →
        (xy5320SetConfig env pName card slot blk voltRange mode numSamples filename).1
          = S_xy5320_noChannels) ∧
      ((xy5320SetConfigLoop env.pre (maxChannelsFor mode) (fileBuffers content) 0
          blk.s_array).2.1 ≠ 0 →
        (env.semMCreate = 0 →
          (xy5320SetConfig env pName card slot blk voltRange mode numSamples filename).1
            = S_xy5320_semFailed) ∧
        (env.semMCreate ≠ 0 →
          (xy5320SetConfig env pName card slot blk voltRange mode numSamples filename).1 = 0 ∧
          (xy5320SetConfig env pName card slot blk voltRange mode numSamples
              filename).2.numChannels
            = ((xy5320SetConfigLoop env.pre (maxChannelsFor mode) (fileBuffers content) 0
                blk.s_array).2.1 : Nat) ∧
          (xy5320SetConfig env pName card slot blk voltRange mode numSamples filename).2.s_array
            = (xy5320SetConfigLoop env.pre (maxChannelsFor mode) (fileBuffers content) 0
                blk.s_array).2.2))) := by
  have hs := status_ne_zero
  unfold xy5320SetConfig maxChannelsFor fileBuffers
  simp only [hf]
  refine ⟨?_, ?_⟩
  · intro h
    simp only [h, ne_eq, not_false_eq_true, if_true, if_false]
  · intro h
    refine ⟨?_, ?_⟩
    · intro h0
      simp only [h, h0, ne_eq, hs.2.2.2.2.1, not_false_eq_true, if_true]
    · intro h0
      refine ⟨?_, ?_⟩
      · intro hsem
        simp only [h, h0, hsem, ne_eq, hs.2.2.2.2.2.1, not_false_eq_true, if_true, if_false]
      · intro hsem
        simp only [h, h0, hsem, ne_eq, not_true_eq_false, not_false_eq_true, if_true,
          if_false, and_self]

/-- A successful `xy5320SetConfig` read a file, every buffer of which was
parsed, passed the checks and was entered at its position. -/
theorem setConfig_ok (env : Env) (pName : String) (card slot : Nat) (blk : config5320)
    (voltRange mode numSamples : Int) (filename : String)
    (hok : (xy5320SetConfig env pName card slot blk voltRange mode numSamples filename).1 = 0) :
    ∃ content, env.fopen filename = some content ∧
      (xy5320SetConfig env pName card slot blk voltRange mode numSamples
          filename).2.numChannels = ((fileBuffers content).length : Nat) ∧
      fileBuffers content ≠ [] ∧
      (((fileBuffers content).length : Nat) : Int) ≤ maxChannelsFor mode ∧
      (∀ i buffer, (fileBuffers content)[i]? = some buffer →
        ∃ cc gg, xy5320ParseLine env.pre buffer = some (cc, gg) ∧ 0 ≤ cc ∧
          cc ≤ maxChannelsFor mode - 1 ∧
          (gg = GAIN_X1 ∨ gg = GAIN_X2 ∨ gg = GAIN_X4 ∨ gg = GAIN_X8) ∧
          (xy5320SetConfig env pName card slot blk voltRange mode numSamples
              filename).2.s_array i = { chan := cc.toNat, gain := gg.toNat }) := by
  have hs := status_ne_zero
  cases hf : env.fopen filename with
  | none =>
    rw [setConfig_none env pName card slot blk voltRange mode numSamples filename hf] at hok
    exact absurd hok hs.2.2.2.2.2.2
  | some content =>
    obtain ⟨s1, s2⟩ := setConfig_some env pName card slot blk voltRange mode numSamples
      filename content hf
    by_cases hl : (xy5320SetConfigLoop env.pre (maxChannelsFor mode) (fileBuffers content) 0
        blk.s_array).1 = 0
    · obtain ⟨s3, s4⟩ := s2 hl
      obtain ⟨e1, e2, _, e4⟩ := setConfigLoop_ok env.pre (maxChannelsFor mode)
        (fileBuffers content) 0 blk.s_array hl
      by_cases hn : (xy5320SetConfigLoop env.pre (maxChannelsFor mode) (fileBuffers content) 0
          blk.s_array).2.1 = 0
      · rw [s3 hn] at hok
        exact absurd hok hs.2.2.2.2.1
      · obtain ⟨s5, s6⟩ := s4 hn
        by_cases hsem : env.semMCreate = 0
        · rw [s5 hsem] at hok
          exact absurd hok hs.2.2.2.2.2.1
        · obtain ⟨_, q2, q3⟩ := s6 hsem
          have hne : fileBuffers content ≠ [] := by
            intro h
            apply hn
            rw [e1, h]
            rfl
          refine ⟨content, rfl, ?_, hne, ?_, ?_⟩
          · rw [q2, e1, Nat.zero_add]
          · have := e2 hne
            rw [Nat.zero_add] at this
            exact this
          · intro i buffer hi
            obtain ⟨cc, gg, p1, p2, p3, p4, p5⟩ := e4 i buffer hi
            refine ⟨cc, gg, p1, p2, p3, p4, ?_⟩
            rw [q3]
            rw [Nat.zero_add] at p5
            exact p5
    · rw [s1 hl] at hok
      exact absurd hok hl

/-- The status of `xy5320SetConfig` when the first buffers of the file pass the
checks: it is the status of the loop from the first buffer that remains. -/
theorem setConfig_after_prefix (env : Env) (pName : String) (card slot : Nat)
    (blk : config5320) (voltRange mode numSamples : Int) (filename : String)
    (content : List Char) (good : List (List Char)) (line : List Char)
    (rest : List (List Char))
    (hf : env.fopen filename = some content)
    (hl : fileBuffers content = good ++ line :: rest)
    (hacc : ∀ b ∈ good, lineAccepted env.pre (maxChannelsFor mode) b = true)
    (hlen : ((good.length : Nat) : Int) ≤ maxChannelsFor mode)
    (hbad : ∀ sa, (xy5320SetConfigLoop env.pre (maxChannelsFor mode) (line :: rest)
      good.length sa).1 ≠ 0) :
    ∃ sa, (xy5320SetConfig env pName card slot blk voltRange mode numSamples filename).1
      = (xy5320SetConfigLoop env.pre (maxChannelsFor mode) (line :: rest) good.length sa).1 := by
  obtain ⟨sa', hsa⟩ := setConfigLoop_prefix env.pre (maxChannelsFor mode) good (line :: rest) 0
    blk.s_array hacc (by rw [Nat.zero_add]; exact hlen)
  rw [Nat.zero_add] at hsa
  refine ⟨sa', ?_⟩
  have s1 := (setConfig_some env pName card slot blk voltRange mode numSamples filename
    content hf).1
  rw [hl, hsa] at s1
  exact s1 (hbad sa')

/-- A line that fits the buffer is what one `fgets` returns: the characters up
to and including the first newline. -/
theorem fgets_line : ∀ (body : List Char) (k : Nat) (rest : List Char),
    body.length < k → (∀ c ∈ body, c.toNat ≠ 10) →
    fgets k (body ++ Char.ofNat 10 :: rest) = (body ++ [Char.ofNat 10], rest) := by
  intro body
  induction body with
  | nil =>
    intro k rest hk _
    obtain ⟨k', rfl⟩ : ∃ k', k = k' + 1 := ⟨k - 1, by simp at hk; omega⟩
    rfl
  | cons c cs ih =>
    intro k rest hk hc
    obtain ⟨k', rfl⟩ : ∃ k', k = k' + 1 := ⟨k - 1, by simp at hk; omega⟩
    have hne := hc c (List.mem_cons_self _ _)
    have hlen : cs.length < k' := by simp at hk; omega
    have e := ih k' rest hlen (fun x hx => hc x (List.mem_cons_of_mem _ hx))
    show fgets (k' + 1) (c :: (cs ++ Char.ofNat 10 :: rest)) = _
    unfold fgets
    rw [if_neg hne, e]
    rfl

theorem fgetsAll_succ (f : Nat) (s : List Char) (hs : s ≠ []) :
    fgetsAll (f + 1) s
      = (fgets (MAX_LINE_LENGTH - 1) s).1 :: fgetsAll f (fgets (MAX_LINE_LENGTH - 1) s).2 := by
  cases s with
  | nil => exact absurd rfl hs
  | cons c cs => rfl

theorem fgetsAll_lines : ∀ (bodies : List (List Char)) (fuel : Nat),
    bodies.length ≤ fuel →
    (∀ b ∈ bodies, b.length < MAX_LINE_LENGTH - 1 ∧ ∀ c ∈ b, c.toNat ≠ 10) →
    fgetsAll fuel (fileOfLines bodies) = bodies.map (fun b => b ++ [Char.ofNat 10]) := by
  intro bodies
  induction bodies with
  | nil =>
    intro fuel _ _
    cases fuel <;> rfl
  | cons b bs ih =>
    intro fuel hfuel hb
    obtain ⟨f, rfl⟩ : ∃ f, fuel = f + 1 := ⟨fuel - 1, by simp at hfuel; omega⟩
    have hlen : bs.length ≤ f := by simp at hfuel; omega
    obtain ⟨h1, h2⟩ := hb b (List.mem_cons_self _ _)
    have hne : b ++ Char.ofNat 10 :: fileOfLines bs ≠ [] := by simp
    show fgetsAll (f + 1) (b ++ Char.ofNat 10 :: fileOfLines bs) = _
    rw [fgetsAll_succ f _ hne, fgets_line b _ (fileOfLines bs) h1 h2]
    simp only [List.map_cons]
    rw [ih f hlen (fun x hx => hb x (List.mem_cons_of_mem _ hx))]

theorem fileOfLines_length : ∀ bodies : List (List Char),
    bodies.length ≤ (fileOfLines bodies).length := by
  intro bodies
  induction bodies with
  | nil => exact le_refl _
  | cons b bs ih =>
    show (b :: bs).length ≤ (b ++ Char.ofNat 10 :: fileOfLines bs).length
    simp only [List.length_cons, List.length_append]
    omega

/-- In a file whose lines fit the buffer (at most 14 characters before the
newline), the buffers `xy5320SetConfig` reads are the lines. -/
theorem fileBuffers_lines (bodies : List (List Char))
    (hb : ∀ b ∈ bodies, b.length < MAX_LINE_LENGTH - 1 ∧ ∀ c ∈ b, c.toNat ≠ 10) :
    fileBuffers (fileOfLines bodies) = bodies.map (fun b => b ++ [Char.ofNat 10]) :=
  fgetsAll_lines bodies _ (fileOfLines_length bodies) hb

/-- C17 (as stated, refuted): the file with the two lines "3 1" and "3 1" is
accepted by `xy5320SetConfig` (status OK, two channels), and both configured
entries carry the channel number 3. -/
theorem xy5320SetConfig_accepts_repeated_channel :
    (xy5320SetConfig (fileEnv "3 1\n3 1\n") "AI1" 0 0 (blockWith 0) 1 DIF 16 "chan.cfg").1
      = OK ∧
    (xy5320SetConfig (fileEnv "3 1\n3 1\n") "AI1" 0 0 (blockWith 0) 1 DIF 16
      "chan.cfg").2.numChannels = 2 ∧
    ((xy5320SetConfig (fileEnv "3 1\n3 1\n") "AI1" 0 0 (blockWith 0) 1 DIF 16
      "chan.cfg").2.s_array 0).chan = 3 ∧
    ((xy5320SetConfig (fileEnv "3 1\n3 1\n") "AI1" 0 0 (blockWith 0) 1 DIF 16
      "chan.cfg").2.s_array 1).chan = 3 := by
  decide

/-- C17 (amended): after every successful `xy5320SetConfig` on a file in which
no number has more than three characters (`numbersFit`), the configured
(channel, gain) list holds one entry per buffer that
`fgets(buffer, MAX_LINE_LENGTH, fd)` returns, in file order, each with the
channel and the gain parsed from that buffer. In a file whose lines have at
most 15 characters, the newline included, the buffers are the lines; a longer
line is read as several buffers. No uniqueness check is made: the configured
channel numbers are pairwise distinct exactly when the channel numbers parsed
from the buffers are. -/
theorem xy5320SetConfig_entries_follow_file (env : Env) (pName : String) (card slot : Nat)
    (blk : config5320) (voltRange mode numSamples : Int) (filename : String)
    (content : List Char)
    (hf : env.fopen filename = some content)
    (_hfit : ∀ b ∈ fileBuffers content, numbersFit env.pre b = true)
    (hok : (xy5320SetConfig env pName card slot blk voltRange mode numSamples filename).1
      = OK) :
    (xy5320SetConfig env pName card slot blk voltRange mode numSamples
        filename).2.numChannels = ((fileBuffers content).length : Nat) ∧
    (∀ i buffer, (fileBuffers content)[i]? = some buffer →
      ∃ cc gg, xy5320ParseLine env.pre buffer = some (cc, gg) ∧
        (xy5320SetConfig env pName card slot blk voltRange mode numSamples
            filename).2.s_array i = { chan := cc.toNat, gain := gg.toNat }) ∧
    (∀ bodies : List (List Char),
      (∀ b ∈ bodies, b.length < MAX_LINE_LENGTH - 1 ∧ ∀ c ∈ b, c.toNat ≠ 10) →
      content = fileOfLines bodies →
      fileBuffers content = bodies.map (fun b => b ++ [Char.ofNat 10])) ∧
    ((∀ i j : Nat, i < (fileBuffers content).length → j < (fileBuffers content).length →
        i ≠ j →
        ((xy5320SetConfig env pName card slot blk voltRange mode numSamples
            filename).2.s_array i).chan
          ≠ ((xy5320SetConfig env pName card slot blk voltRange mode numSamples
              filename).2.s_array j).chan) ↔
      (∀ (i j : Nat) (bi bj : List Char) (ci gi cj gj : Int), (fileBuffers content)[i]? = some bi →
        (fileBuffers content)[j]? = some bj → xy5320ParseLine env.pre bi = some (ci, gi) →
        xy5320ParseLine env.pre bj = some (cj, gj) → i ≠ j → ci ≠ cj)) := by
  obtain ⟨content', hf', hn, _, _, hent⟩ :=
    setConfig_ok env pName card slot blk voltRange mode numSamples filename hok
  rw [hf] at hf'
  cases hf'
  refine ⟨hn, ?_, ?_, ?_⟩
  · intro i buffer hi
    obtain ⟨cc, gg, p1, _, _, _, p5⟩ := hent i buffer hi
    exact ⟨cc, gg, p1, p5⟩
  · intro bodies hb hc
    rw [hc]
    exact fileBuffers_lines bodies hb
  · constructor
    · intro hd i j bi bj ci gi cj gj hi hj pi pj hij hc
      obtain ⟨ci', gi', q1, q2, _, _, q5⟩ := hent i bi hi
      obtain ⟨cj', gj', r1, r2, _, _, r5⟩ := hent j bj hj
      rw [pi] at q1
      rw [pj] at r1
      cases q1
      cases r1
      have hil : i < (fileBuffers content).length := by
        by_contra h
        rw [List.getElem?_eq_none (by omega)] at hi
        cases hi
      have hjl : j < (fileBuffers content).length := by
        by_contra h
        rw [List.getElem?_eq_none (by omega)] at hj
        cases hj
      apply hd i j hil hjl hij
      rw [q5, r5, hc]
    · intro hd i j hi hj hij hc
      have hbi : (fileBuffers content)[i]? = some ((fileBuffers content)[i]) :=
        List.getElem?_eq_getElem hi
      have hbj : (fileBuffers content)[j]? = some ((fileBuffers content)[j]) :=
        List.getElem?_eq_getElem hj
      obtain ⟨ci, gi, q1, q2, _, _, q5⟩ := hent i _ hbi
      obtain ⟨cj, gj, r1, r2, _, _, r5⟩ := hent j _ hbj
      apply hd i j _ _ ci gi cj gj hbi hbj q1 r1 hij
      rw [q5, r5] at hc
      simp only at hc
      omega

theorem xy5320SetConfig_entries_follow_file_witness :
    (fileEnv "0 1\n1 1\n").fopen "chan.cfg" = some "0 1\n1 1\n".toList ∧
    (∀ b ∈ fileBuffers "0 1\n1 1\n".toList,
      numbersFit (fileEnv "0 1\n1 1\n").pre b = true) ∧
    (xy5320SetConfig (fileEnv "0 1\n1 1\n") "AI1" 0 0 (blockWith 0) 1 DIF 16 "chan.cfg").1
      = OK ∧
    (xy5320SetConfig (fileEnv "0 1\n1 1\n") "AI1" 0 0 (blockWith 0) 1 DIF 16
        "chan.cfg").2.numChannels = ((fileBuffers "0 1\n1 1\n".toList).length : Nat) :=
  ⟨rfl, by decide, by decide,
   (xy5320SetConfig_entries_follow_file (fileEnv "0 1\n1 1\n") "AI1" 0 0 (blockWith 0) 1 DIF
      16 "chan.cfg" "0 1\n1 1\n".toList rfl (by decide) (by decide)).1⟩

/-- C18 (as stated, refuted): with the maximum of 20 for DIF, the file of the
20 valid lines `difFull` followed by the line "x" has more than 20 lines and
fails with `S_xy5320_fileFormatError`, not `S_xy5320_tooManyChannels`; followed
by the line "25 1" instead, whose channel is out of range, it fails with
`S_xy5320_tooManyChannels`, not `S_xy5320_invalidChannel`; and the one-line
file "25 3", whose gain is not 1, 2, 4 or 8, fails with
`S_xy5320_invalidChannel`, not `S_xy5320_invalidGain`. -/
theorem xy5320SetConfig_first_failed_check_decides :
    ((xy5320SetConfig (fileEnv (difFull ++ "x\n")) "AI1" 0 0 (blockWith 0) 1 DIF 16
        "chan.cfg").1 = S_xy5320_fileFormatError ∧
      S_xy5320_fileFormatError ≠ S_xy5320_tooManyChannels) ∧
    ((xy5320SetConfig (fileEnv (difFull ++ "25 1\n")) "AI1" 0 0 (blockWith 0) 1 DIF 16
        "chan.cfg").1 = S_xy5320_tooManyChannels ∧
      S_xy5320_tooManyChannels ≠ S_xy5320_invalidChannel) ∧
    ((xy5320SetConfig (fileEnv "25 3\n") "AI1" 0 0 (blockWith 0) 1 DIF 16
        "chan.cfg").1 = S_xy5320_invalidChannel ∧
      S_xy5320_invalidChannel ≠ S_xy5320_invalidGain) := by
  decide

/-- C18 (amended): with the maximum 20 for DIF and 40 for SE, and for files in
which no number has more than three characters (`numbersFit`): after every
successful `xy5320SetConfig`, 1 <= numChannels <= max, every configured channel
number is in [0, max) and every configured gain is 1, 2, 4 or 8. The file is
read in buffers (the lines, when they have at most 15 characters with the
newline); the loop stops at the first buffer that fails a check, the buffers
before it having passed them all, and the status is that of the first check
this buffer fails, in this order: it does not parse,
`S_xy5320_fileFormatError`; max buffers are already entered,
`S_xy5320_tooManyChannels`; its channel is out of range,
`S_xy5320_invalidChannel`; its gain is not 1, 2, 4 or 8,
`S_xy5320_invalidGain`. A file with no characters gives
`S_xy5320_noChannels`. -/
theorem xy5320SetConfig_channel_limits (env : Env) (pName : String) (card slot : Nat)
    (blk : config5320) (voltRange mode numSamples : Int) (filename : String)
    (content : List Char) (good : List (List Char)) (line : List Char)
    (rest : List (List Char)) (cc gg : Int) :
    (maxChannelsFor DIF = 20 ∧ maxChannelsFor SE = 40) ∧
    (env.fopen filename = some content →
      (∀ b ∈ fileBuffers content, numbersFit env.pre b = true) →
      (xy5320SetConfig env pName card slot blk voltRange mode numSamples filename).1 = OK →
      1 ≤ (xy5320SetConfig env pName card slot blk voltRange mode numSamples
            filename).2.numChannels ∧
      (xy5320SetConfig env pName card slot blk voltRange mode numSamples
            filename).2.numChannels ≤ maxChannelsFor mode ∧
      ∀ i : Nat, (i : Int) < (xy5320SetConfig env pName card slot blk voltRange mode
            numSamples filename).2.numChannels →
        (((xy5320SetConfig env pName card slot blk voltRange mode numSamples
            filename).2.s_array i).chan : Int) < maxChannelsFor mode ∧
        (((xy5320SetConfig env pName card slot blk voltRange mode numSamples
            filename).2.s_array i).gain = GAIN_X1 ∨
         ((xy5320SetConfig env pName card slot blk voltRange mode numSamples
            filename).2.s_array i).gain = GAIN_X2 ∨
         ((xy5320SetConfig env pName card slot blk voltRange mode numSamples
            filename).2.s_array i).gain = GAIN_X4 ∨
         ((xy5320SetConfig env pName card slot blk voltRange mode numSamples
            filename).2.s_array i).gain = GAIN_X8)) ∧
    (env.fopen filename = some content → fileBuffers content = good ++ line :: rest →
      (∀ b ∈ good, lineAccepted env.pre (maxChannelsFor mode) b = true ∧
        numbersFit env.pre b = true) →
      numbersFit env.pre line = true →
      (((good.length : Nat) : Int) ≤ maxChannelsFor mode →
        xy5320ParseLine env.pre line = none →
        (xy5320SetConfig env pName card slot blk voltRange mode numSamples filename).1
          = S_xy5320_fileFormatError) ∧
      (xy5320ParseLine env.pre line = some (cc, gg) →
        (((good.length : Nat) : Int) = maxChannelsFor mode →
          (xy5320SetConfig env pName card slot blk voltRange mode numSamples filename).1
            = S_xy5320_tooManyChannels) ∧
        (((good.length : Nat) : Int) < maxChannelsFor mode →
          ((cc < 0 ∨ cc > maxChannelsFor mode - 1) →
            (xy5320SetConfig env pName card slot blk voltRange mode numSamples filename).1
              = S_xy5320_invalidChannel) ∧
          ((0 ≤ cc ∧ cc ≤ maxChannelsFor mode - 1) →
            (gg ≠ GAIN_X1 ∧ gg ≠ GAIN_X2 ∧ gg ≠ GAIN_X4 ∧ gg ≠ GAIN_X8) →
            (xy5320SetConfig env pName card slot blk voltRange mode numSamples filename).1
              = S_xy5320_invalidGain)))) ∧
    (env.fopen filename = some [] →
      (xy5320SetConfig env pName card slot blk voltRange mode numSamples filename).1
        = S_xy5320_noChannels) ∧
    (∀ bodies : List (List Char),
      (∀ b ∈ bodies, b.length < MAX_LINE_LENGTH - 1 ∧ ∀ c ∈ b, c.toNat ≠ 10) →
      content = fileOfLines bodies →
      fileBuffers content = bodies.map (fun b => b ++ [Char.ofNat 10])) := by
  have hs := status_ne_zero
  refine ⟨⟨by decide, by decide⟩, ?_, ?_, ?_, ?_⟩
  · intro _ _ hok
    obtain ⟨content', hf, hn, hne, hmax, hent⟩ :=
      setConfig_ok env pName card slot blk voltRange mode numSamples filename hok
    rw [hn]
    refine ⟨?_, hmax, ?_⟩
    · have : 0 < (fileBuffers content').length := List.length_pos.mpr hne
      omega
    · intro i hi
      have hil : i < (fileBuffers content').length := by omega
      obtain ⟨c', g', _, q2, q3, q4, q5⟩ := hent i _ (List.getElem?_eq_getElem hil)
      rw [q5]
      simp only
      refine ⟨by omega, ?_⟩
      rcases q4 with h | h | h | h <;> rw [h]
      · exact Or.inl rfl
      · exact Or.inr (Or.inl rfl)
      · exact Or.inr (Or.inr (Or.inl rfl))
      · exact Or.inr (Or.inr (Or.inr rfl))
  · intro hf hl hacc _
    have key : ∀ (st : Nat), st ≠ 0 → ((good.length : Nat) : Int) ≤ maxChannelsFor mode →
        (∀ sa, (xy5320SetConfigLoop env.pre (maxChannelsFor mode) (line :: rest) good.length
          sa).1 = st) →
        (xy5320SetConfig env pName card slot blk voltRange mode numSamples filename).1
          = st := by
      intro st hst hlen hall
      obtain ⟨sa, hsa⟩ := setConfig_after_prefix env pName card slot blk voltRange mode
        numSamples filename content good line rest hf hl (fun b hb => (hacc b hb).1) hlen
        (fun sa => by rw [hall sa]; exact hst)
      rw [hsa, hall sa]
    refine ⟨?_, ?_⟩
    · intro hlen hp
      apply key _ hs.1 hlen
      intro sa
      unfold xy5320SetConfigLoop
      rw [hp]
    · intro hp
      refine ⟨?_, ?_⟩
      · intro hlen
        apply key _ hs.2.1 (by omega)
        intro sa
        unfold xy5320SetConfigLoop
        rw [hp]
        simp only []
        rw [if_pos (by omega)]
      · intro hlen
        refine ⟨?_, ?_⟩
        · intro hc
          apply key _ hs.2.2.1 (by omega)
          intro sa
          unfold xy5320SetConfigLoop
          rw [hp]
          simp only []
          rw [if_neg (by omega), if_pos hc]
        · intro hc hg
          apply key _ hs.2.2.2.1 (by omega)
          intro sa
          unfold xy5320SetConfigLoop
          rw [hp]
          simp only []
          rw [if_neg (by omega), if_neg (by omega), if_pos hg]
  · intro hf
    exact ((setConfig_some env pName card slot blk voltRange mode numSamples filename [] hf).2
      rfl).1 rfl
  · intro bodies hb hc
    rw [hc]
    exact fileBuffers_lines bodies hb

theorem xy5320SetConfig_channel_limits_witness :
    (fileEnv "1 1\n20 1\n").fopen "chan.cfg" = some "1 1\n20 1\n".toList ∧
    fileBuffers "1 1\n20 1\n".toList = ["1 1\n".toList] ++ "20 1\n".toList :: [] ∧
    (∀ b ∈ ["1 1\n".toList], lineAccepted (fileEnv "1 1\n20 1\n").pre (maxChannelsFor DIF) b
        = true ∧ numbersFit (fileEnv "1 1\n20 1\n").pre b = true) ∧
    numbersFit (fileEnv "1 1\n20 1\n").pre "20 1\n".toList = true ∧
    xy5320ParseLine (fileEnv "1 1\n20 1\n").pre "20 1\n".toList = some (20, 1) ∧
    (xy5320SetConfig (fileEnv "1 1\n20 1\n") "AI1" 0 0 (blockWith 0) 1 DIF 16 "chan.cfg").1
      = S_xy5320_invalidChannel :=
  ⟨rfl, by decide, by decide, by decide, by decide,
   ((((xy5320SetConfig_channel_limits (fileEnv "1 1\n20 1\n") "AI1" 0 0 (blockWith 0) 1 DIF 16
      "chan.cfg" "1 1\n20 1\n".toList ["1 1\n".toList] "20 1\n".toList [] 20 1).2.2.1 rfl
      (by decide) (by decide) (by decide)).2 (by decide)).2 (by decide)).1 (by decide)⟩

/-! ## The line parser -/

theorem charAt_nat (pre : Char) (buf : List Char) (i : Nat) :
    charAt pre buf (i : Int) = buf.getD i (Char.ofNat 0) := by
  unfold charAt
  have h : ¬ ((i : Int) < 0) := by omega
  rw [if_neg h, Int.toNat_ofNat]

theorem charAt_succ (pre : Char) (buf : List Char) (i : Nat) :
    charAt pre buf ((i : Int) + 1) = buf.getD (i + 1) (Char.ofNat 0) := by
  rw [← charAt_nat pre buf (i + 1)]
  congr 1

theorem charAt_pred (pre : Char) (buf : List Char) (i : Nat) (hi : 0 < i) :
    charAt pre buf ((i : Int) - 1) = buf.getD (i - 1) (Char.ofNat 0) := by
  rw [← charAt_nat pre buf (i - 1)]
  congr 1
  omega

theorem digit_facts (c : Char) (h : isdigit c = true) :
    isspace c = false ∧ c.toNat ≠ 45 ∧ c.toNat ≠ 43 := by
  unfold isdigit at h
  unfold isspace
  simp only [Bool.and_eq_true, decide_eq_true_eq] at h
  refine ⟨?_, by omega, by omega⟩
  simp only [Bool.or_eq_false_iff, decide_eq_false_iff_not, Bool.and_eq_false_imp,
    decide_eq_true_eq]
  omega

theorem space_facts (c : Char) (h : isspace c = true) :
    isdigit c = false ∧ c.toNat ≠ 45 ∧ c.toNat ≠ 43 := by
  unfold isspace at h
  unfold isdigit
  simp only [Bool.or_eq_true, Bool.and_eq_true, decide_eq_true_eq] at h
  refine ⟨?_, by omega, by omega⟩
  simp only [Bool.and_eq_false_imp, decide_eq_true_eq, decide_eq_false_iff_not]
  omega

/-- An index inside the middle segment of `a ++ seg ++ b` holds an element of
that segment. -/
theorem getD_segment (a seg b : List Char) (k : Nat) (d : Char) (h1 : a.length ≤ k)
    (h2 : k < a.length + seg.length) : (a ++ seg ++ b).getD k d ∈ seg := by
  have hk : k - a.length < seg.length := by omega
  have e : (a ++ seg ++ b)[k]? = some (seg[k - a.length]) := by
    rw [List.append_assoc, List.getElem?_append_right h1,
      List.getElem?_append_left hk, List.getElem?_eq_getElem hk]
  rw [List.getD_eq_getElem?_getD, e]
  exact List.getElem_mem _

theorem nonDigitLoop_skip (pre : Char) (buf : List Char) (n : Nat) (hn : n ≤ buf.length) :
    ∀ (fuel i : Nat), i ≤ n → n - i ≤ fuel →
    (∀ k, i ≤ k → k < n → isdigit (buf.getD k (Char.ofNat 0)) = true) →
    nonDigitLoop pre buf fuel i = nonDigitLoop pre buf (fuel - (n - i)) n := by
  intro fuel
  induction fuel with
  | zero =>
    intro i h1 h2 _
    have : i = n := by omega
    subst this
    rw [Nat.sub_self, Nat.sub_zero]
  | succ fuel ih =>
    intro i h1 h2 hd
    by_cases hin : i = n
    · subst hin
      rw [Nat.sub_self, Nat.sub_zero]
    · have hlt : i < n := by omega
      have hdi := hd i (Nat.le_refl _) hlt
      conv_lhs => unfold nonDigitLoop
      rw [if_pos (by omega : i < buf.length), charAt_nat, hdi]
      simp only [Bool.not_true, Bool.false_and, Bool.false_eq_true, if_false]
      rw [ih (i + 1) (by omega) (by omega) (fun k hk1 hk2 => hd k (by omega) hk2)]
      congr 1
      omega

theorem nonDigitLoop_stop (pre : Char) (buf : List Char) (fuel n : Nat) (hn : n < buf.length)
    (h0 : 0 < n) (hc : isdigit (buf.getD n (Char.ofNat 0)) = false)
    (hm : (buf.getD n (Char.ofNat 0)).toNat ≠ 45)
    (hp : isdigit (buf.getD (n - 1) (Char.ofNat 0)) = true) :
    nonDigitLoop pre buf (fuel + 1) n = n := by
  unfold nonDigitLoop
  rw [if_pos hn, charAt_nat, charAt_pred pre buf n h0, hc, hp, decide_eq_true hm]
  rfl

theorem nonSpaceLoop_skip (pre : Char) (buf : List Char) (n : Nat) (hn : n ≤ buf.length) :
    ∀ (fuel i : Nat), i ≤ n → n - i ≤ fuel →
    (∀ k, i ≤ k → k < n → isspace (buf.getD k (Char.ofNat 0)) = true) →
    nonSpaceLoop pre buf fuel i = nonSpaceLoop pre buf (fuel - (n - i)) n := by
  intro fuel
  induction fuel with
  | zero =>
    intro i h1 h2 _
    have : i = n := by omega
    subst this
    rw [Nat.sub_self, Nat.sub_zero]
  | succ fuel ih =>
    intro i h1 h2 hd
    by_cases hin : i = n
    · subst hin
      rw [Nat.sub_self, Nat.sub_zero]
    · have hlt : i < n := by omega
      have hdi := hd i (Nat.le_refl _) hlt
      conv_lhs => unfold nonSpaceLoop
      rw [if_pos (by omega : i < buf.length), charAt_nat, hdi]
      simp only [Bool.not_true, Bool.false_eq_true, if_false]
      rw [ih (i + 1) (by omega) (by omega) (fun k hk1 hk2 => hd k (by omega) hk2)]
      congr 1
      omega

theorem nonSpaceLoop_stop (pre : Char) (buf : List Char) (fuel n : Nat)
    (hc : isspace (buf.getD n (Char.ofNat 0)) = false) :
    nonSpaceLoop pre buf fuel n = n := by
  cases fuel with
  | zero => rfl
  | succ fuel =>
    unfold nonSpaceLoop
    by_cases hn : n < buf.length
    · rw [if_pos hn, charAt_nat, hc]
      simp
    · rw [if_neg hn]

/-- `xy5320GetNonSpace` from `i`: white space up to `n`, a digit at `n`. -/
theorem getNonSpace_eq (pre : Char) (buf : List Char) (i n : Nat) (hin : i ≤ n)
    (hn : n < buf.length)
    (hs : ∀ k, i ≤ k → k < n → isspace (buf.getD k (Char.ofNat 0)) = true)
    (hd : isdigit (buf.getD n (Char.ofNat 0)) = true) :
    xy5320GetNonSpace pre buf i = (n : Int) := by
  unfold xy5320GetNonSpace
  simp only []
  rw [nonSpaceLoop_skip pre buf n (by omega) (buf.length - i) i hin (by omega) hs,
    nonSpaceLoop_stop pre buf _ n (digit_facts _ hd).1, charAt_nat, hd]
  simp

/-- `xy5320GetNonDigit` from `i`: digits up to `n`, white space at `n`. -/
theorem getNonDigit_eq (pre : Char) (buf : List Char) (i n : Nat) (hin : i < n)
    (hn : n < buf.length)
    (hd : ∀ k, i ≤ k → k < n → isdigit (buf.getD k (Char.ofNat 0)) = true)
    (hs : isspace (buf.getD n (Char.ofNat 0)) = true) :
    xy5320GetNonDigit pre buf i = (n : Int) := by
  unfold xy5320GetNonDigit
  simp only []
  have hf : buf.length - i - (n - i) = (buf.length - n - 1) + 1 := by omega
  rw [nonDigitLoop_skip pre buf n (by omega) (buf.length - i) i (by omega) (by omega) hd, hf,
    nonDigitLoop_stop pre buf _ n hn (by omega) (space_facts _ hs).1 (space_facts _ hs).2.1
      (hd (n - 1) (by omega) (by omega)),
    charAt_nat, hs]
  simp

theorem digitsVal_append (ds : List Char) (hd : ∀ c ∈ ds, isdigit c = true) (s : Char)
    (hs : isdigit s = false) (rest : List Char) :
    ∀ acc : Int, digitsVal acc (ds ++ s :: rest) = digitsVal acc ds := by
  induction ds with
  | nil =>
    intro acc
    simp [digitsVal, hs]
  | cons d ds ih =>
    intro acc
    have h := hd d (List.mem_cons_self _ _)
    simp only [List.cons_append, digitsVal, h, if_true]
    exact ih (fun c hc => hd c (List.mem_cons_of_mem _ hc)) _

/-- The digits of a number followed by a white space character: `atoi` yields
the decimal value. -/
theorem atoi_digits (ds : List Char) (hne : ds ≠ []) (hd : ∀ c ∈ ds, isdigit c = true)
    (s : Char) (hs : isspace s = true) : atoi (ds ++ [s]) = digitsVal 0 ds := by
  cases ds with
  | nil => exact absurd rfl hne
  | cons d ds =>
    have h := hd d (List.mem_cons_self _ _)
    obtain ⟨f1, f2, f3⟩ := digit_facts d h
    unfold atoi
    simp only [List.cons_append, List.dropWhile, f1, f2, f3, if_false]
    exact digitsVal_append (d :: ds) hd s (space_facts s hs).1 [] 0

theorem digitsVal_bounds (ds : List Char) (hd : ∀ c ∈ ds, isdigit c = true) :
    ∀ acc : Int, 0 ≤ acc →
      acc * 10 ^ ds.length ≤ digitsVal acc ds ∧
      digitsVal acc ds < (acc + 1) * 10 ^ ds.length := by
  induction ds with
  | nil =>
    intro acc _
    simp [digitsVal]
  | cons d ds ih =>
    intro acc hacc
    have h := hd d (List.mem_cons_self _ _)
    have hv : (48 : Nat) ≤ d.toNat ∧ d.toNat ≤ 57 := by
      unfold isdigit at h
      simpa using h
    simp only [digitsVal, h, if_true, List.length_cons]
    obtain ⟨b1, b2⟩ := ih (fun c hc => hd c (List.mem_cons_of_mem _ hc))
      (acc * 10 + ((d.toNat - 48 : Nat) : Int)) (by omega)
    have hP : (0 : Int) < 10 ^ ds.length := by positivity
    have hv1 : (0 : Int) ≤ ((d.toNat - 48 : Nat) : Int) := by omega
    have hv2 : ((d.toNat - 48 : Nat) : Int) ≤ 9 := by omega
    constructor
    · calc acc * 10 ^ (ds.length + 1) = (acc * 10) * 10 ^ ds.length := by ring
        _ ≤ (acc * 10 + ((d.toNat - 48 : Nat) : Int)) * 10 ^ ds.length := by
            apply Int.mul_le_mul_of_nonneg_right _ hP.le
            omega
        _ ≤ _ := b1
    · calc _ < (acc * 10 + ((d.toNat - 48 : Nat) : Int) + 1) * 10 ^ ds.length := b2
        _ ≤ ((acc + 1) * 10) * 10 ^ ds.length := by
            apply Int.mul_le_mul_of_nonneg_right _ hP.le
            omega
        _ = (acc + 1) * 10 ^ (ds.length + 1) := by ring

theorem toShort_digits (ds : List Char) (hd : ∀ c ∈ ds, isdigit c = true)
    (hl : ds.length ≤ 3) : toShort (digitsVal 0 ds) = digitsVal 0 ds := by
  obtain ⟨b1, b2⟩ := digitsVal_bounds ds hd 0 (le_refl _)
  have hp : (10 : Int) ^ ds.length ≤ 10 ^ 3 := by
    apply pow_le_pow_right₀ (by norm_num) hl
  have h1 : 0 ≤ digitsVal 0 ds := by simpa using b1
  have h2 : digitsVal 0 ds < 1000 := by
    have : digitsVal 0 ds < 10 ^ ds.length := by simpa using b2
    have h3 : (10 : Int) ^ 3 = 1000 := by norm_num
    omega
  unfold toShort
  omega
/-- The four positions the parser finds in a buffer made of a number of
digits, white space, a second number of digits and a white space character. -/
theorem form_positions (pre : Char) (ds1 ws' ds2 : List Char) (s w : Char) (rest : List Char)
    (h1 : ds1 ≠ []) (hd1 : ∀ c ∈ ds1, isdigit c = true)
    (hs : ∀ c ∈ s :: ws', isspace c = true)
    (h2 : ds2 ≠ []) (hd2 : ∀ c ∈ ds2, isdigit c = true) (hw : isspace w = true) :
    xy5320GetNonSpace pre (ds1 ++ s :: ws' ++ ds2 ++ w :: rest) 0 = ((0 : Nat) : Int) ∧
    xy5320GetNonDigit pre (ds1 ++ s :: ws' ++ ds2 ++ w :: rest) 0
      = ((ds1.length : Nat) : Int) ∧
    xy5320GetNonSpace pre (ds1 ++ s :: ws' ++ ds2 ++ w :: rest) ds1.length
      = ((ds1.length + (ws'.length + 1) : Nat) : Int) ∧
    xy5320GetNonDigit pre (ds1 ++ s :: ws' ++ ds2 ++ w :: rest)
      (ds1.length + (ws'.length + 1))
      = ((ds1.length + (ws'.length + 1) + ds2.length : Nat) : Int) := by
  have hl1 : 0 < ds1.length := List.length_pos.mpr h1
  have hl2 : 0 < ds2.length := List.length_pos.mpr h2
  have hlen : (ds1 ++ s :: ws' ++ ds2 ++ w :: rest).length
      = ds1.length + (ws'.length + 1) + ds2.length + (rest.length + 1) := by
    simp only [List.length_append, List.length_cons]
  have F1 : ∀ k, 0 ≤ k → k < ds1.length →
      isdigit ((ds1 ++ s :: ws' ++ ds2 ++ w :: rest).getD k (Char.ofNat 0)) = true := by
    intro k _ hk
    have e : ds1 ++ s :: ws' ++ ds2 ++ w :: rest
        = [] ++ ds1 ++ (s :: ws' ++ ds2 ++ w :: rest) := by
      simp only [List.nil_append, List.append_assoc]
    rw [e]
    exact hd1 _ (getD_segment [] ds1 _ k _ (by simp) (by simpa using hk))
  have F2 : ∀ k, ds1.length ≤ k → k < ds1.length + (ws'.length + 1) →
      isspace ((ds1 ++ s :: ws' ++ ds2 ++ w :: rest).getD k (Char.ofNat 0)) = true := by
    intro k hk1 hk2
    have e : ds1 ++ s :: ws' ++ ds2 ++ w :: rest
        = ds1 ++ (s :: ws') ++ (ds2 ++ w :: rest) := by
      simp only [List.append_assoc]
    rw [e]
    exact hs _ (getD_segment ds1 (s :: ws') _ k _ hk1 (by simpa using hk2))
  have F3 : ∀ k, ds1.length + (ws'.length + 1) ≤ k →
      k < ds1.length + (ws'.length + 1) + ds2.length →
      isdigit ((ds1 ++ s :: ws' ++ ds2 ++ w :: rest).getD k (Char.ofNat 0)) = true := by
    intro k hk1 hk2
    exact hd2 _ (getD_segment (ds1 ++ s :: ws') ds2 _ k _ (by simpa using hk1)
      (by simpa using hk2))
  have F4 : (ds1 ++ s :: ws' ++ ds2 ++ w :: rest).getD
      (ds1.length + (ws'.length + 1) + ds2.length) (Char.ofNat 0) = w := by
    have e : ds1 ++ s :: ws' ++ ds2 ++ w :: rest
        = (ds1 ++ s :: ws' ++ ds2) ++ [w] ++ rest := by
      simp only [List.append_assoc, List.singleton_append]
    have hm := getD_segment (ds1 ++ s :: ws' ++ ds2) [w] rest
      (ds1.length + (ws'.length + 1) + ds2.length) (Char.ofNat 0)
      (by simp only [List.length_append, List.length_cons]; omega)
      (by simp only [List.length_append, List.length_cons, List.length_nil]; omega)
    rw [← e] at hm
    simpa using hm
  refine ⟨?_, ?_, ?_, ?_⟩
  · exact getNonSpace_eq pre _ 0 0 (le_refl _) (by omega) (fun k h1 h2 => by omega)
      (F1 0 (le_refl _) hl1)
  · exact getNonDigit_eq pre _ 0 ds1.length hl1 (by omega) F1 (F2 _ (le_refl _) (by omega))
  · exact getNonSpace_eq pre _ ds1.length _ (by omega) (by omega) F2
      (F3 _ (le_refl _) (by omega))
  · exact getNonDigit_eq pre _ _ _ (by omega) (by omega) F3 (by rw [F4]; exact hw)

/-- A buffer made of a number of digits, white space, a second number of
digits and a white space character is parsed into the two decimal values (as
`short`). -/
theorem parseLine_form (pre : Char) (ds1 ws ds2 : List Char) (w : Char) (rest : List Char)
    (h1 : ds1 ≠ []) (hd1 : ∀ c ∈ ds1, isdigit c = true)
    (hws : ws ≠ []) (hs : ∀ c ∈ ws, isspace c = true)
    (h2 : ds2 ≠ []) (hd2 : ∀ c ∈ ds2, isdigit c = true) (hw : isspace w = true) :
    xy5320ParseLine pre (ds1 ++ ws ++ ds2 ++ w :: rest)
      = some (toShort (digitsVal 0 ds1), toShort (digitsVal 0 ds2)) := by
  obtain ⟨s, ws', rfl⟩ := List.exists_cons_of_ne_nil hws
  have hss : isspace s = true := hs s (List.mem_cons_self _ _)
  obtain ⟨p1, p2, p3, p4⟩ := form_positions pre ds1 ws' ds2 s w rest h1 hd1 hs h2 hd2 hw
  have hne : ∀ n : Nat, ¬ ((n : Int) = -1) := by intro n; omega
  have t1 : (((ds1.length : Nat) : Int) - ((0 : Nat) : Int) + 1).toNat = ds1.length + 1 := by
    omega
  have t2 : (((ds1.length + (ws'.length + 1) + ds2.length : Nat) : Int)
      - ((ds1.length + (ws'.length + 1) : Nat) : Int) + 1).toNat = ds2.length + 1 := by
    omega
  have n1 : ((ds1 ++ s :: ws' ++ ds2 ++ w :: rest).drop 0).take (ds1.length + 1)
      = ds1 ++ [s] := by
    have e : ds1 ++ s :: ws' ++ ds2 ++ w :: rest
        = ds1 ++ (s :: (ws' ++ ds2 ++ w :: rest)) := by
      simp only [List.append_assoc, List.cons_append]
    rw [List.drop_zero, e, List.take_append]
    rfl
  have n2 : ((ds1 ++ s :: ws' ++ ds2 ++ w :: rest).drop (ds1.length + (ws'.length + 1))).take
      (ds2.length + 1) = ds2 ++ [w] := by
    have e : ds1 ++ s :: ws' ++ ds2 ++ w :: rest
        = (ds1 ++ s :: ws') ++ (ds2 ++ (w :: rest)) := by
      simp only [List.append_assoc, List.cons_append]
    have hl : ds1.length + (ws'.length + 1) = (ds1 ++ s :: ws').length + 0 := by simp
    rw [e, hl, List.drop_append, List.drop_zero, List.take_append]
    rfl
  unfold xy5320ParseLine
  simp only []
  rw [p1]
  simp only [hne, if_false, Int.toNat_ofNat]
  rw [p2]
  simp only [hne, if_false, Int.toNat_ofNat]
  rw [p3]
  simp only [hne, if_false, Int.toNat_ofNat]
  rw [p4]
  simp only [hne, if_false, Int.toNat_ofNat]
  rw [t1, t2, n1, n2, atoi_digits ds1 h1 hd1 s hss, atoi_digits ds2 h2 hd2 w hw]

/-- In such a buffer with numbers of at most three digits the copies into
`num1` and `num2` stay inside the arrays. -/
theorem numbersFit_form (pre : Char) (ds1 ws ds2 : List Char) (w : Char) (rest : List Char)
    (h1 : ds1 ≠ []) (hd1 : ∀ c ∈ ds1, isdigit c = true) (hl1 : ds1.length ≤ 3)
    (hws : ws ≠ []) (hs : ∀ c ∈ ws, isspace c = true)
    (h2 : ds2 ≠ []) (hd2 : ∀ c ∈ ds2, isdigit c = true) (hl2 : ds2.length ≤ 3)
    (hw : isspace w = true) :
    numbersFit pre (ds1 ++ ws ++ ds2 ++ w :: rest) = true := by
  obtain ⟨s, ws', rfl⟩ := List.exists_cons_of_ne_nil hws
  obtain ⟨p1, p2, p3, p4⟩ := form_positions pre ds1 ws' ds2 s w rest h1 hd1 hs h2 hd2 hw
  have hne : ∀ n : Nat, ¬ ((n : Int) = -1) := by intro n; omega
  unfold numbersFit
  simp only [p1, p2, p3, p4, hne, if_false, Int.toNat_ofNat, decide_eq_true_eq]
  unfold CHARS_PER_NUMBER
  constructor <;> push_cast <;> omega

/-- C19 (as stated, refuted): the line "3,1" is not parsed as channel 3, gain 1:
the parser rejects it and `xy5320SetConfig` returns `S_xy5320_fileFormatError`,
because `xy5320GetNonDigit` only accepts a white space character after a
number. The line "3 1" is parsed as channel 3, gain 1; without a white space
character after the gain (no newline) it is rejected too. -/
theorem xy5320SetConfig_rejects_comma :
    xy5320ParseLine (Char.ofNat 0) "3,1\n".toList = none ∧
    (xy5320SetConfig (fileEnv "3,1\n") "AI1" 0 0 (blockWith 0) 1 DIF 16 "chan.cfg").1
      = S_xy5320_fileFormatError ∧
    xy5320ParseLine (Char.ofNat 0) "3 1\n".toList = some (3, 1) ∧
    (xy5320SetConfig (fileEnv "3 1\n") "AI1" 0 0 (blockWith 0) 1 DIF 16 "chan.cfg").1 = OK ∧
    xy5320ParseLine (Char.ofNat 0) "3 1".toList = none := by
  decide

/-- C19 (amended): a line of at most 15 characters, the newline included, of
the form channel number (one to three digits), one or more white space
characters, gain (one to three digits), newline, is returned by `fgets` as one
buffer whatever follows it in the file, its numbers fit `num1` and `num2`, and
the parser yields that (channel, gain) pair; a file that consists of this line
is accepted by `xy5320SetConfig` with that pair as its only entry when the
channel is below the maximum, the gain is 1, 2, 4 or 8 and the semaphore is
created. A comma is not a delimiter. When the buffers before it pass the checks
(and their numbers have at most three characters), a buffer the parser cannot
parse makes `xy5320SetConfig` return `S_xy5320_fileFormatError`. In a file
whose lines end with a newline and have at most 15 characters with it, the
buffers are the lines. -/
theorem xy5320ParseLine_white_space_separated (ds1 ws ds2 after : List Char) (env : Env)
    (pName : String) (card slot : Nat) (blk : config5320)
    (voltRange mode numSamples : Int) (filename : String) (content : List Char)
    (good : List (List Char)) (bad : List Char) (rest : List (List Char)) :
    ((ds1 ≠ [] ∧ ds1.length ≤ 3 ∧ ∀ c ∈ ds1, isdigit c = true) →
      (ws ≠ [] ∧ ∀ c ∈ ws, isspace c = true ∧ c.toNat ≠ 10) →
      (ds2 ≠ [] ∧ ds2.length ≤ 3 ∧ ∀ c ∈ ds2, isdigit c = true) →
      (ds1 ++ ws ++ ds2 ++ [Char.ofNat 10]).length ≤ MAX_LINE_LENGTH - 1 →
      fgets (MAX_LINE_LENGTH - 1) (ds1 ++ ws ++ ds2 ++ [Char.ofNat 10] ++ after)
        = (ds1 ++ ws ++ ds2 ++ [Char.ofNat 10], after) ∧
      numbersFit env.pre (ds1 ++ ws ++ ds2 ++ [Char.ofNat 10]) = true ∧
      xy5320ParseLine env.pre (ds1 ++ ws ++ ds2 ++ [Char.ofNat 10])
        = some (digitsVal 0 ds1, digitsVal 0 ds2) ∧
      (env.fopen filename = some (ds1 ++ ws ++ ds2 ++ [Char.ofNat 10]) →
        digitsVal 0 ds1 ≤ maxChannelsFor mode - 1 →
        (digitsVal 0 ds2 = GAIN_X1 ∨ digitsVal 0 ds2 = GAIN_X2 ∨ digitsVal 0 ds2 = GAIN_X4 ∨
          digitsVal 0 ds2 = GAIN_X8) →
        env.semMCreate ≠ 0 →
        (xy5320SetConfig env pName card slot blk voltRange mode numSamples filename).1 = OK ∧
        (xy5320SetConfig env pName card slot blk voltRange mode numSamples
          filename).2.numChannels = 1 ∧
        (xy5320SetConfig env pName card slot blk voltRange mode numSamples
          filename).2.s_array 0
          = { chan := (digitsVal 0 ds1).toNat, gain := (digitsVal 0 ds2).toNat })) ∧
    (env.fopen filename = some content → fileBuffers content = good ++ bad :: rest →
      (∀ b ∈ good, lineAccepted env.pre (maxChannelsFor mode) b = true ∧
        numbersFit env.pre b = true) →
      ((good.length : Nat) : Int) ≤ maxChannelsFor mode →
      xy5320ParseLine env.pre bad = none →
      (xy5320SetConfig env pName card slot blk voltRange mode numSamples filename).1
        = S_xy5320_fileFormatError) ∧
    (∀ bodies : List (List Char),
      (∀ b ∈ bodies, b.length < MAX_LINE_LENGTH - 1 ∧ ∀ c ∈ b, c.toNat ≠ 10) →
      content = fileOfLines bodies →
      fileBuffers content = bodies.map (fun b => b ++ [Char.ofNat 10])) := by
  refine ⟨?_, ?_, ?_⟩
  · rintro ⟨h1, hl1, hd1⟩ ⟨hws, hs⟩ ⟨h2, hl2, hd2⟩ hlen
    have hnl : isspace (Char.ofNat 10) = true := by decide
    have hsp : ∀ c ∈ ws, isspace c = true := fun c hc => (hs c hc).1
    have hbody : ∀ c ∈ ds1 ++ ws ++ ds2, c.toNat ≠ 10 := by
      intro c hc
      simp only [List.mem_append] at hc
      rcases hc with (hc | hc) | hc
      · have := hd1 c hc
        unfold isdigit at this
        simp only [Bool.and_eq_true, decide_eq_true_eq] at this
        omega
      · exact (hs c hc).2
      · have := hd2 c hc
        unfold isdigit at this
        simp only [Bool.and_eq_true, decide_eq_true_eq] at this
        omega
    have hblen : (ds1 ++ ws ++ ds2).length < MAX_LINE_LENGTH - 1 := by
      simp only [List.length_append, List.length_cons, List.length_nil] at hlen ⊢
      omega
    have hparse : xy5320ParseLine env.pre (ds1 ++ ws ++ ds2 ++ [Char.ofNat 10])
        = some (digitsVal 0 ds1, digitsVal 0 ds2) := by
      rw [parseLine_form env.pre ds1 ws ds2 (Char.ofNat 10) [] h1 hd1 hws hsp h2 hd2 hnl,
        toShort_digits ds1 hd1 hl1, toShort_digits ds2 hd2 hl2]
    refine ⟨?_, ?_, hparse, ?_⟩
    · rw [List.append_assoc (ds1 ++ ws ++ ds2)]
      exact fgets_line (ds1 ++ ws ++ ds2) _ after hblen hbody
    · exact numbersFit_form env.pre ds1 ws ds2 (Char.ofNat 10) [] h1 hd1 hl1 hws hsp h2 hd2
        hl2 hnl
    · intro hf hc hg hsem
      have hbuf : fileBuffers (ds1 ++ ws ++ ds2 ++ [Char.ofNat 10])
          = [ds1 ++ ws ++ ds2 ++ [Char.ofNat 10]] := by
        have := fileBuffers_lines [ds1 ++ ws ++ ds2] (by
          intro b hb
          simp only [List.mem_singleton] at hb
          subst hb
          exact ⟨hblen, hbody⟩)
        exact this
      have hc0 : 0 ≤ digitsVal 0 ds1 := by
        have := (digitsVal_bounds ds1 hd1 0 (le_refl _)).1
        simpa using this
      have h1' : ¬ (((0 : Nat) : Int) > maxChannelsFor mode - 1) := by
        push_cast
        omega
      have h2' : ¬ (digitsVal 0 ds1 < 0 ∨ digitsVal 0 ds1 > maxChannelsFor mode - 1) := by
        omega
      have h3' : ¬ (digitsVal 0 ds2 ≠ GAIN_X1 ∧ digitsVal 0 ds2 ≠ GAIN_X2 ∧
          digitsVal 0 ds2 ≠ GAIN_X4 ∧ digitsVal 0 ds2 ≠ GAIN_X8) := by
        rintro ⟨n1, n2, n3, n4⟩
        rcases hg with h | h | h | h
        · exact n1 h
        · exact n2 h
        · exact n3 h
        · exact n4 h
      have hloop : xy5320SetConfigLoop env.pre (maxChannelsFor mode)
          (fileBuffers (ds1 ++ ws ++ ds2 ++ [Char.ofNat 10])) 0 blk.s_array
          = (0, 1, fun k => if k = 0 then
              { chan := (digitsVal 0 ds1).toNat, gain := (digitsVal 0 ds2).toNat }
            else blk.s_array k) := by
        rw [hbuf]
        unfold xy5320SetConfigLoop
        rw [hparse]
        simp only []
        rw [if_neg h1', if_neg h2', if_neg h3']
        rfl
      have hl0 : (xy5320SetConfigLoop env.pre (maxChannelsFor mode)
          (fileBuffers (ds1 ++ ws ++ ds2 ++ [Char.ofNat 10])) 0 blk.s_array).1 = 0 := by
        rw [hloop]
      have hl1 : (xy5320SetConfigLoop env.pre (maxChannelsFor mode)
          (fileBuffers (ds1 ++ ws ++ ds2 ++ [Char.ofNat 10])) 0 blk.s_array).2.1 ≠ 0 := by
        rw [hloop]
        exact Nat.one_ne_zero
      obtain ⟨q1, q2, q3⟩ := (((setConfig_some env pName card slot blk voltRange mode
        numSamples filename _ hf).2 hl0).2 hl1).2 hsem
      refine ⟨q1, ?_, ?_⟩
      · rw [q2, hloop]
        rfl
      · rw [q3, hloop]
        rfl
  · intro hf hl hacc hlen hp
    have hall : ∀ sa, (xy5320SetConfigLoop env.pre (maxChannelsFor mode) (bad :: rest)
        good.length sa).1 = S_xy5320_fileFormatError := by
      intro sa
      unfold xy5320SetConfigLoop
      rw [hp]
    obtain ⟨sa, hsa⟩ := setConfig_after_prefix env pName card slot blk voltRange mode
      numSamples filename content good bad rest hf hl (fun b hb => (hacc b hb).1) hlen
      (fun sa => by rw [hall sa]; exact status_ne_zero.1)
    rw [hsa, hall sa]
  · intro bodies hb hc
    rw [hc]
    exact fileBuffers_lines bodies hb

theorem xy5320ParseLine_white_space_separated_witness :
    ("12".toList ≠ [] ∧ "12".toList.length ≤ 3 ∧ ∀ c ∈ "12".toList, isdigit c = true) ∧
    ("12".toList ++ " \t".toList ++ "8".toList ++ [Char.ofNat 10]).length
      ≤ MAX_LINE_LENGTH - 1 ∧
    fgets (MAX_LINE_LENGTH - 1)
        ("12".toList ++ " \t".toList ++ "8".toList ++ [Char.ofNat 10] ++ "13 1\n".toList)
      = ("12".toList ++ " \t".toList ++ "8".toList ++ [Char.ofNat 10], "13 1\n".toList) ∧
    xy5320ParseLine (fileEnv "").pre
        ("12".toList ++ " \t".toList ++ "8".toList ++ [Char.ofNat 10])
      = some (12, 8) :=
  ⟨by decide, by decide,
   ((xy5320ParseLine_white_space_separated "12".toList " \t".toList "8".toList
      "13 1\n".toList (fileEnv "") "" 0 0 (blockWith 0) 1 DIF 16 "" [] [] [] []).1
      (by decide) (by decide) (by decide) (by decide)).1,
   ((xy5320ParseLine_white_space_separated "12".toList " \t".toList "8".toList
      "13 1\n".toList (fileEnv "") "" 0 0 (blockWith 0) 1 DIF 16 "" [] [] [] []).1
      (by decide) (by decide) (by decide) (by decide)).2.2.1⟩

/-! ## Channel sweep -/

theorem withBuf_fields (b : Buf) (c : config5320) (f : Nat → Nat) :
    (withBuf b c f).numChannels = c.numChannels ∧ (withBuf b c f).average = c.average ∧
    (withBuf b c f).trigger = c.trigger ∧ (withBuf b c f).data_mask = c.data_mask ∧
    (withBuf b c f).brd_ptr = c.brd_ptr ∧ (withBuf b c f).cor_data = c.cor_data ∧
    (withBuf b c f).analogData = c.analogData ∧ getBuf b (withBuf b c f) = f ∧
    (b ≠ Buf.raw_data → (withBuf b c f).raw_data = c.raw_data) ∧
    (b ≠ Buf.az_data → (withBuf b c f).az_data = c.az_data) ∧
    (b ≠ Buf.cal_data → (withBuf b c f).cal_data = c.cal_data) := by
  cases b <;>
    exact ⟨rfl, rfl, rfl, rfl, rfl, rfl, rfl, rfl, by simp [withBuf], by simp [withBuf],
      by simp [withBuf]⟩

theorem withBuf_withBuf (b : Buf) (c : config5320) (f g : Nat → Nat) :
    withBuf b (withBuf b c f) g = withBuf b c g := by
  cases b <;> rfl

theorem withBuf_getBuf (b : Buf) (c : config5320) : withBuf b c (getBuf b c) = c := by
  cases b <;> rfl

theorem storeBuf_eq (b : Buf) (c : config5320) (j v : Nat) :
    storeBuf (some b) c j v = withBuf b c (fun k => if k = j then v else getBuf b c k) := by
  cases b <;> rfl

theorem sampleSum_le (rd : Nat → Nat) (mask : Nat) :
    ∀ (n start : Nat), sampleSum rd mask start n ≤ n * 65535 := by
  intro n
  induction n with
  | zero => intro start; simp [sampleSum]
  | succ n ih =>
    intro start
    unfold sampleSum
    have h1 : (rd start % 65536) &&& mask ≤ rd start % 65536 := Nat.and_le_left
    have h2 : rd start % 65536 < 65536 := Nat.mod_lt _ (by norm_num)
    have h3 := ih (start + 1)
    omega

/-- The average stored: the exact quotient truncated and converted to
`unsigned short` is the integer quotient. -/
theorem average_trunc (S N : Nat) (hS : S ≤ N * 65535) :
    (cTrunc (((S : Nat) : ℚ) / ((N : Nat) : ℚ))).toNat % 65536 = S / N := by
  have h0 : (0 : ℚ) ≤ ((S : Nat) : ℚ) / ((N : Nat) : ℚ) := by positivity
  unfold cTrunc
  rw [if_pos h0, Rat.floor_natCast_div_natCast]
  have hle : S / N ≤ 65535 := by
    by_cases hN : N = 0
    · subst hN; simp
    · exact Nat.div_le_of_le_mul (by omega)
  have e : ((S : Int) / (N : Int)).toNat = S / N := by
    rw [← Int.natCast_div, Int.toNat_ofNat]
  rw [e]
  omega

/-- A read in the source that is carried out on the device. -/
theorem busRead_fresh (b : Bus) (addr : Nat) (h : b.reload addr (b.seen addr) = true) :
    (busRead b addr).1 = b.rd addr (b.cnt addr) % 65536 ∧
    (busRead b addr).2.cnt addr = b.cnt addr + 1 ∧
    (busRead b addr).2.held addr = some (b.rd addr (b.cnt addr) % 65536) := by
  unfold busRead
  rw [h]
  simp only [Bool.true_or, if_true]
  exact ⟨trivial, trivial, trivial⟩

/-- A read in the source that is answered with the value held. -/
theorem busRead_kept (b : Bus) (addr v : Nat) (h : b.reload addr (b.seen addr) = false)
    (hv : b.held addr = some v) :
    (busRead b addr).1 = v ∧ (busRead b addr).2.cnt = b.cnt ∧
    (busRead b addr).2.held = b.held := by
  unfold busRead
  rw [h, hv]
  exact ⟨rfl, rfl, rfl⟩

/-- What a read in the source leaves as it is, carried out or not. -/
theorem busRead_frame (b : Bus) (addr : Nat) :
    (busRead b addr).2.rd = b.rd ∧ (busRead b addr).2.reload = b.reload ∧
    (busRead b addr).2.seen addr = b.seen addr + 1 ∧
    b.cnt addr ≤ (busRead b addr).2.cnt addr ∧
    (∀ a, a ≠ addr → (busRead b addr).2.cnt a = b.cnt a ∧
      (busRead b addr).2.held a = b.held a ∧ (busRead b addr).2.seen a = b.seen a) := by
  unfold busRead
  split
  · refine ⟨rfl, rfl, by simp, by simp, fun a ha => ?_⟩
    simp [ha]
  · refine ⟨rfl, rfl, by simp, le_refl _, fun a ha => ?_⟩
    simp [ha]

/-- With software triggering and every read of the data register carried out
on the device, the sample loop reads `n` successive values of the register and
adds them, masked, to `sum_data`. -/
theorem sampleLoop_strig (c : config5320) (fuel : Nat) (ht : c.trigger ≠ ETRIG) :
    ∀ (n : Nat) (sum_data : ℚ) (bus : Bus),
    (∀ k, bus.reload (ai_reg c.brd_ptr) k = true) →
    ∃ bus', sampleLoop c fuel n sum_data bus
        = some (sum_data + ((sampleSum (bus.rd (ai_reg c.brd_ptr)) c.data_mask
            (bus.cnt (ai_reg c.brd_ptr)) n : Nat) : ℚ), bus') ∧
      bus'.rd = bus.rd ∧ bus'.reload = bus.reload ∧
      bus'.cnt (ai_reg c.brd_ptr) = bus.cnt (ai_reg c.brd_ptr) + n := by
  intro n
  induction n with
  | zero =>
    intro sum_data bus _
    exact ⟨bus, by simp [sampleLoop, sampleSum], rfl, rfl, rfl⟩
  | succ n ih =>
    intro sum_data bus hrl
    obtain ⟨r1, r2, _⟩ := busRead_fresh (busWrite bus (strt_reg c.brd_ptr) READ_TRIGGER)
      (ai_reg c.brd_ptr) (hrl _)
    obtain ⟨f1, f2, _, _, _⟩ := busRead_frame (busWrite bus (strt_reg c.brd_ptr) READ_TRIGGER)
      (ai_reg c.brd_ptr)
    unfold sampleLoop
    simp only [ht, if_false]
    obtain ⟨bus', h1, h2, h3, h4⟩ := ih
      (sum_data + (((busRead (busWrite bus (strt_reg c.brd_ptr) READ_TRIGGER)
        (ai_reg c.brd_ptr)).1 &&& c.data_mask : Nat) : ℚ))
      (busRead (busWrite bus (strt_reg c.brd_ptr) READ_TRIGGER) (ai_reg c.brd_ptr)).2
      (by intro k; rw [f2]; exact hrl k)
    refine ⟨bus', ?_, ?_, ?_, ?_⟩
    · rw [h1, f1, r1, r2]
      simp only [busWrite, sampleSum]
      congr 1
      push_cast
      rw [add_assoc]
    · rw [h2, f1]; rfl
    · rw [h3, f2]; rfl
    · rw [h4, r2]
      simp only [busWrite]
      omega

@[simp] theorem withBuf_numChannels (b : Buf) (c : config5320) (f : Nat → Nat) :
    (withBuf b c f).numChannels = c.numChannels := (withBuf_fields b c f).1

@[simp] theorem withBuf_average (b : Buf) (c : config5320) (f : Nat → Nat) :
    (withBuf b c f).average = c.average := (withBuf_fields b c f).2.1

@[simp] theorem withBuf_trigger (b : Buf) (c : config5320) (f : Nat → Nat) :
    (withBuf b c f).trigger = c.trigger := (withBuf_fields b c f).2.2.1

@[simp] theorem withBuf_data_mask (b : Buf) (c : config5320) (f : Nat → Nat) :
    (withBuf b c f).data_mask = c.data_mask := (withBuf_fields b c f).2.2.2.1

@[simp] theorem withBuf_brd_ptr (b : Buf) (c : config5320) (f : Nat → Nat) :
    (withBuf b c f).brd_ptr = c.brd_ptr := (withBuf_fields b c f).2.2.2.2.1

@[simp] theorem getBuf_withBuf (b : Buf) (c : config5320) (f : Nat → Nat) :
    getBuf b (withBuf b c f) = f := (withBuf_fields b c f).2.2.2.2.2.2.2.1

/-- The channel loop of `xy5320ReadInputs` with software triggering and every
read carried out on the device: every channel from `j` on gets the truncated
average of `average` successive reads of the data register; the windows of
reads follow each other in channel order. -/
theorem channelLoop_spec (u : Uninit) (fuel : Nat) (b : Buf) :
    ∀ (k j control : Nat) (c : config5320) (bus : Bus),
    c.trigger ≠ ETRIG → (j : Int) ≤ c.numChannels → c.numChannels ≤ 65535 →
    c.numChannels - j ≤ k → (∀ a k, bus.reload a k = true) →
    ∃ (f : Nat → Nat) (bus' : Bus) (start : Nat → Nat),
      channelLoop u fuel (some b) k j control c bus = some (withBuf b c f, bus') ∧
      bus'.rd = bus.rd ∧
      bus.cnt (ai_reg c.brd_ptr) ≤ bus'.cnt (ai_reg c.brd_ptr) ∧
      (∀ m : Nat, m < j → f m = getBuf b c m) ∧
      (∀ m : Nat, c.numChannels ≤ (m : Int) → f m = getBuf b c m) ∧
      (∀ m : Nat, j ≤ m → (m : Int) < c.numChannels →
        f m = sampleSum (bus.rd (ai_reg c.brd_ptr)) c.data_mask (start m) c.average
                / c.average ∧
        bus.cnt (ai_reg c.brd_ptr) ≤ start m ∧
        start m + c.average ≤ bus'.cnt (ai_reg c.brd_ptr)) ∧
      (∀ m m' : Nat, j ≤ m → m < m' → (m' : Int) < c.numChannels →
        start m + c.average ≤ start m') := by
  intro k
  induction k with
  | zero =>
    intro j control c bus _ h1 _ h3 _
    have hj : ¬ ((j : Int) < c.numChannels) := by omega
    refine ⟨getBuf b c, bus, fun _ => 0, ?_, rfl, le_refl _, fun _ _ => rfl, fun _ _ => rfl,
      ?_, ?_⟩
    · unfold channelLoop
      rw [if_neg hj, withBuf_getBuf]
    · intro m hm1 hm2; omega
    · intro m m' hm1 hm2 hm3; omega
  | succ k ih =>
    intro j control c bus ht h1 h2 h3 hrl
    by_cases hj : (j : Int) < c.numChannels
    · -- the store made while clearing the flag, and the bus after it
      have hc1 : ∃ g1 : Nat → Nat,
          (if (busRead bus (cntl_reg c.brd_ptr)).1 &&& CTRIG ≠ 0 then
              storeBuf (some b) c j
                (busRead (busRead bus (cntl_reg c.brd_ptr)).2 (ai_reg c.brd_ptr)).1
            else c) = withBuf b c g1 ∧ ∀ m, m ≠ j → g1 m = getBuf b c m := by
        split
        · exact ⟨_, storeBuf_eq b c j _, fun m hm => by simp [hm]⟩
        · exact ⟨getBuf b c, (withBuf_getBuf b c).symm, fun _ _ => rfl⟩
      have hb1 :
          (if (busRead bus (cntl_reg c.brd_ptr)).1 &&& CTRIG ≠ 0 then
              (busRead (busRead bus (cntl_reg c.brd_ptr)).2 (ai_reg c.brd_ptr)).2
            else (busRead bus (cntl_reg c.brd_ptr)).2).rd = bus.rd ∧
          (if (busRead bus (cntl_reg c.brd_ptr)).1 &&& CTRIG ≠ 0 then
              (busRead (busRead bus (cntl_reg c.brd_ptr)).2 (ai_reg c.brd_ptr)).2
            else (busRead bus (cntl_reg c.brd_ptr)).2).reload = bus.reload ∧
          bus.cnt (ai_reg c.brd_ptr) ≤
            (if (busRead bus (cntl_reg c.brd_ptr)).1 &&& CTRIG ≠ 0 then
              (busRead (busRead bus (cntl_reg c.brd_ptr)).2 (ai_reg c.brd_ptr)).2
            else (busRead bus (cntl_reg c.brd_ptr)).2).cnt (ai_reg c.brd_ptr) := by
        have hne : ai_reg c.brd_ptr ≠ cntl_reg c.brd_ptr := by
          unfold ai_reg cntl_reg; omega
        obtain ⟨a1, a2, _, _, a5⟩ := busRead_frame bus (cntl_reg c.brd_ptr)
        obtain ⟨b1, b2, _, b4, _⟩ :=
          busRead_frame (busRead bus (cntl_reg c.brd_ptr)).2 (ai_reg c.brd_ptr)
        have a6 := (a5 _ hne).1
        split
        · exact ⟨by rw [b1, a1], by rw [b2, a2], by omega⟩
        · exact ⟨a1, a2, by omega⟩
      obtain ⟨g1, hg1, hg1'⟩ := hc1
      unfold channelLoop
      rw [if_pos hj]
      simp only []
      rw [hg1]
      generalize (if (busRead bus (cntl_reg c.brd_ptr)).1 &&& CTRIG ≠ 0 then
              (busRead (busRead bus (cntl_reg c.brd_ptr)).2 (ai_reg c.brd_ptr)).2
            else (busRead bus (cntl_reg c.brd_ptr)).2) = bus1 at hb1 ⊢
      generalize (if ((j + 1 : Nat) : Int) < c.numChannels then xy5320BuildControl u c (j + 1)
            else control) = control'
      obtain ⟨hrd1, hrl1, hcnt1⟩ := hb1
      have ht1 : (withBuf b c g1).trigger ≠ ETRIG := by simpa using ht
      obtain ⟨bus2, hs, hrd2, hrl2, hcnt2⟩ :=
        sampleLoop_strig (withBuf b c g1) fuel ht1 c.average 0 bus1
          (by intro k; rw [hrl1]; exact hrl _ k)
      simp only [withBuf_average, withBuf_brd_ptr, withBuf_data_mask] at hs hcnt2 ⊢
      rw [hs]
      simp only []
      rw [storeBuf_eq, withBuf_withBuf, getBuf_withBuf]
      have hj1 : (j + 1) % 65536 = j + 1 := by omega
      rw [hj1]
      obtain ⟨f', bus', start', e1, e2, e3, e4, e5, e6, e7⟩ :=
        ih (j + 1) control'
          (withBuf b c (fun k => if k = j then
              (cTrunc ((0 + ((sampleSum (bus1.rd (ai_reg c.brd_ptr)) c.data_mask
                (bus1.cnt (ai_reg c.brd_ptr)) c.average : Nat) : ℚ)) / (c.average : ℚ))).toNat
                % 65536
            else g1 k))
          (busWrite bus2 (cntl_reg c.brd_ptr) control')
          (by simpa using ht) (by simp only [withBuf_numChannels]; push_cast; omega)
          (by simpa using h2) (by simp only [withBuf_numChannels]; push_cast; omega)
          (by
            intro a k
            show bus2.reload a k = true
            rw [hrl2, hrl1]
            exact hrl a k)
      simp only [withBuf_numChannels, withBuf_average, withBuf_brd_ptr, withBuf_data_mask,
        getBuf_withBuf, withBuf_withBuf] at e1 e3 e4 e5 e6 e7
      have hw2 : (busWrite bus2 (cntl_reg c.brd_ptr) control').rd = bus.rd := by
        simp only [busWrite]
        rw [hrd2, hrd1]
      have hc2 : (busWrite bus2 (cntl_reg c.brd_ptr) control').cnt (ai_reg c.brd_ptr)
          = bus1.cnt (ai_reg c.brd_ptr) + c.average := by
        simp only [busWrite]
        exact hcnt2
      rw [hw2] at e6
      rw [hc2] at e3 e6
      have hV : (cTrunc ((0 + ((sampleSum (bus1.rd (ai_reg c.brd_ptr)) c.data_mask
                (bus1.cnt (ai_reg c.brd_ptr)) c.average : Nat) : ℚ)) / (c.average : ℚ))).toNat
                % 65536
          = sampleSum (bus.rd (ai_reg c.brd_ptr)) c.data_mask (bus1.cnt (ai_reg c.brd_ptr))
              c.average / c.average := by
        rw [zero_add, hrd1]
        exact average_trunc _ _ (sampleSum_le _ _ _ _)
      refine ⟨f', bus', fun m => if m = j then bus1.cnt (ai_reg c.brd_ptr) else start' m,
        e1, ?_, ?_, ?_, ?_, ?_, ?_⟩
      · rw [e2, hw2]
      · omega
      · intro m hm
        rw [e4 m (by omega)]
        have hne : m ≠ j := by omega
        simp only [hne, if_false]
        exact hg1' m hne
      · intro m hm
        rw [e5 m hm]
        have hne : m ≠ j := by omega
        simp only [hne, if_false]
        exact hg1' m hne
      · intro m hm1 hm2
        by_cases hmj : m = j
        · subst hmj
          rw [e4 m (by omega)]
          simp only [if_true]
          exact ⟨hV, hcnt1, e3⟩
        · simp only [hmj, if_false]
          obtain ⟨q1, q2, q3⟩ := e6 m (by omega) hm2
          exact ⟨q1, by omega, q3⟩
      · intro m m' hm1 hm2 hm3
        have hne' : m' ≠ j := by omega
        by_cases hmj : m = j
        · subst hmj
          simp only [if_true, hne', if_false]
          exact (e6 m' (by omega) hm3).2.1
        · simp only [hmj, hne', if_false]
          exact e7 m m' (by omega) hm2 hm3
    · have hjn : (j : Int) = c.numChannels := by omega
      refine ⟨getBuf b c, bus, fun _ => 0, ?_, rfl, le_refl _, fun _ _ => rfl,
        fun _ _ => rfl, ?_, ?_⟩
      · unfold channelLoop
        rw [if_neg hj, withBuf_getBuf]
      · intro m hm1 hm2; omega
      · intro m m' hm1 hm2 hm3; omega

/-- What the sweep does when every read in the source is carried out on the
device (`reload` true throughout, as with `volatile` accesses): for a card with
software triggering, N = `average` in [1, 256] samples and n configured
channels, in one of the modes DIF, SE, AZV, CAL, `xy5320ReadInputs` ends and
stores, for every index j < n, the truncated average `S_j / N` in entry j of
the buffer the mode selects (`raw_data` for DIF and SE, `az_data` for AZV,
`cal_data` for CAL), where `S_j` is the sum of N successive values read from
the data register, each masked with `data_mask`; the windows of reads of
successive channels follow each other. Entries from n on and every other buffer
are unchanged. -/
theorem readInputs_average_of_device_reads (u : Uninit) (fuel : Nat) (c : config5320)
    (bus : Bus)
    (hmode : c.mode = DIF ∨ c.mode = SE ∨ c.mode = AZV ∨ c.mode = CAL)
    (ht : c.trigger = STRIG)
    (_hN : 1 ≤ c.average ∧ c.average ≤ MAX_SAMPLES)
    (hn : 0 ≤ c.numChannels ∧ c.numChannels ≤ MAX_SE_CHANNELS)
    (hfuel : c.numChannels ≤ fuel)
    (hrl : ∀ a k, bus.reload a k = true) :
    ∃ (b : Buf) (f : Nat → Nat) (bus' : Bus) (start : Nat → Nat),
      selectBuf c.mode = some b ∧
      (b = Buf.raw_data ↔ (c.mode = DIF ∨ c.mode = SE)) ∧
      (b = Buf.az_data ↔ c.mode = AZV) ∧ (b = Buf.cal_data ↔ c.mode = CAL) ∧
      xy5320ReadInputs u fuel c bus = some (withBuf b c f, bus') ∧
      (∀ j : Nat, (j : Int) < c.numChannels →
        f j = sampleSum (bus.rd (ai_reg c.brd_ptr)) c.data_mask (start j) c.average
                / c.average ∧
        bus.cnt (ai_reg c.brd_ptr) ≤ start j) ∧
      (∀ j j' : Nat, j < j' → (j' : Int) < c.numChannels →
        start j + c.average ≤ start j') ∧
      (∀ j : Nat, c.numChannels ≤ (j : Int) → f j = getBuf b c j) ∧
      (withBuf b c f).cor_data = c.cor_data ∧ (withBuf b c f).analogData = c.analogData ∧
      (b ≠ Buf.raw_data → (withBuf b c f).raw_data = c.raw_data) ∧
      (b ≠ Buf.az_data → (withBuf b c f).az_data = c.az_data) ∧
      (b ≠ Buf.cal_data → (withBuf b c f).cal_data = c.cal_data) := by
  have hsel : ∃ b, selectBuf c.mode = some b ∧
      (b = Buf.raw_data ↔ (c.mode = DIF ∨ c.mode = SE)) ∧
      (b = Buf.az_data ↔ c.mode = AZV) ∧ (b = Buf.cal_data ↔ c.mode = CAL) := by
    rcases hmode with h | h | h | h <;> rw [h]
    · exact ⟨Buf.raw_data, by decide, by decide, by decide, by decide⟩
    · exact ⟨Buf.raw_data, by decide, by decide, by decide, by decide⟩
    · exact ⟨Buf.az_data, by decide, by decide, by decide, by decide⟩
    · exact ⟨Buf.cal_data, by decide, by decide, by decide, by decide⟩
  obtain ⟨b, hb, hb1, hb2, hb3⟩ := hsel
  have htr : c.trigger ≠ ETRIG := by rw [ht]; decide
  have hmax : c.numChannels ≤ 65535 := by
    have := hn.2
    unfold MAX_SE_CHANNELS at this
    omega
  obtain ⟨f, bus', start, e1, _, _, _, e5, e6, e7⟩ :=
    channelLoop_spec u fuel b fuel 0 (u.control_reg % 65536) c
      (busWrite bus (cntl_reg c.brd_ptr) (xy5320BuildControl u c 0)) htr
      (by have := hn.1; omega) hmax (by omega) (fun a k => hrl a k)
  obtain ⟨_, _, _, _, _, w6, w7, _, w9, w10, w11⟩ := withBuf_fields b c f
  refine ⟨b, f, bus', start, hb, hb1, hb2, hb3, ?_, ?_, ?_, e5, w6, w7, w9, w10, w11⟩
  · unfold xy5320ReadInputs
    rw [hb]
    exact e1
  · intro j hj
    obtain ⟨q1, q2, _⟩ := e6 j (Nat.zero_le _) hj
    exact ⟨q1, q2⟩
  · intro j j' h1 h2
    exact e7 j j' (Nat.zero_le _) h1 h2

theorem sampleLoop_succ (c : config5320) (fuel : Nat) (ht : c.trigger ≠ ETRIG) (n : Nat)
    (sum_data : ℚ) (bus : Bus) :
    sampleLoop c fuel (n + 1) sum_data bus
      = sampleLoop c fuel n
          (sum_data + (((busRead (busWrite bus (strt_reg c.brd_ptr) READ_TRIGGER)
            (ai_reg c.brd_ptr)).1 &&& c.data_mask : Nat) : ℚ))
          (busRead (busWrite bus (strt_reg c.brd_ptr) READ_TRIGGER) (ai_reg c.brd_ptr)).2 := by
  conv_lhs => unfold sampleLoop
  simp only [ht, if_false]

/-- With software triggering, a value `v` held for the data register and none
of the next `n` reads of it carried out on the device, the sample loop adds `n`
times the same masked value to `sum_data`; the device is not read. -/
theorem sampleLoop_kept (c : config5320) (fuel : Nat) (ht : c.trigger ≠ ETRIG) (v : Nat) :
    ∀ (n : Nat) (sum_data : ℚ) (bus : Bus),
    bus.held (ai_reg c.brd_ptr) = some v →
    (∀ i, bus.seen (ai_reg c.brd_ptr) ≤ i → i < bus.seen (ai_reg c.brd_ptr) + n →
      bus.reload (ai_reg c.brd_ptr) i = false) →
    ∃ bus', sampleLoop c fuel n sum_data bus
        = some (sum_data + (n : ℚ) * ((v &&& c.data_mask : Nat) : ℚ), bus') ∧
      bus'.rd = bus.rd ∧ bus'.reload = bus.reload ∧ bus'.cnt = bus.cnt ∧
      bus'.seen (ai_reg c.brd_ptr) = bus.seen (ai_reg c.brd_ptr) + n ∧
      (∀ a, a ≠ ai_reg c.brd_ptr → bus'.seen a = bus.seen a) ∧
      (∀ a, a ≠ strt_reg c.brd_ptr → bus'.held a = bus.held a) := by
  have hne : ai_reg c.brd_ptr ≠ strt_reg c.brd_ptr := by
    unfold ai_reg strt_reg; omega
  intro n
  induction n with
  | zero =>
    intro sum_data bus _ _
    exact ⟨bus, by simp [sampleLoop], rfl, rfl, rfl, rfl, fun _ _ => rfl, fun _ _ => rfl⟩
  | succ n ih =>
    intro sum_data bus hv hw
    have hv1 : (busWrite bus (strt_reg c.brd_ptr) READ_TRIGGER).held (ai_reg c.brd_ptr)
        = some v := by
      simp only [busWrite, hne, if_false]
      exact hv
    have hr1 : (busWrite bus (strt_reg c.brd_ptr) READ_TRIGGER).reload (ai_reg c.brd_ptr)
        ((busWrite bus (strt_reg c.brd_ptr) READ_TRIGGER).seen (ai_reg c.brd_ptr)) = false :=
      hw (bus.seen (ai_reg c.brd_ptr)) (le_refl _) (by omega)
    obtain ⟨k1, k2, k3⟩ := busRead_kept _ _ v hr1 hv1
    obtain ⟨f1, f2, f3, _, f5⟩ := busRead_frame
      (busWrite bus (strt_reg c.brd_ptr) READ_TRIGGER) (ai_reg c.brd_ptr)
    obtain ⟨bus', h1, h2, h3, h4, h5, h6, h7⟩ := ih
      (sum_data + (((busRead (busWrite bus (strt_reg c.brd_ptr) READ_TRIGGER)
        (ai_reg c.brd_ptr)).1 &&& c.data_mask : Nat) : ℚ))
      (busRead (busWrite bus (strt_reg c.brd_ptr) READ_TRIGGER) (ai_reg c.brd_ptr)).2
      (by rw [k3]; exact hv1)
      (by
        intro i hi1 hi2
        rw [f2]
        rw [f3] at hi1 hi2
        exact hw i (by simp only [busWrite] at hi1; omega)
          (by simp only [busWrite] at hi2; omega))
    refine ⟨bus', ?_, ?_, ?_, ?_, ?_, ?_, ?_⟩
    · rw [sampleLoop_succ c fuel ht, h1, k1]
      congr 1
      push_cast
      ring_nf
    · rw [h2, f1]; rfl
    · rw [h3, f2]; rfl
    · rw [h4, k2]; rfl
    · rw [h5, f3]
      simp only [busWrite]
      omega
    · intro a ha
      rw [h6 a ha, (f5 a ha).2.2]
      rfl
    · intro a ha
      rw [h7 a ha, k3]
      simp only [busWrite, ha, if_false]

/-- One round of the channel loop of `xy5320ReadInputs` with software
triggering when the flag `CTRIG` is found clear and, of the `n + 1` reads of the
data register the sample loop makes, only the first is carried out on the
device: the entry stored for channel `j` is that one value, masked. -/
theorem channelLoop_one_read (u : Uninit) (fuel : Nat) (b : Buf) (k j control n : Nat)
    (c : config5320) (bus : Bus)
    (ht : c.trigger ≠ ETRIG) (hj : (j : Int) < c.numChannels) (hN : c.average = n + 1)
    (hflag : (busRead bus (cntl_reg c.brd_ptr)).1 &&& CTRIG = 0)
    (hfirst : bus.reload (ai_reg c.brd_ptr) (bus.seen (ai_reg c.brd_ptr)) = true)
    (hrest : ∀ i, bus.seen (ai_reg c.brd_ptr) + 1 ≤ i →
      i < bus.seen (ai_reg c.brd_ptr) + 1 + n → bus.reload (ai_reg c.brd_ptr) i = false) :
    ∃ bus', channelLoop u fuel (some b) (k + 1) j control c bus
        = channelLoop u fuel (some b) k ((j + 1) % 65536)
            (if ((j + 1 : Nat) : Int) < c.numChannels then xy5320BuildControl u c (j + 1)
              else control)
            (storeBuf (some b) c j
              ((bus.rd (ai_reg c.brd_ptr) (bus.cnt (ai_reg c.brd_ptr)) % 65536)
                &&& c.data_mask))
            bus' ∧
      bus'.rd = bus.rd ∧ bus'.reload = bus.reload ∧
      bus'.cnt (ai_reg c.brd_ptr) = bus.cnt (ai_reg c.brd_ptr) + 1 ∧
      bus'.seen (ai_reg c.brd_ptr) = bus.seen (ai_reg c.brd_ptr) + 1 + n ∧
      bus'.seen (cntl_reg c.brd_ptr) = bus.seen (cntl_reg c.brd_ptr) + 1 ∧
      bus'.held (cntl_reg c.brd_ptr)
        = some ((if ((j + 1 : Nat) : Int) < c.numChannels then xy5320BuildControl u c (j + 1)
            else control) % 65536) := by
  have hac : ai_reg c.brd_ptr ≠ cntl_reg c.brd_ptr := by
    unfold ai_reg cntl_reg; omega
  have hca : cntl_reg c.brd_ptr ≠ ai_reg c.brd_ptr := fun h => hac h.symm
  have hcs : cntl_reg c.brd_ptr ≠ strt_reg c.brd_ptr := by
    unfold cntl_reg strt_reg; omega
  have hnf : ¬ ((busRead bus (cntl_reg c.brd_ptr)).1 &&& CTRIG ≠ 0) := fun h => h hflag
  -- the bus after the read of the control register
  obtain ⟨a1, a2, a3, _, a5⟩ := busRead_frame bus (cntl_reg c.brd_ptr)
  obtain ⟨a6, a7, a8⟩ := a5 _ hac
  obtain ⟨busA, hA⟩ : ∃ x, x = (busRead bus (cntl_reg c.brd_ptr)).2 := ⟨_, rfl⟩
  rw [← hA] at a1 a2 a3 a6 a7 a8
  -- the first read of the data register
  have hfB : (busWrite busA (strt_reg c.brd_ptr) READ_TRIGGER).reload (ai_reg c.brd_ptr)
      ((busWrite busA (strt_reg c.brd_ptr) READ_TRIGGER).seen (ai_reg c.brd_ptr)) = true := by
    show busA.reload (ai_reg c.brd_ptr) (busA.seen (ai_reg c.brd_ptr)) = true
    rw [a2, a8]
    exact hfirst
  obtain ⟨r1, r2, r3⟩ := busRead_fresh _ _ hfB
  obtain ⟨g1, g2, g3, _, g5⟩ := busRead_frame
    (busWrite busA (strt_reg c.brd_ptr) READ_TRIGGER) (ai_reg c.brd_ptr)
  obtain ⟨_, g7, g8⟩ := g5 _ hca
  obtain ⟨busC, hC⟩ : ∃ x, x = (busRead (busWrite busA (strt_reg c.brd_ptr) READ_TRIGGER)
      (ai_reg c.brd_ptr)).2 := ⟨_, rfl⟩
  rw [← hC] at r2 r3 g1 g2 g3 g7 g8
  have hv0 : (busRead (busWrite busA (strt_reg c.brd_ptr) READ_TRIGGER) (ai_reg c.brd_ptr)).1
      = bus.rd (ai_reg c.brd_ptr) (bus.cnt (ai_reg c.brd_ptr)) % 65536 := by
    rw [r1]
    show busA.rd (ai_reg c.brd_ptr) (busA.cnt (ai_reg c.brd_ptr)) % 65536 = _
    rw [a1, a6]
  have r3' : busC.held (ai_reg c.brd_ptr)
      = some (bus.rd (ai_reg c.brd_ptr) (bus.cnt (ai_reg c.brd_ptr)) % 65536) := by
    rw [r3]
    show some (busA.rd (ai_reg c.brd_ptr) (busA.cnt (ai_reg c.brd_ptr)) % 65536) = _
    rw [a1, a6]
  have hseenC : busC.seen (ai_reg c.brd_ptr) = bus.seen (ai_reg c.brd_ptr) + 1 := by
    rw [g3]
    show busA.seen (ai_reg c.brd_ptr) + 1 = _
    rw [a8]
  have hrlC : busC.reload = bus.reload := by
    rw [g2]
    show busA.reload = _
    exact a2
  -- the other reads
  obtain ⟨busD, s1, s2, s3, s4, s5, s6, s7⟩ := sampleLoop_kept c fuel ht
    (bus.rd (ai_reg c.brd_ptr) (bus.cnt (ai_reg c.brd_ptr)) % 65536) n
    (0 + (((bus.rd (ai_reg c.brd_ptr) (bus.cnt (ai_reg c.brd_ptr)) % 65536)
      &&& c.data_mask : Nat) : ℚ)) busC r3'
    (by
      intro i hi1 hi2
      rw [hrlC]
      rw [hseenC] at hi1 hi2
      exact hrest i hi1 hi2)
  have hS : sampleLoop c fuel c.average 0 busA
      = some ((((n + 1) * ((bus.rd (ai_reg c.brd_ptr) (bus.cnt (ai_reg c.brd_ptr)) % 65536)
          &&& c.data_mask) : Nat) : ℚ), busD) := by
    rw [hN, sampleLoop_succ c fuel ht, ← hC, hv0, s1]
    congr 1
    push_cast
    ring_nf
  have hV : (cTrunc ((((n + 1) * ((bus.rd (ai_reg c.brd_ptr) (bus.cnt (ai_reg c.brd_ptr))
        % 65536) &&& c.data_mask) : Nat) : ℚ) / (c.average : ℚ))).toNat % 65536
      = (bus.rd (ai_reg c.brd_ptr) (bus.cnt (ai_reg c.brd_ptr)) % 65536) &&& c.data_mask := by
    have hle : (bus.rd (ai_reg c.brd_ptr) (bus.cnt (ai_reg c.brd_ptr)) % 65536)
        &&& c.data_mask ≤ 65535 := by
      have h1 : (bus.rd (ai_reg c.brd_ptr) (bus.cnt (ai_reg c.brd_ptr)) % 65536)
          &&& c.data_mask ≤ bus.rd (ai_reg c.brd_ptr) (bus.cnt (ai_reg c.brd_ptr)) % 65536 :=
        Nat.and_le_left
      have h2 : bus.rd (ai_reg c.brd_ptr) (bus.cnt (ai_reg c.brd_ptr)) % 65536 < 65536 :=
        Nat.mod_lt _ (by norm_num)
      omega
    rw [hN, average_trunc _ _ (Nat.mul_le_mul_left _ hle)]
    exact Nat.mul_div_cancel_left _ (Nat.succ_pos n)
  refine ⟨busWrite busD (cntl_reg c.brd_ptr)
    (if ((j + 1 : Nat) : Int) < c.numChannels then xy5320BuildControl u c (j + 1)
      else control), ?_, ?_, ?_, ?_, ?_, ?_, ?_⟩
  · conv_lhs => unfold channelLoop
    rw [if_pos hj]
    simp only []
    rw [if_neg hnf, if_neg hnf, ← hA, hS]
    simp only []
    rw [hV]
  · show busD.rd = bus.rd
    rw [s2, g1]
    show busA.rd = bus.rd
    exact a1
  · show busD.reload = bus.reload
    rw [s3, hrlC]
  · show busD.cnt (ai_reg c.brd_ptr) = _
    rw [s4, r2]
    show busA.cnt (ai_reg c.brd_ptr) + 1 = _
    rw [a6]
  · show busD.seen (ai_reg c.brd_ptr) = _
    rw [s5, hseenC]
  · show busD.seen (cntl_reg c.brd_ptr) = _
    rw [s6 _ hca, g8]
    show busA.seen (cntl_reg c.brd_ptr) = _
    exact a3
  · simp only [busWrite, if_true]

/-- C16 (code at the failing input): the card "AI1" (two channels, DIF, 16
samples, software triggering) is swept on the board `heldBus`, whose data
register returns 0x0100 and 0x0300 in turn and of whose reads in the source
only the first of each channel is carried out on the device, as the plain (not
`volatile`) accesses allow. The average of the 16 conversions of each channel
is 0x0200, but `xy5320ReadInputs` stores the single values 0x0100 and 0x0300 in
`raw_data[0]` and `raw_data[1]`, and the data register has been read twice on
the device, not 32 times. -/
theorem xy5320ReadInputs_stores_one_sample :
    ai1.mode = DIF ∧ ai1.trigger = STRIG ∧ ai1.average = 16 ∧ ai1.numChannels = 2 ∧
    (∀ j, j < 2 →
      sampleSum (heldBus.rd (ai_reg ai1.brd_ptr)) ai1.data_mask (16 * j) 16 / 16 = 0x0200) ∧
    ∃ (c : config5320) (bus' : Bus),
      xy5320ReadInputs zeroUninit 2 ai1 heldBus = some (c, bus') ∧
      c.raw_data 0 = 0x0100 ∧ c.raw_data 1 = 0x0300 ∧
      bus'.cnt (ai_reg ai1.brd_ptr) = 2 := by
  refine ⟨by decide, by decide, by decide, by decide, by decide, ?_⟩
  have ht : ai1.trigger ≠ ETRIG := by decide
  have hsel : selectBuf ai1.mode = some Buf.raw_data := by decide
  -- the first channel
  obtain ⟨bus1, e1, p1, p2, p3, p4, p5, p6⟩ :=
    channelLoop_one_read zeroUninit 2 Buf.raw_data 1 0 (zeroUninit.control_reg % 65536) 15 ai1
      (busWrite heldBus (cntl_reg ai1.brd_ptr) (xy5320BuildControl zeroUninit ai1 0))
      ht (by decide) (by decide) (by decide) (by decide)
      (by
        intro i hi1 hi2
        have h0 : (busWrite heldBus (cntl_reg ai1.brd_ptr)
            (xy5320BuildControl zeroUninit ai1 0)).seen (ai_reg ai1.brd_ptr) = 0 := rfl
        rw [h0] at hi1 hi2
        show decide (i % 16 = 0) = false
        simp only [decide_eq_false_iff_not]
        omega)
  have hv0 : ((busWrite heldBus (cntl_reg ai1.brd_ptr)
      (xy5320BuildControl zeroUninit ai1 0)).rd (ai_reg ai1.brd_ptr)
      ((busWrite heldBus (cntl_reg ai1.brd_ptr)
        (xy5320BuildControl zeroUninit ai1 0)).cnt (ai_reg ai1.brd_ptr)) % 65536)
      &&& ai1.data_mask = 0x0100 := by decide
  have hctl : (if ((0 + 1 : Nat) : Int) < ai1.numChannels then
      xy5320BuildControl zeroUninit ai1 (0 + 1) else zeroUninit.control_reg % 65536) = 1 := by
    decide
  rw [hv0, hctl] at e1
  rw [hctl] at p6
  have q1 : bus1.rd = heldBus.rd := p1
  have q2 : bus1.reload = heldBus.reload := p2
  have q3 : bus1.cnt (ai_reg ai1.brd_ptr) = 1 := p3
  have q4 : bus1.seen (ai_reg ai1.brd_ptr) = 16 := p4
  have q5 : bus1.seen (cntl_reg ai1.brd_ptr) = 1 := p5
  have q6 : bus1.held (cntl_reg ai1.brd_ptr) = some 1 := p6
  -- the second channel
  have hflag : (busRead bus1 (cntl_reg ai1.brd_ptr)).1 &&& CTRIG = 0 := by
    rw [(busRead_kept bus1 (cntl_reg ai1.brd_ptr) 1 (by rw [q2, q5]; decide) q6).1]
    decide
  obtain ⟨bus2, e2, r1, _, r3, _, _, _⟩ :=
    channelLoop_one_read zeroUninit 2 Buf.raw_data 0 1 1 15
      (storeBuf (some Buf.raw_data) ai1 0 0x0100) bus1
      (by decide) (by decide) (by decide) hflag
      (by
        show bus1.reload (ai_reg ai1.brd_ptr) (bus1.seen (ai_reg ai1.brd_ptr)) = true
        rw [q2, q4]
        decide)
      (by
        intro i hi1 hi2
        have hi1' : bus1.seen (ai_reg ai1.brd_ptr) + 1 ≤ i := hi1
        have hi2' : i < bus1.seen (ai_reg ai1.brd_ptr) + 1 + 15 := hi2
        rw [q4] at hi1' hi2'
        show bus1.reload (ai_reg ai1.brd_ptr) i = false
        rw [q2]
        show decide (i % 16 = 0) = false
        simp only [decide_eq_false_iff_not]
        omega)
  have hv1 : (bus1.rd (ai_reg ai1.brd_ptr) (bus1.cnt (ai_reg ai1.brd_ptr)) % 65536)
      &&& ai1.data_mask = 0x0300 := by
    rw [q1, q3]
    decide
  have e2' : channelLoop zeroUninit 2 (some Buf.raw_data) (0 + 1) 1 1
        (storeBuf (some Buf.raw_data) ai1 0 0x0100) bus1
      = channelLoop zeroUninit 2 (some Buf.raw_data) 0 ((1 + 1) % 65536)
          (if ((1 + 1 : Nat) : Int) < ai1.numChannels then
            xy5320BuildControl zeroUninit (storeBuf (some Buf.raw_data) ai1 0 0x0100) (1 + 1)
            else 1)
          (storeBuf (some Buf.raw_data) (storeBuf (some Buf.raw_data) ai1 0 0x0100) 1 0x0300)
          bus2 := by
    rw [← hv1]
    exact e2
  refine ⟨storeBuf (some Buf.raw_data) (storeBuf (some Buf.raw_data) ai1 0 0x0100) 1 0x0300,
    bus2, ?_, rfl, rfl, ?_⟩
  · unfold xy5320ReadInputs
    rw [hsel]
    refine e1.trans (e2'.trans ?_)
    unfold channelLoop
    rw [if_neg (by decide)]
  · have r3' : bus2.cnt (ai_reg ai1.brd_ptr) = bus1.cnt (ai_reg ai1.brd_ptr) + 1 := r3
    rw [r3', q3]

/-! ## Agreement of the two lookup tables -/

/-- C30: for every range in -5..5, -10..10, 0..10 and every gain in 1, 2, 4, 8
the high calibration voltage `xy5320CorrectInputs` selects is the nominal
voltage of the calibration channel whose number `xy5320BuildControl` puts into
the control word in CAL mode, and the low calibration voltage it selects
(0.6125 for 0..10, 0 otherwise) is the voltage of the source
`xy5320BuildControl` selects in AZV mode (CAL3 for 0..10, the auto-zero input
otherwise). -/
theorem xy5320_lookup_tables_agree (u : Uninit) (c : config5320) (index : Nat)
    (hr : c.range = RANGE_5TO5 ∨ c.range = RANGE_10TO10 ∨ c.range = RANGE_0TO10)
    (hg : (c.s_array index).gain = GAIN_X1 ∨ (c.s_array index).gain = GAIN_X2 ∨
      (c.s_array index).gain = GAIN_X4 ∨ (c.s_array index).gain = GAIN_X8) :
    (correctSelect c.range (c.s_array index).gain u.calhi u.i_zero u.i_span).1 =
        sourceVoltage (xy5320BuildControl u { c with mode := CAL } index) ∧
      (correctSelect c.range (c.s_array index).gain u.calhi u.i_zero u.i_span).1 =
        calVoltage (buildControlGain (u.cal_ch % 256) c.range (c.s_array index).gain).1 ∧
      (correctSelect c.range (c.s_array index).gain u.calhi u.i_zero u.i_span).2.1 =
        sourceVoltage (xy5320BuildControl u { c with mode := AZV } index) ∧
      (correctSelect c.range (c.s_array index).gain u.calhi u.i_zero u.i_span).2.1 =
        (if c.range = RANGE_0TO10 then 0.6125 else 0) ∧
      xy5320BuildControl u { c with mode := AZV } index &&& 0x33F =
        (if c.range = RANGE_0TO10 then CAL3 else AZ_SELECT) := by
  unfold sourceVoltage calVoltage xy5320BuildControl buildControlGain correctSelect
  rcases hr with h | h | h <;> rcases hg with g | g | g | g <;>
    simp only [h, g] <;>
    simp +decide [RANGE_5TO5, RANGE_10TO10, RANGE_0TO10, GAIN_X1, GAIN_X2, GAIN_X4, GAIN_X8,
      CAL, AZV, DIF, SE, CAL0, CAL1, CAL2, CAL3, AZ_SELECT]

/-- C30 at the card "AI1" (range -5..5, gain 1): both tables give 4.9 V
(`CAL0`) and 0 V (auto-zero). -/
theorem xy5320_lookup_tables_agree_witness :
    (ai1.range = RANGE_5TO5 ∨ ai1.range = RANGE_10TO10 ∨ ai1.range = RANGE_0TO10) ∧
      (correctSelect ai1.range (ai1.s_array 0).gain zeroUninit.calhi zeroUninit.i_zero
          zeroUninit.i_span).1 =
        sourceVoltage (xy5320BuildControl zeroUninit { ai1 with mode := CAL } 0) :=
  ⟨Or.inl (by decide),
    (xy5320_lookup_tables_agree zeroUninit ai1 0 (Or.inl (by decide)) (Or.inl (by decide))).1⟩

end Xy5320
